import Mathlib

/-!
# db_converter: archive table codec, unpack and pack orchestration

A shallow embedding of `src/db_tools.cxx` (the `db_unpacker` and `db_packer`
classes with their static helpers) and of the constructor and destructor of
`src/xray_re/xr_mmap_reader_posix.cxx`, and the properties of them that are
checked against the specification.

Conventions of the embedding

* a `char` / `uint8_t` is a `Fin 256`, a `std::string` is a list of bytes;
* `unsigned` / `uint32_t` values are natural numbers, wrapped with `% 2^32`
  where the program can overflow, `size_t` with `% 2^64`;
* a `const uint8_t*` is a total function from index to byte;
* every call the program makes to a collaborator (file system, decompressors,
  logger) is appended to a chronological trace of `Event`s, and the answer of
  the collaborator is a function of the trace so far, so that theorems quantify
  over every behaviour of the collaborators;
* reads past the end of a chunk (undefined behaviour in the program) are the
  fault `out_of_bounds`.
-/

namespace DbConverter

/-! ## Bytes, strings, raw memory -/

/-- One `char` / `uint8_t`. -/
abbrev Byte := Fin 256

/-- A `std::string`: its bytes, without terminator. -/
abbrev Str := List Byte

/-- The bytes of an ASCII string literal. -/
def ascii (s : String) : Str :=
  s.toList.map (fun c => ⟨c.toNat % 256, Nat.mod_lt _ (by decide)⟩)

/-- The backslash character. -/
def BACKSLASH : Byte := 92

/-- The forward slash character. -/
def SLASH : Byte := 47

/-- A `const uint8_t*`: the byte found at each index from the pointer. -/
abbrev Ptr := Nat → Byte

/-- Pointer arithmetic `p + n`. -/
def Ptr.add (p : Ptr) (n : Nat) : Ptr := fun i => p (n + i)

/-- The `n` bytes starting at the pointer. -/
def Ptr.read (p : Ptr) (n : Nat) : List Byte := (List.range n).map p

/-- The pointer to the first byte of a buffer (bytes past its end read as 0). -/
def Ptr.ofBytes (bs : List Byte) : Ptr := fun i => bs.getD i 0

/-- `std::isalnum` in the "C" locale. -/
def isalnum (c : Byte) : Bool :=
  (48 ≤ c.val && c.val ≤ 57) || (65 ≤ c.val && c.val ≤ 90) || (97 ≤ c.val && c.val ≤ 122)

/-- `std::tolower` in the "C" locale, on an `unsigned char`. -/
def tolower (c : Byte) : Byte :=
  if 65 ≤ c.val ∧ c.val ≤ 90 then ⟨(c.val + 32) % 256, Nat.mod_lt _ (by decide)⟩ else c

/-- `std::replace(s.begin(), s.end(), old, new)`. -/
def std_replace (s : Str) (o n : Byte) : Str := s.map (fun c => if c = o then n else c)

/-- `s.find(m)`: the first index at which `m` occurs in `s`, `none` for `npos`. -/
def str_find : Str → Str → Option Nat
  | [], m => if m.isEmpty then some 0 else none
  | c :: s, m =>
    if m.isPrefixOf (c :: s) then some 0
    else match str_find s m with
      | none => none
      | some i => some (i + 1)

/-- `a < b` on `std::string`: lexicographic on unsigned bytes, a proper initial
segment first. -/
def str_lt : Str → Str → Bool
  | [], [] => false
  | [], _ :: _ => true
  | _ :: _, [] => false
  | a :: as, b :: bs => if a.val < b.val then true else if b.val < a.val then false else str_lt as bs

/-- `extension.compare(0, n, lit) == 0`: the first `n` bytes (or fewer, when the
string is shorter) equal the literal. -/
def compare_eq (extension : Str) (n : Nat) (lit : Str) : Bool := extension.take n == lit

/-! ## `db_tools`: recognising extensions (lines 20-43) -/

/-- `db_tools::is_xrp`. -/
def is_xrp (extension : Str) : Bool := extension == ascii ".xrp"

/-- `db_tools::is_xp`. -/
def is_xp (extension : Str) : Bool :=
  compare_eq extension 3 (ascii ".xp") && extension.length == 4 && isalnum (extension.getD 3 0)

/-- `db_tools::is_xdb`. -/
def is_xdb (extension : Str) : Bool :=
  compare_eq extension 4 (ascii ".xdb") && extension.length == 5 && isalnum (extension.getD 4 0)

/-- `db_tools::is_db`. -/
def is_db (extension : Str) : Bool :=
  compare_eq extension 3 (ascii ".db") && extension.length == 4 && isalnum (extension.getD 3 0)

/-- `db_tools::is_known`. -/
def is_known (extension : Str) : Bool :=
  is_db extension || is_xdb extension || is_xrp extension || is_xp extension

/-! ## Constants of `db_tools.hxx` and `xr_reader.hxx` -/

/-- The enumerators the program uses from `db_tools.hxx` (`DB_VERSION_*`,
`DB_CHUNK_*`) and `xr_reader::CHUNK_COMPRESSED`; the header is not part of the
sources, so their values are parameters. -/
structure db_consts where
  DB_VERSION_AUTO : Nat
  DB_VERSION_1114 : Nat
  DB_VERSION_2215 : Nat
  DB_VERSION_2945 : Nat
  DB_VERSION_2947RU : Nat
  DB_VERSION_2947WW : Nat
  DB_VERSION_XDB : Nat
  DB_CHUNK_DATA : Nat
  DB_CHUNK_HEADER : Nat
  DB_CHUNK_USERDATA : Nat
  CHUNK_COMPRESSED : Nat

/-- The six version constants, in the order of their tests in `process`. -/
def db_consts.versions (K : db_consts) : List Nat :=
  [K.DB_VERSION_1114, K.DB_VERSION_2215, K.DB_VERSION_2945,
   K.DB_VERSION_2947RU, K.DB_VERSION_2947WW, K.DB_VERSION_XDB]

/-- The assumption on the absent header: `DB_VERSION_AUTO` is 0 and the six
version constants are pairwise distinct single bits of an `unsigned`. -/
def db_consts.version_bits (K : db_consts) : Prop :=
  K.DB_VERSION_AUTO = 0 ∧ K.versions.Nodup ∧ ∀ v ∈ K.versions, ∃ k, k < 32 ∧ v = 2 ^ k

/-- The values of the constants in the upstream header. -/
def upstream_consts : db_consts where
  DB_VERSION_AUTO := 0
  DB_VERSION_1114 := 1
  DB_VERSION_2215 := 2
  DB_VERSION_2945 := 4
  DB_VERSION_2947RU := 8
  DB_VERSION_2947WW := 16
  DB_VERSION_XDB := 32
  DB_CHUNK_DATA := 0
  DB_CHUNK_HEADER := 1
  DB_CHUNK_USERDATA := 666
  CHUNK_COMPRESSED := 2147483648

/-- `DB_DEBUG` (line 16). -/
def DB_DEBUG : Bool := false

/-- `x & y` on `unsigned`. -/
def u32_and (x y : Nat) : Nat := (x &&& y) % 2 ^ 32

/-- `x | y` on `unsigned`. -/
def u32_or (x y : Nat) : Nat := (x ||| y) % 2 ^ 32

/-- `x - 1` on `unsigned` (wraps at 0). -/
def u32_pred (x : Nat) : Nat := (x + 2 ^ 32 - 1) % 2 ^ 32

/-! ## Collaborators -/

/-- The two cipher keys of `xr_scrambler`. -/
inductive cipher_config
  | CC_RU
  | CC_WW
  deriving DecidableEq, Repr

/-- An argument of a `msg` call. -/
inductive msg_arg
  | str (s : Str)
  | num (n : Nat)
  deriving DecidableEq, Repr

/-- One call of the program to a collaborator, with the answer it got. -/
inductive Event
  | msg (fmt : String) (args : List msg_arg)
  | r_open (path : Str) (ok : Bool)
  | r_close
  | w_open (path : Str) (ok : Bool)
  | w_raw (bytes : List Byte)
  | w_close
  | folder_exist (path : Str) (res : Bool)
  | create_path (path : Str) (res : Bool)
  | create_folder (path : Str) (res : Bool)
  | lzo1x_decompress_safe (src : List Byte) (dst_len : Nat) (ok : Bool)
  | lzhuf_decompress (src : List Byte)
  | archive_closed (bytes : List Byte)
  deriving DecidableEq, Repr

/-- The result of `xr_file_system::split_path`. -/
structure path_splitted where
  folder : Str
  name : Str
  extension : Str

/-- The kind of a directory entry, as `process_folder` tests it. -/
inductive entry_kind
  | directory
  | regular_file
  | other
  deriving DecidableEq, Repr

/-- One element delivered by `std::filesystem::recursive_directory_iterator`,
with its path relative to the root. -/
structure directory_entry where
  relative_path : Str
  kind : entry_kind
  deriving DecidableEq, Repr

/-- The collaborators of the program (none of them is part of the sources):
the file system, whose answers may depend on everything that happened before,
the directory iterator, the compression, checksum and cipher primitives. -/
structure Env where
  split_path : Str → path_splitted
  append_path_separator : Str → Str
  read_only : List Event → Bool
  r_open : List Event → Str → Option (List Byte)
  w_open : List Event → Str → Bool
  folder_exist : List Event → Str → Bool
  create_path : List Event → Str → Bool
  create_folder : List Event → Str → Bool
  recursive_directory_iterator : List Event → Str → List directory_entry
  lzo1x_decompress_safe : List Byte → Nat → Option (List Byte)
  lzhuf_decompress : List Byte → List Byte
  lzhuf_compress : List Byte → List Byte
  crc32 : List Byte → Nat
  encrypt : cipher_config → List Byte → List Byte
  decrypt : cipher_config → List Byte → List Byte

/-- `boost::program_options::variables_map`: the options present, each with its
value (empty for a flag). -/
abbrev variables_map := List (String × Str)

/-- `vm.count(name)`. -/
def variables_map.count (vm : variables_map) (name : String) : Nat :=
  if vm.any (fun o => o.1 == name) then 1 else 0

/-- `vm[name].as<std::string>()`. -/
def variables_map.as_string (vm : variables_map) (name : String) : Str :=
  match vm.find? (fun o => o.1 == name) with
  | some o => o.2
  | none => []

/-! ## `xr_reader` and `xr_writer` -/

/-- Why a run of the model stops without a result. -/
inductive Fault
  | out_of_bounds
  | out_of_fuel
  deriving DecidableEq, Repr

/-- Modelled from the spec: `xr_reader` (absent from the sources), a read
cursor over a chunk: `pos` bytes have been consumed, `rest` are the bytes from
the cursor to the end of the chunk. -/
structure xr_reader where
  pos : Nat
  rest : List Byte
  deriving DecidableEq, Repr

/-- A reader at the start of a chunk. -/
def xr_reader.ofBytes (bs : List Byte) : xr_reader := ⟨0, bs⟩

/-- Modelled from the spec: `xr_reader::eof`, the cursor is at the end of the
chunk. -/
def xr_reader.eof (s : xr_reader) : Bool := s.rest.isEmpty

/-- Modelled from the spec: `xr_reader::r_u16`, a little-endian u16. -/
def xr_reader.r_u16 (s : xr_reader) : Except Fault (Nat × xr_reader) :=
  match s.rest with
  | b0 :: b1 :: t => .ok (b0.val + 256 * b1.val, ⟨s.pos + 2, t⟩)
  | _ => .error .out_of_bounds

/-- Modelled from the spec: `xr_reader::r_u32`, a little-endian u32. -/
def xr_reader.r_u32 (s : xr_reader) : Except Fault (Nat × xr_reader) :=
  match s.rest with
  | b0 :: b1 :: b2 :: b3 :: t =>
    .ok (b0.val + 256 * b1.val + 65536 * b2.val + 16777216 * b3.val, ⟨s.pos + 4, t⟩)
  | _ => .error .out_of_bounds

/-- Modelled from the spec: `xr_reader::skip<char>(n)`, the `n` bytes at the
cursor, which moves past them. -/
def xr_reader.skip (s : xr_reader) (n : Nat) : Except Fault (List Byte × xr_reader) :=
  if n ≤ s.rest.length then .ok (s.rest.take n, ⟨s.pos + n, s.rest.drop n⟩)
  else .error .out_of_bounds

/-- The bytes before the first NUL, and the bytes after it. -/
def split_nul : List Byte → Option (Str × List Byte)
  | [] => none
  | b :: t =>
    if b = 0 then some ([], t)
    else match split_nul t with
      | none => none
      | some (str, rem) => some (b :: str, rem)

/-- Modelled from the spec: `xr_reader::r_sz`, a NUL-terminated string; the
cursor moves past the terminator. -/
def xr_reader.r_sz (s : xr_reader) : Except Fault (Str × xr_reader) :=
  match split_nul s.rest with
  | some (str, rem) => .ok (str, ⟨s.pos + str.length + 1, rem⟩)
  | none => .error .out_of_bounds

/-- The four bytes `w_u32` writes. -/
def u32_bytes (v : Nat) : List Byte :=
  [⟨v % 256, Nat.mod_lt _ (by decide)⟩, ⟨v / 256 % 256, Nat.mod_lt _ (by decide)⟩,
   ⟨v / 65536 % 256, Nat.mod_lt _ (by decide)⟩, ⟨v / 16777216 % 256, Nat.mod_lt _ (by decide)⟩]

/-- The two bytes `w_u16` writes. -/
def u16_bytes (v : Nat) : List Byte :=
  [⟨v % 256, Nat.mod_lt _ (by decide)⟩, ⟨v / 256 % 256, Nat.mod_lt _ (by decide)⟩]

/-- Modelled from the spec: `xr_writer` (absent from the sources): the bytes
written so far and the stack of open chunks (the position of each one's
payload). -/
structure xr_writer where
  bytes : List Byte
  open_chunks : List Nat
  deriving DecidableEq, Repr

/-- A writer that has written nothing. -/
def xr_writer.empty : xr_writer := ⟨[], []⟩

/-- Modelled from the spec: `xr_writer::tell`. -/
def xr_writer.tell (w : xr_writer) : Nat := w.bytes.length

/-- Modelled from the spec: `xr_writer::w_raw`. -/
def xr_writer.w_raw (w : xr_writer) (bs : List Byte) : xr_writer := { w with bytes := w.bytes ++ bs }

/-- Modelled from the spec: `xr_writer::w_u32`. -/
def xr_writer.w_u32 (w : xr_writer) (v : Nat) : xr_writer := w.w_raw (u32_bytes v)

/-- Modelled from the spec: `xr_writer::w_size_u32`, a `size_t` narrowed to
32 bits. -/
def xr_writer.w_size_u32 (w : xr_writer) (v : Nat) : xr_writer := w.w_u32 (v % 2 ^ 32)

/-- Modelled from the spec: `xr_writer::w_size_u16`, a `size_t` narrowed to
16 bits. -/
def xr_writer.w_size_u16 (w : xr_writer) (v : Nat) : xr_writer := w.w_raw (u16_bytes (v % 2 ^ 16))

/-- Modelled from the spec: `xr_writer::open_chunk`, the chunk header
`id:u32, size:u32` with the size still to be patched. -/
def xr_writer.open_chunk (w : xr_writer) (id : Nat) : xr_writer :=
  let w1 := (w.w_u32 id).w_u32 0
  { w1 with open_chunks := w1.tell :: w1.open_chunks }

/-- Modelled from the spec: `xr_writer::close_chunk`, which back-patches the
size field of the innermost open chunk. -/
def xr_writer.close_chunk (w : xr_writer) : xr_writer :=
  match w.open_chunks with
  | [] => w
  | p :: ps =>
    { bytes := w.bytes.take (p - 4) ++ u32_bytes ((w.tell - p) % 2 ^ 32) ++ w.bytes.drop p,
      open_chunks := ps }

/-! ## Writing one extracted file (lines 50-60 and 202-239)

Every function below that talks to a collaborator takes the trace `hist` of
what happened before its call and returns the events it adds. -/

/-- The static `write_file(fs, path, data, size)` (lines 50-60): open the
target, and when that succeeds write `size` bytes from `data` and close.
Returns the success flag and the events added. -/
def write_file_raw (env : Env) (hist : List Event) (path : Str) (data : Ptr) (size : Nat) :
    Bool × List Event :=
  if env.w_open hist path then
    (true, [Event.w_open path true, Event.w_raw (data.read size), Event.w_close])
  else
    (false, [Event.w_open path false])

/-- The first part of `write_file(fs, path, data, size_real, size_compressed)`
(lines 204-215): the buffer and the size the write will use, `none` when the
function returns at line 211, and the events added.
`env.lzo1x_decompress_safe src n` is `none` when the decompressor does not
return `LZO_E_OK`, and otherwise the bytes it stored in the destination buffer
(their number is the value left in `size`). -/
def write_file_source (env : Env) (data : Ptr) (size_real size_compressed : Nat) :
    Option (Ptr × Nat) × List Event :=
  if size_real ≠ size_compressed then
    let src := data.read size_compressed
    match env.lzo1x_decompress_safe src size_real with
    | none => (none, [Event.lzo1x_decompress_safe src size_real false])
    | some temp =>
      (some (Ptr.ofBytes temp, temp.length % 2 ^ 32),
        [Event.lzo1x_decompress_safe src size_real true])
  else (some (data, size_real), [])

/-- The write with its fallback (lines 217-231): one attempt, and when it
fails the parent folder is created if it does not exist and the write is
attempted once more. Returns `success` and the events added. -/
def write_file_retry (env : Env) (hist : List Event) (path : Str) (data : Ptr) (size_real : Nat) :
    Bool × List Event :=
  let first := write_file_raw env hist path data size_real
  if !first.1 then
    let folder := (env.split_path path).folder
    let exist := env.folder_exist (hist ++ first.2) folder
    let ev2 := [Event.folder_exist folder exist]
    let ev3 :=
      if !exist then [Event.create_path folder (env.create_path (hist ++ first.2 ++ ev2) folder)]
      else []
    let second := write_file_raw env (hist ++ first.2 ++ ev2 ++ ev3) path data size_real
    (second.1, first.2 ++ ev2 ++ ev3 ++ second.2)
  else first

/-- The static `write_file(fs, path, data, size_real, size_compressed)` (lines
202-239). Returns the success flag and the events added. -/
def write_file (env : Env) (hist : List Event) (path : Str) (data : Ptr)
    (size_real size_compressed : Nat) : Bool × List Event :=
  match write_file_source env data size_real size_compressed with
  | (none, ev) => (false, ev)
  | (some (data1, size_real1), ev) =>
    let r := write_file_retry env (hist ++ ev) path data1 size_real1
    if !r.1 then (false, ev ++ r.2 ++ [Event.msg "can't write %s" [msg_arg.str path]])
    else (true, ev ++ r.2)

/-! ## The unpacker's table loops (lines 241-408)

Each loop returns the records it read, the events it added, and either the
reader it ended with or the fault that stopped it. -/

/-- The filter test shared by the four loops:
`mask.length() > 0 && offset != 0 && path.find(mask) == std::string::npos`. -/
def mask_skips (mask : Str) (offset : Nat) (path : Str) : Bool :=
  decide (mask.length > 0) && decide (offset ≠ 0) && (str_find path mask).isNone

/-- The fields of one record of layout 1114, in the order they are read. -/
structure entry_1114 where
  temp : Str
  uncompressed : Nat
  offset : Nat
  size : Nat
  deriving DecidableEq, Repr

/-- The fields of one record of layout 2215, in the order they are read. -/
structure entry_2215 where
  path : Str
  offset : Nat
  size_real : Nat
  size_compressed : Nat
  deriving DecidableEq, Repr

/-- The struct `db_file` of `db_tools.hxx`; also used for the fields the loops
of layouts 2945 and 2947 read. -/
structure db_file where
  path : Str
  crc : Nat
  offset : Nat
  size_real : Nat
  size_compressed : Nat
  deriving DecidableEq, Repr

/-- The reads of one iteration of `extract_1114` (lines 246-251). -/
def read_1114 (s : xr_reader) : Except Fault (entry_1114 × xr_reader) := do
  let (temp, s1) ← s.r_sz
  let (uncompressed, s2) ← s1.r_u32
  let (offset, s3) ← s2.r_u32
  let (size, s4) ← s3.r_u32
  pure (⟨temp, uncompressed, offset, size⟩, s4)

/-- The rest of one iteration of `extract_1114` (lines 247 and 253-293).
`path` is the loop variable of that name, which keeps its value from one
iteration to the next; the result is its new value and the events added. -/
def step_1114 (env : Env) (pfx mask : Str) (data : Ptr) (path : Str) (e : entry_1114)
    (hist : List Event) : Str × List Event :=
  let path1 := std_replace path BACKSLASH SLASH
  if mask_skips mask e.offset path1 then (path1, [])
  else if DB_DEBUG && env.read_only hist then
    (path1, [Event.msg "%s" [msg_arg.str e.temp],
      Event.msg "  offset: %u" [msg_arg.num e.offset],
      if e.uncompressed ≠ 0 then Event.msg "  size (real): %u" [msg_arg.num e.size]
      else Event.msg "  size (compressed): %u" [msg_arg.num e.size]])
  else
    let path2 := pfx ++ e.temp
    let folder := (env.split_path path2).folder
    let exist := env.folder_exist hist folder
    let ev1 := [Event.folder_exist folder exist]
    let ev2 :=
      if !exist then [Event.create_path folder (env.create_path (hist ++ ev1) folder)] else []
    if e.uncompressed ≠ 0 then
      (path2, ev1 ++ ev2 ++
        (write_file_raw env (hist ++ ev1 ++ ev2) path2 (data.add e.offset) e.size).2)
    else
      let src := (data.add e.offset).read e.size
      let p := env.lzhuf_decompress src
      let ev3 := [Event.lzhuf_decompress src]
      if p.length ≠ 0 then
        (path2, ev1 ++ ev2 ++ ev3 ++
          (write_file_raw env (hist ++ ev1 ++ ev2 ++ ev3) path2 (Ptr.ofBytes p) p.length).2)
      else (path2, ev1 ++ ev2 ++ ev3)

/-- The loop of `db_unpacker::extract_1114` (lines 244-294), from a given value
of the loop variable `path`. -/
def extract_1114_loop (env : Env) (pfx mask : Str) (data : Ptr) :
    Nat → Str → xr_reader → List Event → List entry_1114 × List Event × Except Fault xr_reader
  | fuel, path, s, hist =>
    if s.eof then ([], [], .ok s)
    else match fuel with
      | 0 => ([], [], .error .out_of_fuel)
      | fuel + 1 =>
        match read_1114 s with
        | .error f => ([], [], .error f)
        | .ok (e, s1) =>
          let r := step_1114 env pfx mask data path e hist
          let rest := extract_1114_loop env pfx mask data fuel r.1 s1 (hist ++ r.2)
          (e :: rest.1, r.2 ++ rest.2.1, rest.2.2)

/-- The function `db_unpacker::extract_1114`. -/
def extract_1114 (env : Env) (pfx mask : Str) (s : xr_reader) (data : Ptr) (hist : List Event) :
    List entry_1114 × List Event × Except Fault xr_reader :=
  extract_1114_loop env pfx mask data s.rest.length [] s hist

/-- The reads of one iteration of `extract_2215` (lines 302-307). -/
def read_2215 (s : xr_reader) : Except Fault (entry_2215 × xr_reader) := do
  let (path, s1) ← s.r_sz
  let (offset, s2) ← s1.r_u32
  let (size_real, s3) ← s2.r_u32
  let (size_compressed, s4) ← s3.r_u32
  pure (⟨std_replace path BACKSLASH SLASH, offset, size_real, size_compressed⟩, s4)

/-- The rest of one iteration of `extract_2215` (lines 309-328). -/
def step_2215 (env : Env) (pfx mask : Str) (data : Ptr) (e : entry_2215) (hist : List Event) :
    List Event :=
  if mask_skips mask e.offset e.path then []
  else if DB_DEBUG && env.read_only hist then
    [Event.msg "%s" [msg_arg.str e.path], Event.msg "  offset: %u" [msg_arg.num e.offset],
      Event.msg "  size (real): %u" [msg_arg.num e.size_real],
      Event.msg "  size (compressed): %u" [msg_arg.num e.size_compressed]]
  else if e.offset = 0 then
    [Event.create_folder (pfx ++ e.path) (env.create_folder hist (pfx ++ e.path))]
  else (write_file env hist (pfx ++ e.path) (data.add e.offset) e.size_real e.size_compressed).2

/-- The loop of `db_unpacker::extract_2215` (lines 300-329). -/
def extract_2215_loop (env : Env) (pfx mask : Str) (data : Ptr) :
    Nat → xr_reader → List Event → List entry_2215 × List Event × Except Fault xr_reader
  | fuel, s, hist =>
    if s.eof then ([], [], .ok s)
    else match fuel with
      | 0 => ([], [], .error .out_of_fuel)
      | fuel + 1 =>
        match read_2215 s with
        | .error f => ([], [], .error f)
        | .ok (e, s1) =>
          let ev := step_2215 env pfx mask data e hist
          let rest := extract_2215_loop env pfx mask data fuel s1 (hist ++ ev)
          (e :: rest.1, ev ++ rest.2.1, rest.2.2)

/-- The function `db_unpacker::extract_2215`. -/
def extract_2215 (env : Env) (pfx mask : Str) (s : xr_reader) (data : Ptr) (hist : List Event) :
    List entry_2215 × List Event × Except Fault xr_reader :=
  extract_2215_loop env pfx mask data s.rest.length s hist

/-- The reads of one iteration of `extract_2945` (lines 337-343). -/
def read_2945 (s : xr_reader) : Except Fault (db_file × xr_reader) := do
  let (path, s1) ← s.r_sz
  let (crc, s2) ← s1.r_u32
  let (offset, s3) ← s2.r_u32
  let (size_real, s4) ← s3.r_u32
  let (size_compressed, s5) ← s4.r_u32
  pure (⟨std_replace path BACKSLASH SLASH, crc, offset, size_real, size_compressed⟩, s5)

/-- The rest of one iteration of `extract_2945` (lines 345-365). -/
def step_2945 (env : Env) (pfx mask : Str) (data : Ptr) (e : db_file) (hist : List Event) :
    List Event :=
  if mask_skips mask e.offset e.path then []
  else if DB_DEBUG && env.read_only hist then
    [Event.msg "%s" [msg_arg.str e.path], Event.msg "  crc: 0x%8.8x" [msg_arg.num e.crc],
      Event.msg "  offset: %u" [msg_arg.num e.offset],
      Event.msg "  size (real): %u" [msg_arg.num e.size_real],
      Event.msg "  size (compressed): %u" [msg_arg.num e.size_compressed]]
  else if e.offset = 0 then
    [Event.create_folder (pfx ++ e.path) (env.create_folder hist (pfx ++ e.path))]
  else (write_file env hist (pfx ++ e.path) (data.add e.offset) e.size_real e.size_compressed).2

/-- The loop of `db_unpacker::extract_2945` (lines 335-366). -/
def extract_2945_loop (env : Env) (pfx mask : Str) (data : Ptr) :
    Nat → xr_reader → List Event → List db_file × List Event × Except Fault xr_reader
  | fuel, s, hist =>
    if s.eof then ([], [], .ok s)
    else match fuel with
      | 0 => ([], [], .error .out_of_fuel)
      | fuel + 1 =>
        match read_2945 s with
        | .error f => ([], [], .error f)
        | .ok (e, s1) =>
          let ev := step_2945 env pfx mask data e hist
          let rest := extract_2945_loop env pfx mask data fuel s1 (hist ++ ev)
          (e :: rest.1, ev ++ rest.2.1, rest.2.2)

/-- The function `db_unpacker::extract_2945`. -/
def extract_2945 (env : Env) (pfx mask : Str) (s : xr_reader) (data : Ptr) (hist : List Event) :
    List db_file × List Event × Except Fault xr_reader :=
  extract_2945_loop env pfx mask data s.rest.length s hist

/-- The value `s->r_u16() - 16` stored in a `size_t` (line 374): the
subtraction is done on `int` and the result converted to 64 bits. -/
def name_size_of (len : Nat) : Nat := (len + 2 ^ 64 - 16) % 2 ^ 64

/-- The reads of one iteration of `extract_2947` (lines 374-384). The `path`
of the result is the loop variable `path`, the output prefix followed by the
normalised name. -/
def read_2947 (pfx : Str) (s : xr_reader) : Except Fault (db_file × xr_reader) := do
  let (len, s1) ← s.r_u16
  let name_size := name_size_of len
  let (size_real, s2) ← s1.r_u32
  let (size_compressed, s3) ← s2.r_u32
  let (crc, s4) ← s3.r_u32
  let (name, s5) ← s4.skip name_size
  let (offset, s6) ← s5.r_u32
  pure (⟨pfx ++ std_replace name BACKSLASH SLASH, crc, offset, size_real, size_compressed⟩, s6)

/-- The rest of one iteration of `extract_2947` (lines 386-406); `e.path` is
the loop variable `path`. The string printed at line 393 is the part of
`name` from index `name_size` on, which is empty. -/
def step_2947 (env : Env) (mask : Str) (data : Ptr) (e : db_file) (hist : List Event) :
    List Event :=
  if mask_skips mask e.offset e.path then []
  else if DB_DEBUG && env.read_only hist then
    [Event.msg "%s" [msg_arg.str []],
      Event.msg "  offset: %u" [msg_arg.num e.offset],
      Event.msg "  size (real): %u" [msg_arg.num e.size_real],
      Event.msg "  size (compressed): %u" [msg_arg.num e.size_compressed],
      Event.msg "  crc: 0x%8.8x" [msg_arg.num e.crc]]
  else if e.offset = 0 then
    [Event.create_path e.path (env.create_path hist e.path)]
  else (write_file env hist e.path (data.add e.offset) e.size_real e.size_compressed).2

/-- The loop of `db_unpacker::extract_2947` (lines 372-407). -/
def extract_2947_loop (env : Env) (pfx mask : Str) (data : Ptr) :
    Nat → xr_reader → List Event → List db_file × List Event × Except Fault xr_reader
  | fuel, s, hist =>
    if s.eof then ([], [], .ok s)
    else match fuel with
      | 0 => ([], [], .error .out_of_fuel)
      | fuel + 1 =>
        match read_2947 pfx s with
        | .error f => ([], [], .error f)
        | .ok (e, s1) =>
          let ev := step_2947 env mask data e hist
          let rest := extract_2947_loop env pfx mask data fuel s1 (hist ++ ev)
          (e :: rest.1, ev ++ rest.2.1, rest.2.2)

/-- The function `db_unpacker::extract_2947`. -/
def extract_2947 (env : Env) (pfx mask : Str) (s : xr_reader) (data : Ptr) (hist : List Event) :
    List db_file × List Event × Except Fault xr_reader :=
  extract_2947_loop env pfx mask data s.rest.length s hist

/-! ## `db_unpacker::process` (lines 62-200) -/

/-- The version word of `db_unpacker::process` at line 100: the explicit flags
or-ed together (lines 77-90) and, when that leaves `DB_VERSION_AUTO`, the
version inferred from the extension (lines 91-99). -/
def unpack_version (K : db_consts) (vm : variables_map) (extension : Str) : Nat :=
  let v0 := K.DB_VERSION_AUTO
  let v1 := if vm.count "11xx" ≠ 0 then u32_or v0 K.DB_VERSION_1114 else v0
  let v2 := if vm.count "2215" ≠ 0 then u32_or v1 K.DB_VERSION_2215 else v1
  let v3 := if vm.count "2945" ≠ 0 then u32_or v2 K.DB_VERSION_2945 else v2
  let v4 := if vm.count "2947ru" ≠ 0 then u32_or v3 K.DB_VERSION_2947RU else v3
  let v5 := if vm.count "2947ww" ≠ 0 then u32_or v4 K.DB_VERSION_2947WW else v4
  let v6 := if vm.count "xdb" ≠ 0 then u32_or v5 K.DB_VERSION_XDB else v5
  if v6 = K.DB_VERSION_AUTO then
    if is_xdb extension then u32_or v6 K.DB_VERSION_XDB
    else if is_xrp extension then u32_or v6 K.DB_VERSION_1114
    else if is_xp extension then u32_or v6 K.DB_VERSION_2215
    else v6
  else v6

/-- The test of lines 100 and 450:
`version == DB_VERSION_AUTO || (version & (version - 1)) != 0`. -/
def version_rejected (K : db_consts) (version : Nat) : Bool :=
  decide (version = K.DB_VERSION_AUTO) || decide (u32_and version (u32_pred version) ≠ 0)

/-- Modelled from the spec: `xr_reader::find_chunk` (absent from the sources),
the scan of the sibling chunks `id:u32, size:u32, payload` of a container for
the first one whose id, without the compressed flag, is `id`; gives the flag
and the payload. -/
def find_chunk (K : db_consts) (id : Nat) : Nat → List Byte → Option (Bool × List Byte)
  | 0, _ => none
  | fuel + 1, bs =>
    match (xr_reader.ofBytes bs).r_u32 with
    | .error _ => none
    | .ok (cid, s1) =>
      match s1.r_u32 with
      | .error _ => none
      | .ok (size, s2) =>
        if size ≤ s2.rest.length then
          if u32_and cid (2 ^ 32 - 1 - K.CHUNK_COMPRESSED) = id then
            some (decide (u32_and cid K.CHUNK_COMPRESSED ≠ 0), s2.rest.take size)
          else find_chunk K id fuel (s2.rest.drop size)
        else none

/-- Modelled from the spec: `xr_reader::open_chunk(id)` and
`open_chunk(id, scrambler)` (absent from the sources): the stored bytes of the
chunk, deciphered first when a cipher is supplied, then decompressed with the
table codec when the chunk carries the compressed flag. -/
def open_chunk (K : db_consts) (env : Env) (archive : List Byte) (id : Nat)
    (scrambler : Option cipher_config) : Option (List Byte) :=
  match find_chunk K id (archive.length + 1) archive with
  | none => none
  | some (compressed, stored) =>
    let plain := match scrambler with
      | none => stored
      | some cc => env.decrypt cc stored
    some (if compressed then env.lzhuf_decompress plain else plain)

/-- The header chunk `s` of `db_unpacker::process` (lines 129-153). -/
def unpack_header (K : db_consts) (env : Env) (version : Nat) (archive : List Byte) :
    Option (List Byte) :=
  if version = K.DB_VERSION_1114 ∨ version = K.DB_VERSION_2215 ∨
      version = K.DB_VERSION_2945 ∨ version = K.DB_VERSION_XDB then
    open_chunk K env archive K.DB_CHUNK_HEADER none
  else if version = K.DB_VERSION_2947RU then
    open_chunk K env archive K.DB_CHUNK_HEADER (some cipher_config.CC_RU)
  else if version = K.DB_VERSION_2947WW then
    open_chunk K env archive K.DB_CHUNK_HEADER (some cipher_config.CC_WW)
  else none

/-- The dispatch of `db_unpacker::process` on the version (lines 157-181): the
events added and the fault, if any, that stopped the loop. -/
def unpack_extract (K : db_consts) (env : Env) (version : Nat) (output_folder mask : Str)
    (s : xr_reader) (data : Ptr) (hist : List Event) : List Event × Option Fault :=
  if version = K.DB_VERSION_1114 then
    let r := extract_1114 env output_folder mask s data hist
    (r.2.1, match r.2.2 with | .ok _ => none | .error f => some f)
  else if version = K.DB_VERSION_2215 then
    let r := extract_2215 env output_folder mask s data hist
    (r.2.1, match r.2.2 with | .ok _ => none | .error f => some f)
  else if version = K.DB_VERSION_2945 then
    let r := extract_2945 env output_folder mask s data hist
    (r.2.1, match r.2.2 with | .ok _ => none | .error f => some f)
  else if version = K.DB_VERSION_2947RU ∨ version = K.DB_VERSION_2947WW ∨
      version = K.DB_VERSION_XDB then
    let r := extract_2947 env output_folder mask s data hist
    (r.2.1, match r.2.2 with | .ok _ => none | .error f => some f)
  else ([], none)

/-- The function `db_unpacker::process` (lines 62-200): the events it adds to
the trace and the fault, if any, that stopped it. The branch of line 185 is
guarded by `false` and contributes nothing. -/
def db_unpacker_process (K : db_consts) (env : Env) (vm : variables_map) (hist : List Event) :
    List Event × Option Fault :=
  if vm.count "unpack" = 0 then ([Event.msg "Missing file path" []], none)
  else
    let source := vm.as_string "unpack"
    let path_splitted := env.split_path source
    let extension := path_splitted.extension
    let version := unpack_version K vm extension
    if version_rejected K version then ([Event.msg "unspecified DB format" []], none)
    else
      match env.r_open hist source with
      | none =>
        ([Event.r_open source false, Event.msg "can't load %s" [msg_arg.str source]], none)
      | some archive =>
        let ev1 := [Event.r_open source true]
        let output_folder :=
          if vm.count "out" ≠ 0 then vm.as_string "out" else path_splitted.folder
        let mask := if vm.count "flt" ≠ 0 then vm.as_string "flt" else []
        let created := env.create_path (hist ++ ev1) output_folder
        let ev2 := ev1 ++ [Event.create_path output_folder created]
        if created then
          let output_folder1 := env.append_path_separator output_folder
          match unpack_header K env version archive with
          | none => (ev2 ++ [Event.r_close], none)
          | some header =>
            let r := unpack_extract K env version output_folder1 mask
              (xr_reader.ofBytes header) (Ptr.ofBytes archive) (hist ++ ev2)
            match r.2 with
            | some f => (ev2 ++ r.1, some f)
            | none => (ev2 ++ r.1 ++ [Event.r_close], none)
        else
          (ev2 ++ [Event.msg "can't create %s" [msg_arg.str output_folder], Event.r_close], none)

/-! ## `db_packer` (lines 410-586) -/

/-- Insertion of one element in front of the first element that is greater. -/
def sort_insert {α : Type} (lt : α → α → Bool) (x : α) : List α → List α
  | [] => [x]
  | y :: ys => if lt x y then x :: y :: ys else y :: sort_insert lt x ys

/-- The call `std::sort(first, last, lt)`, modelled by insertion sort. The
standard fixes the result only up to the order of equivalent elements; the
properties proved of the sorted tables do not depend on that order. -/
def std_sort {α : Type} (lt : α → α → Bool) : List α → List α
  | [] => []
  | x :: xs => sort_insert lt x (std_sort lt xs)

/-- The comparison of line 506: `lhs->path < rhs->path`. -/
def file_lt (lhs rhs : db_file) : Bool := str_lt lhs.path rhs.path

/-- The members of `db_packer` that `process` uses. -/
structure db_packer where
  m_root : Str
  m_folders : List Str
  m_files : List db_file
  m_archive : xr_writer
  deriving DecidableEq, Repr

/-- The function `db_packer::process_file` (lines 564-586): the new state of
the packer and the events added. -/
def process_file (env : Env) (p : db_packer) (hist : List Event) (path : Str) :
    db_packer × List Event :=
  match env.r_open hist (p.m_root ++ path) with
  | some r =>
    let offset := p.m_archive.tell
    let size := r.length
    let crc := env.crc32 r % 2 ^ 32
    let archive := p.m_archive.w_raw r
    let path_lowercase := path.map tolower
    ({ p with
        m_archive := archive,
        m_files := p.m_files ++ [{ path := path_lowercase, crc := crc, offset := offset,
                                   size_real := size, size_compressed := size }] },
      [Event.r_open (p.m_root ++ path) true, Event.r_close])
  | none => (p, [Event.r_open (p.m_root ++ path) false])

/-- The loop of `db_packer::process_folder` (lines 548-561) over the entries
the directory iterator delivers. -/
def process_entries (env : Env) : List directory_entry → db_packer → List Event →
    db_packer × List Event
  | [], p, _ => (p, [])
  | entry :: rest, p, hist =>
    if entry.kind = entry_kind.directory then
      process_entries env rest { p with m_folders := p.m_folders ++ [entry.relative_path] } hist
    else if entry.kind = entry_kind.regular_file then
      let r := process_file env p hist entry.relative_path
      let q := process_entries env rest r.1 (hist ++ r.2)
      (q.1, r.2 ++ q.2)
    else process_entries env rest p hist

/-- The function `db_packer::process_folder` (lines 544-562). -/
def process_folder (env : Env) (p : db_packer) (hist : List Event) (path : Str) :
    db_packer × List Event :=
  process_entries env (env.recursive_directory_iterator hist path) p hist

/-- The body of the loop over `m_folders` (lines 493-499). -/
def write_folder_record (w : xr_writer) (it : Str) : xr_writer :=
  (((((w.w_size_u16 (it.length + 16)).w_u32 0).w_u32 0).w_u32 0).w_raw it).w_u32 0

/-- The body of the loop over `m_files` (lines 511-518). -/
def write_file_record (w : xr_writer) (file : db_file) : xr_writer :=
  (((((w.w_size_u16 (file.path.length + 16)).w_size_u32 file.size_real).w_size_u32
    file.size_compressed).w_u32 file.crc).w_raw file.path).w_size_u32 file.offset

/-- The two serialising loops of `db_packer::process` (lines 491-500 and
509-519) over given sequences of folders and files. -/
def serialise_table (folders : List Str) (files : List db_file) : xr_writer :=
  files.foldl write_file_record (folders.foldl write_folder_record xr_writer.empty)

/-- The sequence `m_folders` after line 490. -/
def sorted_folders (m_folders : List Str) : List Str := std_sort str_lt m_folders

/-- The sequence `m_files` after lines 504-507. -/
def sorted_files (m_files : List db_file) : List db_file := std_sort file_lt m_files

/-- The memory writer `w` of `db_packer::process` at line 520: the table built
from the collected `m_folders` and `m_files` (lines 487-519). -/
def packer_table (m_folders : List Str) (m_files : List db_file) : xr_writer :=
  serialise_table (sorted_folders m_folders) (sorted_files m_files)

/-- The version word of `db_packer::process` at line 450 (lines 436, 443-448). -/
def pack_version (K : db_consts) (vm : variables_map) (extension : Str) : Nat :=
  let v0 := K.DB_VERSION_AUTO
  let v1 := if vm.count "2947ru" ≠ 0 then u32_or v0 K.DB_VERSION_2947RU else v0
  let v2 := if vm.count "2947ww" ≠ 0 then u32_or v1 K.DB_VERSION_2947WW else v1
  if vm.count "xdb" ≠ 0 ∨ is_xdb extension = true then u32_or v2 K.DB_VERSION_XDB else v2

/-- The part of `db_packer::process` that embeds the userdata chunk (lines
464-479): the archive writer and the events added. -/
def pack_userdata (K : db_consts) (env : Env) (vm : variables_map) (version : Nat)
    (m_archive : xr_writer) (hist : List Event) : xr_writer × List Event :=
  if version = K.DB_VERSION_XDB ∧ vm.count "xdb_ud" ≠ 0 then
    let userdata := vm.as_string "xdb_ud"
    match env.r_open hist userdata with
    | some r =>
      (((m_archive.open_chunk K.DB_CHUNK_USERDATA).w_raw r).close_chunk,
        [Event.r_open userdata true, Event.r_close])
    | none =>
      (m_archive, [Event.r_open userdata false,
        Event.msg "can't load %s" [msg_arg.str userdata]])
  else (m_archive, [])

/-- The part of `db_packer::process` that fills the DATA chunk (lines
481-485), from the archive writer as the userdata step left it. -/
def pack_data (K : db_consts) (env : Env) (m_archive : xr_writer) (source : Str)
    (hist : List Event) : db_packer × List Event :=
  let source1 := env.append_path_separator source
  let p : db_packer :=
    { m_root := source1, m_folders := [], m_files := [],
      m_archive := m_archive.open_chunk K.DB_CHUNK_DATA }
  let r := process_folder env p hist source1
  ({ r.1 with m_archive := r.1.m_archive.close_chunk }, r.2)

/-- The bytes written into the HEADER chunk (lines 521-535): the table
compressed, and enciphered for the RU and WW variants. -/
def pack_header (K : db_consts) (env : Env) (version : Nat) (table : List Byte) : List Byte :=
  let data := env.lzhuf_compress table
  if version = K.DB_VERSION_2947RU then env.encrypt cipher_config.CC_RU data
  else if version = K.DB_VERSION_2947WW then env.encrypt cipher_config.CC_WW data
  else data

/-- The part of `db_packer::process` after the output archive was opened
(lines 464-541): the final state of the packer, with `m_folders` and `m_files`
sorted, and the events added. The last event carries the bytes of the
archive as it is closed. -/
def pack_archive (K : db_consts) (env : Env) (vm : variables_map) (version : Nat) (source : Str)
    (hist : List Event) : db_packer × List Event :=
  let u := pack_userdata K env vm version xr_writer.empty hist
  let d := pack_data K env u.1 source (hist ++ u.2)
  let w := packer_table d.1.m_folders d.1.m_files
  let ev := u.2 ++ d.2 ++ [Event.msg "folders:" []] ++
    (sorted_folders d.1.m_folders).map (fun it => Event.msg "  %s" [msg_arg.str it]) ++
    [Event.msg "files: " []] ++
    (sorted_files d.1.m_files).map (fun f => Event.msg "  %s" [msg_arg.str f.path])
  let header := pack_header K env version w.bytes
  let archive :=
    ((d.1.m_archive.open_chunk (u32_or K.DB_CHUNK_HEADER K.CHUNK_COMPRESSED)).w_raw
      header).close_chunk
  ({ d.1 with m_folders := sorted_folders d.1.m_folders, m_files := sorted_files d.1.m_files,
              m_archive := archive },
    ev ++ [Event.archive_closed archive.bytes])

/-- The function `db_packer::process` (lines 410-542): the events it adds to
the trace. -/
def db_packer_process (K : db_consts) (env : Env) (vm : variables_map) (hist : List Event) :
    List Event :=
  if vm.count "pack" = 0 then [Event.msg "Missing folder path" []]
  else
    let source := vm.as_string "pack"
    let exist := env.folder_exist hist source
    let ev1 := [Event.folder_exist source exist]
    if !exist then ev1 ++ [Event.msg "can't find %s" [msg_arg.str source]]
    else if vm.count "out" = 0 then ev1 ++ [Event.msg "Unspecifed output file" []]
    else
      let target := vm.as_string "out"
      let extension := (env.split_path target).extension
      if vm.count "11xx" ≠ 0 ∨ vm.count "12215" ≠ 0 ∨ vm.count "12945" ≠ 0 then
        ev1 ++ [Event.msg "Unsupported DB format" []]
      else
        let version := pack_version K vm extension
        if version_rejected K version then ev1 ++ [Event.msg "Unspecified DB format" []]
        else
          let opened := env.w_open (hist ++ ev1) target
          let ev2 := ev1 ++ [Event.w_open target opened]
          if !opened then ev2 ++ [Event.msg "Can't load %s" [msg_arg.str target]]
          else ev2 ++ (pack_archive K env vm version source (hist ++ ev2)).2

/-! ## Auxiliary definitions used in the statements -/

/-- The bytes one iteration of the serialising loops appends for an entry. -/
def record_bytes (f : db_file) : List Byte :=
  u16_bytes ((f.path.length + 16) % 2 ^ 16) ++ u32_bytes (f.size_real % 2 ^ 32) ++
    u32_bytes (f.size_compressed % 2 ^ 32) ++ u32_bytes f.crc ++ f.path ++
    u32_bytes (f.offset % 2 ^ 32)

/-- The entry a folder record stands for: offset 0 and zero size and crc. -/
def folder_entry (p : Str) : db_file :=
  { path := p, crc := 0, offset := 0, size_real := 0, size_compressed := 0 }

/-- An entry whose fields fit the widths of the 2947 record: no backslash in
the path, at most 65519 path bytes, every number below 2^32. -/
def fits_2947 (f : db_file) : Prop :=
  BACKSLASH ∉ f.path ∧ f.path.length ≤ 65519 ∧ f.size_real < 2 ^ 32 ∧
    f.size_compressed < 2 ^ 32 ∧ f.crc < 2 ^ 32 ∧ f.offset < 2 ^ 32

/-- The bytes of one record of layout 1114 (name, NUL, uncompressed, offset,
size). -/
def record_bytes_1114 (e : entry_1114) : List Byte :=
  e.temp ++ [0] ++ u32_bytes e.uncompressed ++ u32_bytes e.offset ++ u32_bytes e.size

/-- The bytes of one record of layout 2215 (path, NUL, offset, size_real,
size_compressed). -/
def record_bytes_2215 (e : entry_2215) : List Byte :=
  e.path ++ [0] ++ u32_bytes e.offset ++ u32_bytes e.size_real ++ u32_bytes e.size_compressed

/-- The bytes of one record of layout 2945 (path, NUL, crc, offset, size_real,
size_compressed). -/
def record_bytes_2945 (e : db_file) : List Byte :=
  e.path ++ [0] ++ u32_bytes e.crc ++ u32_bytes e.offset ++ u32_bytes e.size_real ++
    u32_bytes e.size_compressed

/-- A plain `split_path` for running the program on concrete inputs: the
folder ends with the last slash, the extension starts at the last dot of what
follows. -/
def sample_split_path (p : Str) : path_splitted :=
  let r := p.reverse.span (fun c => c ≠ SLASH)
  let e := r.1.span (fun c => c ≠ (46 : Byte))
  if e.2 = [] then ⟨r.2.reverse, r.1.reverse, []⟩
  else ⟨r.2.reverse, (e.2.drop 1).reverse, (46 : Byte) :: e.1.reverse⟩

/-- A file system on which every operation fails, with primitives that leave
the bytes as they are; used to run the program on concrete inputs. -/
def failing_env : Env where
  split_path := sample_split_path
  append_path_separator := fun p => p ++ [SLASH]
  read_only := fun _ => false
  r_open := fun _ _ => none
  w_open := fun _ _ => false
  folder_exist := fun _ _ => false
  create_path := fun _ _ => false
  create_folder := fun _ _ => false
  recursive_directory_iterator := fun _ _ => []
  lzo1x_decompress_safe := fun _ _ => none
  lzhuf_decompress := fun b => b
  lzhuf_compress := fun b => b
  crc32 := fun _ => 0
  encrypt := fun _ b => b
  decrypt := fun _ b => b

/-- A file system on which every operation succeeds and every file that is
opened for reading is empty, with primitives that leave the bytes as they
are; used to run the program on concrete inputs. -/
def working_env : Env where
  split_path := sample_split_path
  append_path_separator := fun p => p ++ [SLASH]
  read_only := fun _ => false
  r_open := fun _ _ => some []
  w_open := fun _ _ => true
  folder_exist := fun _ _ => true
  create_path := fun _ _ => true
  create_folder := fun _ _ => true
  recursive_directory_iterator := fun _ _ => []
  lzo1x_decompress_safe := fun b _ => some b
  lzhuf_decompress := fun b => b
  lzhuf_compress := fun b => b
  crc32 := fun _ => 0
  encrypt := fun _ b => b
  decrypt := fun _ b => b

/-- The explicit version flags of the unpacker with their constants, in the
order of the tests of lines 79-90. -/
def flag_table (K : db_consts) (vm : variables_map) : List (Bool × Nat) :=
  [(decide (vm.count "11xx" ≠ 0), K.DB_VERSION_1114),
   (decide (vm.count "2215" ≠ 0), K.DB_VERSION_2215),
   (decide (vm.count "2945" ≠ 0), K.DB_VERSION_2945),
   (decide (vm.count "2947ru" ≠ 0), K.DB_VERSION_2947RU),
   (decide (vm.count "2947ww" ≠ 0), K.DB_VERSION_2947WW),
   (decide (vm.count "xdb" ≠ 0), K.DB_VERSION_XDB)]

/-- The constants of the explicit version flags that are given. -/
def given_flags (K : db_consts) (vm : variables_map) : List Nat :=
  ((flag_table K vm).filter (fun bc => bc.1)).map (fun bc => bc.2)

/-- The bitwise or of a list of words. -/
def or_all (l : List Nat) : Nat := l.foldl (fun x y => x ||| y) 0

/-- The version the extension stands for (lines 93-98), `DB_VERSION_AUTO` when
it stands for none. -/
def inferred_version (K : db_consts) (extension : Str) : Nat :=
  if is_xdb extension then K.DB_VERSION_XDB
  else if is_xrp extension then K.DB_VERSION_1114
  else if is_xp extension then K.DB_VERSION_2215
  else K.DB_VERSION_AUTO

/-- One test of lines 79-90: or the constant into the word when the flag is
given. -/
def or_flag (v : Nat) (bc : Bool × Nat) : Nat := if bc.1 then u32_or v bc.2 else v

/-- The sequence of entry paths of the table the packer serialises. -/
def table_entry_paths (m_folders : List Str) (m_files : List db_file) : List Str :=
  sorted_folders m_folders ++ (sorted_files m_files).map (fun f => f.path)

/-- The folder paths a traversal delivers. -/
def collected_folders (t : List directory_entry) : List Str :=
  (t.filter (fun e => decide (e.kind = entry_kind.directory))).map (fun e => e.relative_path)

/-- The paths of the file entries recorded for a traversal: the lower-cased
relative paths of the regular files that can be opened. -/
def collected_file_paths (env : Env) (m_root : Str) (t : List directory_entry) : List Str :=
  (t.filter (fun e => decide (e.kind = entry_kind.regular_file) &&
      (env.r_open [] (m_root ++ e.relative_path)).isSome)).map
    (fun e => e.relative_path.map tolower)

/-- The events a write of `bytes` to `path` can add: the calls of the two
attempts and of the fallback, and the final message. -/
def write_event (path : Str) (bytes : List Byte) (ev : Event) : Prop :=
  ev = Event.w_open path true ∨ ev = Event.w_raw bytes ∨ ev = Event.w_close ∨
    ev = Event.w_open path false ∨ (∃ f r, ev = Event.folder_exist f r) ∨
    (∃ f r, ev = Event.create_path f r) ∨ ev = Event.msg "can't write %s" [msg_arg.str path]

/-- The entry `f` stands for a regular file of the traversal `t`: its path is
the lower-cased relative path, its sizes and checksum are those of the
contents `r` read from the file, and the `r.length` bytes of `bytes` from
`f.offset`, which is not below `lo`, are `r`. -/
def file_stored (env : Env) (t : List directory_entry) (m_root : Str) (bytes : List Byte)
    (lo : Nat) (f : db_file) (r : List Byte) : Prop :=
  (∃ e ∈ t, e.kind = entry_kind.regular_file ∧ f.path = e.relative_path.map tolower ∧
      ∃ h, env.r_open h (m_root ++ e.relative_path) = some r) ∧
    f.size_real = r.length ∧ f.size_compressed = r.length ∧ f.crc = env.crc32 r % 2 ^ 32 ∧
    lo ≤ f.offset ∧ f.offset + r.length ≤ bytes.length ∧
    ((Ptr.ofBytes bytes).add f.offset).read r.length = r

/-- A source tree for running the packer on a concrete input: the folder
`Textures`, the files `Textures/Wall.DDS` and `Readme.TXT`; a file opened for
reading holds the last three bytes of its path. -/
def sample_tree_env : Env :=
  { working_env with
    recursive_directory_iterator := fun _ _ =>
      [⟨ascii "Textures", entry_kind.directory⟩,
       ⟨ascii "Textures/Wall.DDS", entry_kind.regular_file⟩,
       ⟨ascii "Readme.TXT", entry_kind.regular_file⟩]
    r_open := fun _ p => some (p.drop (p.length - 3)) }

/-- The options of a pack run into an XDB archive. -/
def sample_pack_vm : variables_map :=
  [("pack", ascii "src"), ("out", ascii "out.xdb0")]

/-- The options of a pack run with the legacy flag `2215`. -/
def legacy_pack_vm : variables_map :=
  [("pack", ascii "src"), ("out", ascii "out.xdb0"), ("2215", [])]

/-- The options of an unpack run of `gamedata.db0` with the flag `2947ru`. -/
def sample_unpack_vm : variables_map :=
  [("unpack", ascii "gamedata.db0"), ("2947ru", [])]

/-- The options of an unpack run of `gamedata.xdb0` without a version flag. -/
def sample_auto_vm : variables_map :=
  [("unpack", ascii "gamedata.xdb0")]

/-- The options of an unpack run of `gamedata.db0` without a version flag. -/
def sample_db_vm : variables_map :=
  [("unpack", ascii "gamedata.db0")]

/-- A folder and two file entries as the packer collects them, out of order. -/
def sample_folders : List Str := [ascii "b", ascii "a"]

/-- Two file entries as the packer collects them, out of order. -/
def sample_files : List db_file :=
  [{ path := ascii "b/y", crc := 7, offset := 21, size_real := 3, size_compressed := 3 },
   { path := ascii "a/x", crc := 5, offset := 8, size_real := 13, size_compressed := 13 }]

/-- The 1114 record of the file `a/b/textures/x.dds`, stored uncompressed at
offset 8 with size 1. -/
def textures_entry_1114 : entry_1114 :=
  { temp := ascii "a/b/textures/x.dds", uncompressed := 1, offset := 8, size := 1 }

/-- The 2947 entry of the file `a/b/other/x.dds`, stored uncompressed at
offset 8 with size 1. -/
def other_entry_2947 : db_file :=
  { path := ascii "a/b/other/x.dds", crc := 0, offset := 8, size_real := 1, size_compressed := 1 }

/-- The 1114 record of a file whose stored name is `a\b.txt`. -/
def backslash_entry_1114 : entry_1114 :=
  { temp := ascii "a" ++ [BACKSLASH] ++ ascii "b.txt", uncompressed := 1, offset := 8, size := 1 }

/-- The entry as the 2947 record of the table holds it: the offset and the
sizes narrowed to 32 bits by `w_size_u32`. -/
def emitted_entry (f : db_file) : db_file :=
  { f with offset := f.offset % 2 ^ 32, size_real := f.size_real % 2 ^ 32,
           size_compressed := f.size_compressed % 2 ^ 32 }

/-- The contents of a file of 2^32 - 8 bytes. -/
@[irreducible] def huge_contents : List Byte := List.replicate 4294967288 0

/-- A source tree with the file `a` of 2^32 - 8 bytes and the file `b` of one
byte, delivered in that order. -/
def huge_tree_env : Env :=
  { working_env with
    recursive_directory_iterator := fun _ _ =>
      [⟨ascii "a", entry_kind.regular_file⟩, ⟨ascii "b", entry_kind.regular_file⟩]
    r_open := fun _ p => if p = ascii "src/a" then some huge_contents else some [1] }

/-- The entry `b` as the packer records it after the file `a` of
`huge_tree_env`: its offset is 2^32. -/
def wrapped_entry : db_file :=
  { path := ascii "b", crc := 0, offset := 4294967296, size_real := 1, size_compressed := 1 }

/-! ## Further definitions used in the statements -/

/-- The tests of lines 442-447 of `db_packer::process` with their constants:
flag `2947ru`, flag `2947ww`, and flag `xdb` or an extension `is_xdb`
recognises. -/
def pack_flag_table (K : db_consts) (vm : variables_map) (extension : Str) : List (Bool × Nat) :=
  [(decide (vm.count "2947ru" ≠ 0), K.DB_VERSION_2947RU),
   (decide (vm.count "2947ww" ≠ 0), K.DB_VERSION_2947WW),
   (decide (vm.count "xdb" ≠ 0) || is_xdb extension, K.DB_VERSION_XDB)]

/-- The target variants an invocation of the packer resolves, as their
constants: those of `pack_flag_table` whose test holds. -/
def resolved_variants (K : db_consts) (vm : variables_map) (extension : Str) : List Nat :=
  ((pack_flag_table K vm extension).filter (fun bc => bc.1)).map (fun bc => bc.2)

/-- The event is neither a message nor the query whether a folder exists: it
opens, reads, creates, writes or closes a file, a folder or the archive, or
runs a decompressor. -/
def is_io : Event → Bool
  | Event.msg _ _ => false
  | Event.folder_exist _ _ => false
  | _ => true

/-- The options of a pack run with both flags `2947ru` and `2947ww`. -/
def both_flags_vm : variables_map :=
  [("pack", ascii "src"), ("out", ascii "out.db0"), ("2947ru", []), ("2947ww", [])]

/-- The events of `if (!fs.folder_exist(folder)) fs.create_path(folder)` for
the parent folder of `path` (lines 220-227 of `write_file`, lines 272-277 of
`extract_1114`), `hist` being the trace before it: the query, and the creation
when the folder does not exist. -/
def ensure_folder_events (env : Env) (hist : List Event) (path : Str) : List Event :=
  [Event.folder_exist (env.split_path path).folder
      (env.folder_exist hist (env.split_path path).folder)] ++
    if env.folder_exist hist (env.split_path path).folder then []
    else [Event.create_path (env.split_path path).folder
      (env.create_path (hist ++ [Event.folder_exist (env.split_path path).folder
        (env.folder_exist hist (env.split_path path).folder)]) (env.split_path path).folder)]

/-- The event is an attempt to open a file for writing. -/
def is_w_open : Event → Bool
  | Event.w_open _ _ => true
  | _ => false

/-- The event is the creation of a path. -/
def is_create_path : Event → Bool
  | Event.create_path _ _ => true
  | _ => false

/-- A file system on which a file can be opened for writing only after a
path has been created, and on which no folder exists at first. -/
def created_env : Env :=
  { failing_env with
    w_open := fun hist _ => hist.any is_create_path
    create_path := fun _ _ => true }

/-- The numbers of a record of layout 1114 fit their fields and the name can
be stored NUL-terminated. -/
def fits_1114 (e : entry_1114) : Prop :=
  (0 : Byte) ∉ e.temp ∧ e.uncompressed < 2 ^ 32 ∧ e.offset < 2 ^ 32 ∧ e.size < 2 ^ 32

/-- The numbers of a record of layout 2215 fit their fields and the name can
be stored NUL-terminated. -/
def fits_2215 (e : entry_2215) : Prop :=
  (0 : Byte) ∉ e.path ∧ e.offset < 2 ^ 32 ∧ e.size_real < 2 ^ 32 ∧ e.size_compressed < 2 ^ 32

/-- The numbers of a record of layout 2945 fit their fields and the name can
be stored NUL-terminated. -/
def fits_2945 (e : db_file) : Prop :=
  (0 : Byte) ∉ e.path ∧ e.crc < 2 ^ 32 ∧ e.offset < 2 ^ 32 ∧ e.size_real < 2 ^ 32 ∧
    e.size_compressed < 2 ^ 32

/-- The numbers of a record of layout 2947 fit their fields: at most 65519
name bytes, every other number below 2^32. -/
def fits_fields_2947 (f : db_file) : Prop :=
  f.path.length ≤ 65519 ∧ f.size_real < 2 ^ 32 ∧ f.size_compressed < 2 ^ 32 ∧
    f.crc < 2 ^ 32 ∧ f.offset < 2 ^ 32

/-- What the loop of layout 2215 holds after reading a record that stores `e`:
the numbers as stored and the name with `std::replace` applied (line 303). -/
def decoded_2215 (e : entry_2215) : entry_2215 :=
  entry_2215.mk (std_replace e.path BACKSLASH SLASH) e.offset e.size_real e.size_compressed

/-- What the loop of layout 2945 holds after reading a record that stores `e`:
the numbers as stored and the name with `std::replace` applied (line 338). -/
def decoded_2945 (e : db_file) : db_file :=
  db_file.mk (std_replace e.path BACKSLASH SLASH) e.crc e.offset e.size_real e.size_compressed

/-- What the loop of layout 2947 holds after reading a record that stores `f`:
the numbers as stored and, in `path`, the output prefix followed by the name
with `std::replace` applied (lines 380-382). -/
def decoded_2947 (pfx : Str) (f : db_file) : db_file :=
  db_file.mk (pfx ++ std_replace f.path BACKSLASH SLASH) f.crc f.offset f.size_real
    f.size_compressed

/-- Two records of layout 1114, the first with a backslash in its name. -/
def sample_table_1114 : List entry_1114 :=
  [entry_1114.mk (ascii "a" ++ [BACKSLASH] ++ ascii "b.txt") 1 8 100,
   entry_1114.mk (ascii "c.txt") 0 108 5]

/-- Two records of layout 2215, the first with a backslash in its name. -/
def sample_table_2215 : List entry_2215 :=
  [entry_2215.mk (ascii "a" ++ [BACKSLASH] ++ ascii "b.txt") 8 100 60,
   entry_2215.mk (ascii "dir") 0 0 0]

/-- Two records of layouts 2945 and 2947, the first with a backslash in its
name. -/
def sample_table_2945 : List db_file :=
  [db_file.mk (ascii "a" ++ [BACKSLASH] ++ ascii "b.txt") 305419896 8 100 60,
   db_file.mk (ascii "dir") 0 0 0 0]

/-- The answers of the operating system to the calls of
`xr_mmap_reader_posix`: the descriptor `::open` returns (`none` for -1), the
size `fstat` stores for a descriptor (`none` when it returns -1), the value of
`sysconf(_SC_PAGESIZE)`, the address `mmap` returns for a length and a
descriptor (`none` for `MAP_FAILED`), and whether `madvise`, `munmap`,
`posix_fadvise` and `::close` succeed. -/
structure posix_os where
  open_file : Str → Option Nat
  fstat : Nat → Option Nat
  page_size : Nat
  mmap : Nat → Nat → Option Nat
  madvise : Option Nat → Nat → Bool
  munmap : Option Nat → Nat → Bool
  posix_fadvise : Nat → Nat → Bool
  close : Nat → Bool

/-- The calls of `spdlog::error` in xr_mmap_reader_posix.cxx, by the step that
failed. -/
inductive posix_error
  | open_failed
  | stat_failed
  | mmap_failed
  | madvise_failed
  | munmap_failed
  | posix_fadvise_failed
  | close_failed
  deriving DecidableEq, Repr

/-- The descriptors that are open and the errors logged so far. -/
structure posix_state where
  open_fds : List Nat
  errors : List posix_error
  deriving DecidableEq, Repr

/-- The members of `xr_mmap_reader_posix` the constructor sets; `m_data` is
`none` for `MAP_FAILED`. -/
structure xr_mmap_reader_posix where
  m_data : Option Nat
  m_fd : Nat
  m_file_length : Nat
  m_mem_length : Nat
  deriving DecidableEq, Repr

/-- The constructor `xr_mmap_reader_posix(path)` (lines 19-66). The result is
`none` when the constructor is left through `throw;`, and the state is the one
at that point. The sizes are `std::size_t`. -/
def xr_mmap_reader_posix.constructor (os : posix_os) (path : Str) (st : posix_state) :
    Option xr_mmap_reader_posix × posix_state :=
  match os.open_file path with
  | none => (none, { st with errors := st.errors ++ [posix_error.open_failed] })
  | some fd =>
    let st1 : posix_state := { st with open_fds := fd :: st.open_fds }
    match os.fstat fd with
    | none => (none, { st1 with errors := st1.errors ++ [posix_error.stat_failed] })
    | some file_size =>
      let page_size := os.page_size
      let remainder := file_size % page_size
      let mem_size :=
        if remainder = 0 then file_size else (file_size + page_size - remainder) % 2 ^ 64
      let data := os.mmap mem_size fd
      if file_size ≠ 0 ∧ data = none then
        (none, { st1 with errors := st1.errors ++ [posix_error.mmap_failed] })
      else
        (some { m_data := data, m_fd := fd, m_file_length := file_size,
                m_mem_length := mem_size }, st1)

/-- The destructor `~xr_mmap_reader_posix()` (lines 68-98), without its
assertions: every step runs, a failing step is logged, and `::close` releases
the descriptor. -/
def xr_mmap_reader_posix.destructor (os : posix_os) (r : xr_mmap_reader_posix)
    (st : posix_state) : posix_state :=
  let e1 :=
    if r.m_mem_length ≠ 0 then
      (if os.madvise r.m_data r.m_mem_length then [] else [posix_error.madvise_failed]) ++
        (if os.munmap r.m_data r.m_mem_length then [] else [posix_error.munmap_failed])
    else []
  let e2 :=
    if os.posix_fadvise r.m_fd r.m_file_length then [] else [posix_error.posix_fadvise_failed]
  let e3 := if os.close r.m_fd then [] else [posix_error.close_failed]
  { open_fds := st.open_fds.erase r.m_fd, errors := st.errors ++ e1 ++ e2 ++ e3 }

/-- An operating system on which every call succeeds: `::open` returns the
descriptor 3, the file has 100 bytes and the page size is 4096. -/
def working_os : posix_os where
  open_file := fun _ => some 3
  fstat := fun _ => some 100
  page_size := 4096
  mmap := fun _ _ => some 65536
  madvise := fun _ _ => true
  munmap := fun _ _ => true
  posix_fadvise := fun _ _ => true
  close := fun _ => true

/-- As `working_os`, with `fstat` failing. -/
def stat_failing_os : posix_os := { working_os with fstat := fun _ => none }

/-- As `working_os`, with `mmap` failing. -/
def mmap_failing_os : posix_os := { working_os with mmap := fun _ _ => none }

theorem except_bind_ok {ε α β : Type} (a : α) (f : α → Except ε β) :
    (Except.ok a >>= f) = f a := rfl

theorem r_u16_u16_bytes (v pos : Nat) (t : List Byte) (h : v < 65536) :
    xr_reader.r_u16 ⟨pos, u16_bytes v ++ t⟩ = .ok (v, ⟨pos + 2, t⟩) := by
  simp only [xr_reader.r_u16, u16_bytes, List.cons_append, List.nil_append]
  congr 2
  omega

theorem r_u32_u32_bytes (v pos : Nat) (t : List Byte) (h : v < 4294967296) :
    xr_reader.r_u32 ⟨pos, u32_bytes v ++ t⟩ = .ok (v, ⟨pos + 4, t⟩) := by
  simp only [xr_reader.r_u32, u32_bytes, List.cons_append, List.nil_append]
  congr 2
  omega

theorem skip_append (pos : Nat) (name t : List Byte) :
    xr_reader.skip ⟨pos, name ++ t⟩ name.length = .ok (name, ⟨pos + name.length, t⟩) := by
  simp [xr_reader.skip]

theorem std_replace_of_not_mem (s : Str) (o n : Byte) (h : o ∉ s) : std_replace s o n = s := by
  induction s with
  | nil => rfl
  | cons c s ih =>
    simp only [List.mem_cons, not_or] at h
    have hc : c ≠ o := fun e => h.1 e.symm
    simp only [std_replace, List.map_cons, hc, if_false] at ih ⊢
    rw [ih h.2]

theorem write_file_record_bytes (w : xr_writer) (f : db_file) :
    (write_file_record w f).bytes = w.bytes ++ record_bytes f := by
  simp [write_file_record, record_bytes, xr_writer.w_size_u16, xr_writer.w_size_u32,
    xr_writer.w_u32, xr_writer.w_raw, List.append_assoc]

theorem write_folder_record_bytes (w : xr_writer) (p : Str) :
    (write_folder_record w p).bytes = w.bytes ++ record_bytes (folder_entry p) := by
  simp [write_folder_record, record_bytes, folder_entry, xr_writer.w_size_u16,
    xr_writer.w_u32, xr_writer.w_raw, List.append_assoc]

theorem foldl_write_file_record_bytes (files : List db_file) (w : xr_writer) :
    (files.foldl write_file_record w).bytes = w.bytes ++ (files.map record_bytes).flatten := by
  induction files generalizing w with
  | nil => simp
  | cons f fs ih => simp [ih, write_file_record_bytes, List.append_assoc]

theorem foldl_write_folder_record_bytes (folders : List Str) (w : xr_writer) :
    (folders.foldl write_folder_record w).bytes =
      w.bytes ++ ((folders.map folder_entry).map record_bytes).flatten := by
  induction folders generalizing w with
  | nil => simp
  | cons f fs ih => simp [ih, write_folder_record_bytes, List.append_assoc]

theorem serialise_table_bytes (folders : List Str) (files : List db_file) :
    (serialise_table folders files).bytes =
      ((folders.map folder_entry ++ files).map record_bytes).flatten := by
  simp [serialise_table, foldl_write_file_record_bytes, foldl_write_folder_record_bytes,
    xr_writer.empty]

theorem name_size_of_add (n : Nat) (h : n ≤ 65519) : name_size_of (n + 16) = n := by
  unfold name_size_of
  omega

theorem record_bytes_length (f : db_file) : (record_bytes f).length = f.path.length + 18 := by
  simp [record_bytes, u16_bytes, u32_bytes]

theorem read_2947_record_bytes (f : db_file) (hf : fits_2947 f) (pos : Nat) (t : List Byte) :
    read_2947 [] ⟨pos, record_bytes f ++ t⟩ = .ok (f, ⟨pos + (f.path.length + 18), t⟩) := by
  obtain ⟨hb, hl, h1, h2, h3, h4⟩ := hf
  have e16 : (f.path.length + 16) % 2 ^ 16 = f.path.length + 16 := Nat.mod_eq_of_lt (by omega)
  have k1 : f.size_real < 4294967296 := by omega
  have k2 : f.size_compressed < 4294967296 := by omega
  have k3 : f.crc < 4294967296 := by omega
  have k4 : f.offset < 4294967296 := by omega
  have m1 : f.size_real % 2 ^ 32 = f.size_real := Nat.mod_eq_of_lt h1
  have m2 : f.size_compressed % 2 ^ 32 = f.size_compressed := Nat.mod_eq_of_lt h2
  have m4 : f.offset % 2 ^ 32 = f.offset := Nat.mod_eq_of_lt h4
  unfold read_2947 record_bytes
  rw [e16, m1, m2, m4]
  simp only [List.append_assoc]
  rw [r_u16_u16_bytes _ _ _ (by omega), except_bind_ok]
  dsimp only
  rw [name_size_of_add _ hl, r_u32_u32_bytes _ _ _ k1, except_bind_ok]
  dsimp only
  rw [r_u32_u32_bytes _ _ _ k2, except_bind_ok]
  dsimp only
  rw [r_u32_u32_bytes _ _ _ k3, except_bind_ok]
  dsimp only
  rw [skip_append, except_bind_ok]
  dsimp only
  rw [r_u32_u32_bytes _ _ _ k4, except_bind_ok]
  dsimp only
  rw [std_replace_of_not_mem _ _ _ hb]
  have e : pos + 2 + 4 + 4 + 4 + f.path.length + 4 = pos + (f.path.length + 18) := by omega
  rw [e]
  rfl

theorem extract_2947_loop_eof (env : Env) (pfx mask : Str) (data : Ptr) (fuel pos : Nat)
    (hist : List Event) :
    extract_2947_loop env pfx mask data fuel ⟨pos, []⟩ hist = ([], [], .ok ⟨pos, []⟩) := by
  unfold extract_2947_loop
  rfl

theorem extract_2947_loop_step (env : Env) (pfx mask : Str) (data : Ptr) (fuel : Nat)
    (s s1 : xr_reader) (e : db_file) (hist : List Event) (hs : s.eof = false)
    (hr : read_2947 pfx s = .ok (e, s1)) :
    extract_2947_loop env pfx mask data (fuel + 1) s hist =
      (e :: (extract_2947_loop env pfx mask data fuel s1
          (hist ++ step_2947 env mask data e hist)).1,
        step_2947 env mask data e hist ++ (extract_2947_loop env pfx mask data fuel s1
          (hist ++ step_2947 env mask data e hist)).2.1,
        (extract_2947_loop env pfx mask data fuel s1
          (hist ++ step_2947 env mask data e hist)).2.2) := by
  rw [extract_2947_loop, hs, hr]
  rfl

theorem extract_2947_loop_records (env : Env) (mask : Str) (data : Ptr) (es : List db_file)
    (hes : ∀ f ∈ es, fits_2947 f) :
    ∀ (fuel pos : Nat) (hist : List Event), es.length ≤ fuel →
      (extract_2947_loop env [] mask data fuel ⟨pos, (es.map record_bytes).flatten⟩ hist).1 = es ∧
      (extract_2947_loop env [] mask data fuel ⟨pos, (es.map record_bytes).flatten⟩ hist).2.2 =
        .ok ⟨pos + (es.map record_bytes).flatten.length, []⟩ := by
  induction es with
  | nil =>
    intro fuel pos hist _
    rw [List.map_nil, List.flatten_nil, extract_2947_loop_eof]
    exact ⟨rfl, rfl⟩
  | cons f fs ih =>
    intro fuel pos hist hfuel
    obtain ⟨n, rfl⟩ : ∃ n, fuel = n + 1 := ⟨fuel - 1, by simp at hfuel; omega⟩
    have hf := hes f (List.mem_cons_self _ _)
    obtain ⟨h1, h2⟩ := ih (fun g hg => hes g (List.mem_cons_of_mem _ hg)) n
      (pos + (f.path.length + 18)) (hist ++ step_2947 env mask data f hist)
      (by simp at hfuel; omega)
    have hne : xr_reader.eof ⟨pos, record_bytes f ++ (fs.map record_bytes).flatten⟩ = false := by
      simp [xr_reader.eof, record_bytes, u16_bytes]
    rw [List.map_cons, List.flatten_cons,
      extract_2947_loop_step env [] mask data n _ _ f hist hne (read_2947_record_bytes f hf pos _)]
    refine ⟨by rw [h1], ?_⟩
    rw [h2, List.length_append, record_bytes_length, Nat.add_assoc]

theorem length_le_flatten_record_bytes (es : List db_file) :
    es.length ≤ (es.map record_bytes).flatten.length := by
  induction es with
  | nil => simp
  | cons f fs ih =>
    simp only [List.map_cons, List.flatten_cons, List.length_cons, List.length_append,
      record_bytes_length]
    omega

/-! ## Lemmas on sorting -/

theorem sort_insert_perm {α : Type} (lt : α → α → Bool) (x : α) (l : List α) :
    (sort_insert lt x l).Perm (x :: l) := by
  induction l with
  | nil => exact List.Perm.refl _
  | cons y ys ih =>
    unfold sort_insert
    split
    · exact List.Perm.refl _
    · exact (List.Perm.cons y ih).trans (List.Perm.swap x y ys)

theorem std_sort_perm {α : Type} (lt : α → α → Bool) (l : List α) :
    (std_sort lt l).Perm l := by
  induction l with
  | nil => exact List.Perm.refl _
  | cons x xs ih => exact (sort_insert_perm lt x _).trans (List.Perm.cons x ih)

theorem sort_insert_sorted {α : Type} (lt : α → α → Bool)
    (hasymm : ∀ a b, lt a b = true → lt b a = false)
    (htrans : ∀ a b c, lt b a = false → lt c b = false → lt c a = false)
    (x : α) (l : List α) (hl : l.Pairwise (fun a b => lt b a = false)) :
    (sort_insert lt x l).Pairwise (fun a b => lt b a = false) := by
  induction l with
  | nil => simp [sort_insert]
  | cons y ys ih =>
    rw [List.pairwise_cons] at hl
    unfold sort_insert
    split
    · rename_i hxy
      refine List.Pairwise.cons ?_ (List.Pairwise.cons hl.1 hl.2)
      intro z hz
      rcases List.mem_cons.1 hz with rfl | hz
      · exact hasymm _ _ hxy
      · exact htrans _ _ _ (hasymm _ _ hxy) (hl.1 z hz)
    · rename_i hxy
      refine List.Pairwise.cons ?_ (ih hl.2)
      intro z hz
      rcases List.mem_cons.1 ((sort_insert_perm lt x ys).subset hz) with rfl | hz
      · simpa using hxy
      · exact hl.1 z hz

theorem std_sort_sorted {α : Type} (lt : α → α → Bool)
    (hasymm : ∀ a b, lt a b = true → lt b a = false)
    (htrans : ∀ a b c, lt b a = false → lt c b = false → lt c a = false) (l : List α) :
    (std_sort lt l).Pairwise (fun a b => lt b a = false) := by
  induction l with
  | nil => exact List.Pairwise.nil
  | cons x xs ih => exact sort_insert_sorted lt hasymm htrans x _ ih

theorem str_lt_irrefl (a : Str) : str_lt a a = false := by
  induction a with
  | nil => rfl
  | cons c s ih => simp [str_lt, ih]

theorem str_lt_asymm (a b : Str) : str_lt a b = true → str_lt b a = false := by
  induction a generalizing b with
  | nil => cases b <;> simp [str_lt]
  | cons c s ih =>
    cases b with
    | nil => simp [str_lt]
    | cons d t =>
      simp only [str_lt]
      intro h
      by_cases h1 : c.val < d.val
      · have h2 : ¬ d.val < c.val := by omega
        simp [h1, h2]
      · by_cases h2 : d.val < c.val
        · simp [h1, h2] at h
        · simp only [h1, h2, if_false] at h ⊢
          exact ih t h

theorem str_le_trans (a b c : Str) :
    str_lt b a = false → str_lt c b = false → str_lt c a = false := by
  induction a generalizing b c with
  | nil =>
    cases b with
    | nil => intro _ h; exact h
    | cons d t => intro _ _; cases c <;> rfl
  | cons x s ih =>
    cases b with
    | nil =>
      cases c with
      | nil => simp [str_lt]
      | cons z u => simp [str_lt]
    | cons y t =>
      cases c with
      | nil => simp [str_lt]
      | cons z u =>
        simp only [str_lt]
        intro h1 h2
        by_cases a1 : y.val < x.val
        · simp [a1] at h1
        · by_cases a2 : x.val < y.val
          · by_cases b1 : z.val < y.val
            · simp [b1] at h2
            · have c1 : ¬ z.val < x.val := by omega
              have c2 : x.val < z.val := by omega
              simp [c1, c2]
          · simp only [a1, a2, if_false] at h1
            by_cases b1 : z.val < y.val
            · simp [b1] at h2
            · by_cases b2 : y.val < z.val
              · have c1 : ¬ z.val < x.val := by omega
                have c2 : x.val < z.val := by omega
                simp [c1, c2]
              · simp only [b1, b2, if_false] at h2
                have c1 : ¬ z.val < x.val := by omega
                have c2 : ¬ x.val < z.val := by omega
                simp only [c1, c2, if_false]
                exact ih t u h1 h2

theorem str_le_antisymm (a b : Str) : str_lt a b = false → str_lt b a = false → a = b := by
  induction a generalizing b with
  | nil => cases b <;> simp [str_lt]
  | cons c s ih =>
    cases b with
    | nil => simp [str_lt]
    | cons d t =>
      simp only [str_lt]
      intro h1 h2
      by_cases a1 : c.val < d.val
      · simp [a1] at h1
      · by_cases a2 : d.val < c.val
        · simp [a2] at h2
        · simp only [a1, a2, if_false] at h1 h2
          have e : c = d := Fin.ext (by omega)
          rw [e, ih t h1 h2]

/-! ## Lemmas on the version word -/

theorem testBit_of_mem_Ico (x k : Nat) (h1 : 2 ^ k ≤ x) (h2 : x < 2 ^ k * 2) :
    x.testBit k = true := by
  have e : x = 2 ^ k + (x - 2 ^ k) := by omega
  rw [e, Nat.testBit_two_pow_add_eq, Nat.testBit_lt_two_pow (by omega)]
  rfl

theorem and_pred_eq_zero_iff (v : Nat) (hv : v ≠ 0) : v &&& (v - 1) = 0 ↔ ∃ k, v = 2 ^ k := by
  constructor
  · intro h
    by_contra hne
    have h1 : 2 ^ v.log2 ≤ v := Nat.log2_self_le hv
    have h2 : v < 2 ^ (v.log2 + 1) := Nat.lt_log2_self
    have h3 : v ≠ 2 ^ v.log2 := fun e => hne ⟨_, e⟩
    rw [Nat.pow_succ] at h2
    have b1 : v.testBit v.log2 = true := testBit_of_mem_Ico v _ h1 h2
    have b2 : (v - 1).testBit v.log2 = true := testBit_of_mem_Ico (v - 1) _ (by omega) (by omega)
    have b3 : (v &&& (v - 1)).testBit v.log2 = true := by
      rw [Nat.testBit_and, b1, b2]
      rfl
    rw [h, Nat.zero_testBit] at b3
    exact Bool.noConfusion b3
  · rintro ⟨k, rfl⟩
    apply Nat.eq_of_testBit_eq
    intro i
    rw [Nat.testBit_and, Nat.testBit_two_pow, Nat.testBit_two_pow_sub_one, Nat.zero_testBit]
    by_cases h : k = i
    · subst h; simp
    · simp [h]

theorem two_pow_lt_u32 (k : Nat) (hk : k < 32) : 2 ^ k < 2 ^ 32 :=
  Nat.pow_lt_pow_right (by decide) hk

theorem version_rejected_iff (K : db_consts) (h0 : K.DB_VERSION_AUTO = 0) (v : Nat)
    (hv : v < 2 ^ 32) : version_rejected K v = false ↔ ∃ k, v = 2 ^ k := by
  have hpos : ∀ k : Nat, 2 ^ k ≠ 0 := fun k => Nat.pos_iff_ne_zero.1 (Nat.two_pow_pos k)
  by_cases hz : v = 0
  · subst hz
    simp only [version_rejected, h0, decide_True, Bool.true_or, Bool.true_eq_false, false_iff]
    rintro ⟨k, hk⟩
    exact hpos k hk.symm
  · have e1 : u32_pred v = v - 1 := by unfold u32_pred; omega
    have e2 : u32_and v (v - 1) = v &&& (v - 1) := by
      unfold u32_and
      exact Nat.mod_eq_of_lt (Nat.lt_of_le_of_lt Nat.and_le_left hv)
    rw [← and_pred_eq_zero_iff v hz]
    simp [version_rejected, h0, hz, e1, e2]

theorem u32_or_two_pow (x k : Nat) (hx : x < 2 ^ 32) (hk : k < 32) :
    u32_or x (2 ^ k) = x ||| 2 ^ k ∧ x ||| 2 ^ k < 2 ^ 32 ∧ x ||| 2 ^ k ≠ 0 := by
  have h1 : x ||| 2 ^ k < 2 ^ 32 := Nat.or_lt_two_pow hx (two_pow_lt_u32 k hk)
  refine ⟨Nat.mod_eq_of_lt h1, h1, ?_⟩
  intro h
  have b : (x ||| 2 ^ k).testBit k = true := by
    rw [Nat.testBit_or, Nat.testBit_two_pow_self, Bool.or_true]
  rw [h, Nat.zero_testBit] at b
  exact Bool.noConfusion b

theorem foldl_or_flag (pairs : List (Bool × Nat))
    (hp : ∀ bc ∈ pairs, ∃ k, k < 32 ∧ bc.2 = 2 ^ k) (v : Nat) (hv : v < 2 ^ 32) :
    pairs.foldl or_flag v =
        ((pairs.filter (fun bc => bc.1)).map (fun bc => bc.2)).foldl (fun x y => x ||| y) v ∧
      pairs.foldl or_flag v < 2 ^ 32 ∧
      (pairs.foldl or_flag v = 0 ↔
        v = 0 ∧ (pairs.filter (fun bc => bc.1)).map (fun bc => bc.2) = []) := by
  induction pairs generalizing v with
  | nil => exact ⟨rfl, hv, by simp⟩
  | cons bc rest ih =>
    obtain ⟨k, hk, hc⟩ := hp bc (List.mem_cons_self _ _)
    have hrest : ∀ bc ∈ rest, ∃ k, k < 32 ∧ bc.2 = 2 ^ k :=
      fun x hx => hp x (List.mem_cons_of_mem _ hx)
    obtain ⟨b, c⟩ := bc
    simp only at hc
    subst hc
    cases b with
    | false =>
      have := ih hrest v hv
      simpa [or_flag] using this
    | true =>
      obtain ⟨e1, e2, e3⟩ := u32_or_two_pow v k hv hk
      obtain ⟨i1, i2, i3⟩ := ih hrest (v ||| 2 ^ k) e2
      have hf : List.foldl or_flag v ((true, 2 ^ k) :: rest) =
          List.foldl or_flag (v ||| 2 ^ k) rest := by
        rw [List.foldl_cons]
        simp only [or_flag, if_true, e1]
      rw [hf]
      refine ⟨?_, i2, ?_⟩
      · rw [i1]
        rfl
      · rw [i3]
        simp [e3]

theorem unpack_version_eq_foldl (K : db_consts) (vm : variables_map) (extension : Str) :
    unpack_version K vm extension =
      if (flag_table K vm).foldl or_flag K.DB_VERSION_AUTO = K.DB_VERSION_AUTO then
        if is_xdb extension then
          u32_or ((flag_table K vm).foldl or_flag K.DB_VERSION_AUTO) K.DB_VERSION_XDB
        else if is_xrp extension then
          u32_or ((flag_table K vm).foldl or_flag K.DB_VERSION_AUTO) K.DB_VERSION_1114
        else if is_xp extension then
          u32_or ((flag_table K vm).foldl or_flag K.DB_VERSION_AUTO) K.DB_VERSION_2215
        else (flag_table K vm).foldl or_flag K.DB_VERSION_AUTO
      else (flag_table K vm).foldl or_flag K.DB_VERSION_AUTO := by
  simp only [unpack_version, flag_table, List.foldl_cons, List.foldl_nil, or_flag,
    decide_eq_true_eq]

theorem flag_table_bits (K : db_consts) (hK : K.version_bits) (vm : variables_map) :
    ∀ bc ∈ flag_table K vm, ∃ k, k < 32 ∧ bc.2 = 2 ^ k := by
  intro bc hbc
  apply hK.2.2
  simp only [flag_table, List.mem_cons, List.mem_singleton, List.not_mem_nil, or_false] at hbc
  simp only [db_consts.versions, List.mem_cons, List.mem_singleton, List.not_mem_nil, or_false]
  rcases hbc with h | h | h | h | h | h <;> simp [h]

theorem unpack_version_spec (K : db_consts) (hK : K.version_bits) (vm : variables_map)
    (extension : Str) :
    unpack_version K vm extension =
        (if given_flags K vm = [] then inferred_version K extension
         else or_all (given_flags K vm)) ∧
      unpack_version K vm extension < 2 ^ 32 := by
  have h0 : K.DB_VERSION_AUTO = 0 := hK.1
  obtain ⟨f1, f2, f3⟩ := foldl_or_flag (flag_table K vm) (flag_table_bits K hK vm) 0 (by decide)
  have bit : ∀ v ∈ K.versions, u32_or 0 v = v ∧ v < 2 ^ 32 := by
    intro v hv
    obtain ⟨k, hk, rfl⟩ := hK.2.2 v hv
    obtain ⟨e1, e2, _⟩ := u32_or_two_pow 0 k (by decide) hk
    rw [Nat.zero_or] at e1 e2
    exact ⟨e1, e2⟩
  have bx := bit K.DB_VERSION_XDB (by simp [db_consts.versions])
  have b1 := bit K.DB_VERSION_1114 (by simp [db_consts.versions])
  have b2 := bit K.DB_VERSION_2215 (by simp [db_consts.versions])
  rw [unpack_version_eq_foldl, h0]
  by_cases hg : given_flags K vm = []
  · have hz : (flag_table K vm).foldl or_flag 0 = 0 := f3.2 ⟨rfl, hg⟩
    rw [hz, if_pos rfl, if_pos hg]
    unfold inferred_version
    rw [h0]
    split
    · exact ⟨bx.1, by rw [bx.1]; exact bx.2⟩
    · split
      · exact ⟨b1.1, by rw [b1.1]; exact b1.2⟩
      · split
        · exact ⟨b2.1, by rw [b2.1]; exact b2.2⟩
        · exact ⟨rfl, by decide⟩
  · have hz : (flag_table K vm).foldl or_flag 0 ≠ 0 := fun e => hg (f3.1 e).2
    rw [if_neg hz, if_neg hg]
    exact ⟨f1, f2⟩

theorem db_unpacker_process_rejected (K : db_consts) (env : Env) (vm : variables_map)
    (hist : List Event) (hsrc : vm.count "unpack" ≠ 0)
    (hv : version_rejected K
      (unpack_version K vm (env.split_path (vm.as_string "unpack")).extension) = true) :
    db_unpacker_process K env vm hist = ([Event.msg "unspecified DB format" []], none) := by
  simp only [db_unpacker_process, hsrc, hv, if_true, if_false]

theorem db_unpacker_process_opens (K : db_consts) (env : Env) (vm : variables_map)
    (hist : List Event) (hsrc : vm.count "unpack" ≠ 0)
    (hv : version_rejected K
      (unpack_version K vm (env.split_path (vm.as_string "unpack")).extension) = false) :
    ∃ ok, Event.r_open (vm.as_string "unpack") ok ∈ (db_unpacker_process K env vm hist).1 := by
  simp only [db_unpacker_process, hsrc, hv, if_false, Bool.false_eq_true]
  cases hr : env.r_open hist (vm.as_string "unpack") with
  | none => exact ⟨false, by simp⟩
  | some archive =>
    refine ⟨true, ?_⟩
    simp only
    repeat' split
    all_goals simp

theorem upstream_consts_version_bits : upstream_consts.version_bits := by
  refine ⟨rfl, by decide, ?_⟩
  intro v hv
  simp only [db_consts.versions, upstream_consts, List.mem_cons, List.mem_singleton,
    List.not_mem_nil, or_false] at hv
  rcases hv with h | h | h | h | h | h
  · exact ⟨0, by decide, h⟩
  · exact ⟨1, by decide, h⟩
  · exact ⟨2, by decide, h⟩
  · exact ⟨3, by decide, h⟩
  · exact ⟨4, by decide, h⟩
  · exact ⟨5, by decide, h⟩

theorem ascii_xrp : ascii ".xrp" = [46, 120, 114, 112] := by decide

theorem ascii_xp : ascii ".xp" = [46, 120, 112] := by decide

theorem ascii_xdb : ascii ".xdb" = [46, 120, 100, 98] := by decide

theorem ascii_db : ascii ".db" = [46, 100, 98] := by decide

theorem inferred_version_cases (K : db_consts) (c : Byte) (hc : isalnum c = true) :
    inferred_version K (ascii ".xrp") = K.DB_VERSION_1114 ∧
    inferred_version K (ascii ".xp" ++ [c]) = K.DB_VERSION_2215 ∧
    inferred_version K (ascii ".xdb" ++ [c]) = K.DB_VERSION_XDB ∧
    inferred_version K (ascii ".db" ++ [c]) = K.DB_VERSION_AUTO := by
  refine ⟨?_, ?_, ?_, ?_⟩
  · have h1 : is_xdb (ascii ".xrp") = false := by decide
    have h2 : is_xrp (ascii ".xrp") = true := by decide
    simp [inferred_version, h1, h2]
  · have h1 : is_xdb (ascii ".xp" ++ [c]) = false := by
      simp [is_xdb, compare_eq, ascii_xp, ascii_xdb]
    have h2 : is_xrp (ascii ".xp" ++ [c]) = false := by
      simp [is_xrp, ascii_xp, ascii_xrp]
    have h3 : is_xp (ascii ".xp" ++ [c]) = true := by
      simp [is_xp, compare_eq, ascii_xp, hc]
    simp [inferred_version, h1, h2, h3]
  · have h1 : is_xdb (ascii ".xdb" ++ [c]) = true := by
      simp [is_xdb, compare_eq, ascii_xdb, hc]
    simp [inferred_version, h1]
  · have h1 : is_xdb (ascii ".db" ++ [c]) = false := by
      simp [is_xdb, compare_eq, ascii_db, ascii_xdb]
    have h2 : is_xrp (ascii ".db" ++ [c]) = false := by
      simp [is_xrp, ascii_db, ascii_xrp]
    have h3 : is_xp (ascii ".db" ++ [c]) = false := by
      simp [is_xp, compare_eq, ascii_db, ascii_xp]
    simp [inferred_version, h1, h2, h3]

/-! ## Lemmas on the sorted table and the traversal -/

theorem sorted_perm_unique (l1 l2 : List Str) (hp : l1.Perm l2)
    (h1 : l1.Pairwise (fun a b => str_lt b a = false))
    (h2 : l2.Pairwise (fun a b => str_lt b a = false)) : l1 = l2 := by
  haveI : IsAntisymm Str (fun a b => str_lt b a = false) :=
    ⟨fun a b hab hba => str_le_antisymm a b hba hab⟩
  exact List.eq_of_perm_of_sorted hp h1 h2

theorem sorted_folders_sorted (m_folders : List Str) :
    (sorted_folders m_folders).Pairwise (fun a b => str_lt b a = false) :=
  std_sort_sorted str_lt str_lt_asymm str_le_trans m_folders

theorem sorted_files_sorted (m_files : List db_file) :
    (sorted_files m_files).Pairwise (fun a b => str_lt b.path a.path = false) :=
  std_sort_sorted file_lt (fun a b => str_lt_asymm a.path b.path)
    (fun a b c => str_le_trans a.path b.path c.path) m_files

theorem sorted_folders_congr (l1 l2 : List Str) (hp : l1.Perm l2) :
    sorted_folders l1 = sorted_folders l2 :=
  sorted_perm_unique _ _
    (((std_sort_perm str_lt l1).trans hp).trans (std_sort_perm str_lt l2).symm)
    (sorted_folders_sorted l1) (sorted_folders_sorted l2)

theorem sorted_files_paths_congr (l1 l2 : List db_file)
    (hp : (l1.map (fun f => f.path)).Perm (l2.map (fun f => f.path))) :
    (sorted_files l1).map (fun f => f.path) = (sorted_files l2).map (fun f => f.path) := by
  apply sorted_perm_unique
  · exact (((std_sort_perm file_lt l1).map _).trans hp).trans ((std_sort_perm file_lt l2).map _).symm
  · exact List.pairwise_map.2 (sorted_files_sorted l1)
  · exact List.pairwise_map.2 (sorted_files_sorted l2)

theorem process_file_m_root (env : Env) (p : db_packer) (hist : List Event) (path : Str) :
    (process_file env p hist path).1.m_root = p.m_root ∧
    (process_file env p hist path).1.m_folders = p.m_folders := by
  unfold process_file
  split <;> simp

theorem process_file_paths (env : Env) (p : db_packer) (hist : List Event) (path : Str) :
    (process_file env p hist path).1.m_files.map (fun f => f.path) =
      p.m_files.map (fun f => f.path) ++
        (if (env.r_open hist (p.m_root ++ path)).isSome then [path.map tolower] else []) := by
  unfold process_file
  split
  · rename_i r hr
    simp [hr]
  · rename_i hr
    simp [hr]

theorem process_entries_collects (env : Env)
    (hsnap : ∀ (h1 h2 : List Event) (q : Str), env.r_open h1 q = env.r_open h2 q)
    (t : List directory_entry) :
    ∀ (p : db_packer) (hist : List Event),
      (process_entries env t p hist).1.m_root = p.m_root ∧
      (process_entries env t p hist).1.m_folders = p.m_folders ++ collected_folders t ∧
      (process_entries env t p hist).1.m_files.map (fun f => f.path) =
        p.m_files.map (fun f => f.path) ++ collected_file_paths env p.m_root t := by
  induction t with
  | nil =>
    intro p hist
    simp [process_entries, collected_folders, collected_file_paths]
  | cons e rest ih =>
    intro p hist
    unfold process_entries
    by_cases hd : e.kind = entry_kind.directory
    · obtain ⟨i1, i2, i3⟩ :=
        ih { p with m_folders := p.m_folders ++ [e.relative_path] } hist
      rw [if_pos hd]
      refine ⟨i1, ?_, ?_⟩
      · rw [i2]
        simp [collected_folders, hd]
      · rw [i3]
        simp [collected_file_paths, hd]
    · by_cases hf : e.kind = entry_kind.regular_file
      · obtain ⟨i1, i2, i3⟩ := ih (process_file env p hist e.relative_path).1
          (hist ++ (process_file env p hist e.relative_path).2)
        obtain ⟨r1, r2⟩ := process_file_m_root env p hist e.relative_path
        have r3 := process_file_paths env p hist e.relative_path
        rw [hsnap hist [] _] at r3
        rw [if_neg hd, if_pos hf]
        refine ⟨i1.trans r1, ?_, ?_⟩
        · rw [i2, r2]
          simp [collected_folders, hd]
        · rw [i3, r3, r1]
          by_cases ho : (env.r_open [] (p.m_root ++ e.relative_path)).isSome = true
          · simp [collected_file_paths, hf, ho]
          · simp [collected_file_paths, hf, ho]
      · obtain ⟨i1, i2, i3⟩ := ih p hist
        rw [if_neg hd, if_neg hf]
        refine ⟨i1, ?_, ?_⟩
        · rw [i2]
          simp [collected_folders, hd]
        · rw [i3]
          simp [collected_file_paths, hf]

/-! ## Lemmas on `write_file` and the loops -/

theorem Ptr_read_length (p : Ptr) (n : Nat) : (p.read n).length = n := by
  simp [Ptr.read]

theorem Ptr_read_ofBytes (bs : List Byte) : (Ptr.ofBytes bs).read bs.length = bs := by
  apply List.ext_getElem
  · simp [Ptr.read]
  · intro i h1 h2
    simp [Ptr.read, Ptr.ofBytes, List.getD_eq_getElem?_getD, List.getElem?_eq_getElem h2]

theorem write_file_raw_events (env : Env) (hist : List Event) (path : Str) (data : Ptr)
    (size : Nat) :
    ∀ ev ∈ (write_file_raw env hist path data size).2, write_event path (data.read size) ev := by
  intro ev h
  unfold write_file_raw at h
  by_cases hw : env.w_open hist path = true
  · rw [if_pos hw] at h
    simp only [List.mem_cons, List.mem_singleton, List.not_mem_nil, or_false] at h
    rcases h with h | h | h <;> simp [write_event, h]
  · rw [if_neg hw] at h
    simp only [List.mem_singleton] at h
    simp [write_event, h]

theorem write_file_retry_events (env : Env) (hist : List Event) (path : Str) (data : Ptr)
    (size : Nat) :
    ∀ ev ∈ (write_file_retry env hist path data size).2, write_event path (data.read size) ev := by
  intro ev h
  unfold write_file_retry at h
  simp only at h
  by_cases h1 : (!(write_file_raw env hist path data size).1) = true
  · rw [if_pos h1] at h
    simp only [List.mem_append, List.mem_singleton] at h
    rcases h with ((h | h) | h) | h
    · exact write_file_raw_events _ _ _ _ _ _ h
    · exact Or.inr (Or.inr (Or.inr (Or.inr (Or.inl ⟨_, _, h⟩))))
    · split at h
      · simp only [List.mem_singleton] at h
        exact Or.inr (Or.inr (Or.inr (Or.inr (Or.inr (Or.inl ⟨_, _, h⟩)))))
      · simp at h
    · exact write_file_raw_events _ _ _ _ _ _ h
  · rw [if_neg h1] at h
    exact write_file_raw_events _ _ _ _ _ _ h

theorem write_file_events (env : Env) (hist : List Event) (path : Str) (data : Ptr)
    (size_real size_compressed : Nat) (data1 : Ptr) (size_real1 : Nat) (ev0 : List Event)
    (hs : write_file_source env data size_real size_compressed = (some (data1, size_real1), ev0)) :
    ∀ ev ∈ (write_file env hist path data size_real size_compressed).2,
      ev ∈ ev0 ∨ write_event path (data1.read size_real1) ev := by
  intro ev h
  unfold write_file at h
  rw [hs] at h
  simp only at h
  by_cases h1 : (!(write_file_retry env (hist ++ ev0) path data1 size_real1).1) = true
  · rw [if_pos h1] at h
    simp only [List.mem_append, List.mem_singleton] at h
    rcases h with (h | h) | h
    · exact Or.inl h
    · exact Or.inr (write_file_retry_events _ _ _ _ _ _ h)
    · exact Or.inr (by simp [write_event, h])
  · rw [if_neg h1] at h
    simp only [List.mem_append] at h
    rcases h with h | h
    · exact Or.inl h
    · exact Or.inr (write_file_retry_events _ _ _ _ _ _ h)

theorem extract_2215_loop_step (env : Env) (pfx mask : Str) (data : Ptr) (fuel : Nat)
    (s s1 : xr_reader) (e : entry_2215) (hist : List Event) (hs : s.eof = false)
    (hr : read_2215 s = .ok (e, s1)) :
    extract_2215_loop env pfx mask data (fuel + 1) s hist =
      (e :: (extract_2215_loop env pfx mask data fuel s1
          (hist ++ step_2215 env pfx mask data e hist)).1,
        step_2215 env pfx mask data e hist ++ (extract_2215_loop env pfx mask data fuel s1
          (hist ++ step_2215 env pfx mask data e hist)).2.1,
        (extract_2215_loop env pfx mask data fuel s1
          (hist ++ step_2215 env pfx mask data e hist)).2.2) := by
  rw [extract_2215_loop, hs, hr]
  rfl

theorem extract_2945_loop_step (env : Env) (pfx mask : Str) (data : Ptr) (fuel : Nat)
    (s s1 : xr_reader) (e : db_file) (hist : List Event) (hs : s.eof = false)
    (hr : read_2945 s = .ok (e, s1)) :
    extract_2945_loop env pfx mask data (fuel + 1) s hist =
      (e :: (extract_2945_loop env pfx mask data fuel s1
          (hist ++ step_2945 env pfx mask data e hist)).1,
        step_2945 env pfx mask data e hist ++ (extract_2945_loop env pfx mask data fuel s1
          (hist ++ step_2945 env pfx mask data e hist)).2.1,
        (extract_2945_loop env pfx mask data fuel s1
          (hist ++ step_2945 env pfx mask data e hist)).2.2) := by
  rw [extract_2945_loop, hs, hr]
  rfl

theorem write_file_source_eq (env : Env) (data : Ptr) (size : Nat) :
    write_file_source env data size size = (some (data, size), []) := by
  simp [write_file_source]

theorem write_file_source_ok (env : Env) (data : Ptr) (size_real size_compressed : Nat)
    (temp : List Byte) (hne : size_real ≠ size_compressed)
    (hd : env.lzo1x_decompress_safe (data.read size_compressed) size_real = some temp) :
    write_file_source env data size_real size_compressed =
      (some (Ptr.ofBytes temp, temp.length % 2 ^ 32),
        [Event.lzo1x_decompress_safe (data.read size_compressed) size_real true]) := by
  unfold write_file_source
  rw [if_pos hne]
  simp only [hd]

theorem write_file_decompress_error (env : Env) (hist : List Event) (path : Str) (data : Ptr)
    (size_real size_compressed : Nat) (hne : size_real ≠ size_compressed)
    (hd : env.lzo1x_decompress_safe (data.read size_compressed) size_real = none) :
    write_file env hist path data size_real size_compressed =
      (false, [Event.lzo1x_decompress_safe (data.read size_compressed) size_real false]) := by
  unfold write_file write_file_source
  rw [if_pos hne]
  simp only [hd]

theorem step_2215_decompress_error (env : Env) (pfx mask : Str) (archive : Ptr) (e : entry_2215)
    (hist : List Event) (hm : mask_skips mask e.offset e.path = false) (ho : e.offset ≠ 0)
    (hne : e.size_real ≠ e.size_compressed)
    (hd : env.lzo1x_decompress_safe ((archive.add e.offset).read e.size_compressed) e.size_real =
      none) :
    step_2215 env pfx mask archive e hist =
      [Event.lzo1x_decompress_safe ((archive.add e.offset).read e.size_compressed) e.size_real
        false] := by
  unfold step_2215
  rw [hm, if_neg (by simp), if_neg (by simp [DB_DEBUG]), if_neg ho,
    write_file_decompress_error env hist _ _ _ _ hne hd]

theorem step_2945_decompress_error (env : Env) (pfx mask : Str) (archive : Ptr) (e : db_file)
    (hist : List Event) (hm : mask_skips mask e.offset e.path = false) (ho : e.offset ≠ 0)
    (hne : e.size_real ≠ e.size_compressed)
    (hd : env.lzo1x_decompress_safe ((archive.add e.offset).read e.size_compressed) e.size_real =
      none) :
    step_2945 env pfx mask archive e hist =
      [Event.lzo1x_decompress_safe ((archive.add e.offset).read e.size_compressed) e.size_real
        false] := by
  unfold step_2945
  rw [hm, if_neg (by simp), if_neg (by simp [DB_DEBUG]), if_neg ho,
    write_file_decompress_error env hist _ _ _ _ hne hd]

theorem step_2947_decompress_error (env : Env) (mask : Str) (archive : Ptr) (e : db_file)
    (hist : List Event) (hm : mask_skips mask e.offset e.path = false) (ho : e.offset ≠ 0)
    (hne : e.size_real ≠ e.size_compressed)
    (hd : env.lzo1x_decompress_safe ((archive.add e.offset).read e.size_compressed) e.size_real =
      none) :
    step_2947 env mask archive e hist =
      [Event.lzo1x_decompress_safe ((archive.add e.offset).read e.size_compressed) e.size_real
        false] := by
  unfold step_2947
  rw [hm, if_neg (by simp), if_neg (by simp [DB_DEBUG]), if_neg ho,
    write_file_decompress_error env hist _ _ _ _ hne hd]

/-! ## Lemmas on the archive writer and the packed files -/

theorem Ptr_read_congr (A B : List Byte) (o n : Nat)
    (h : ∀ i, o ≤ i → i < o + n → B.getD i 0 = A.getD i 0) :
    ((Ptr.ofBytes B).add o).read n = ((Ptr.ofBytes A).add o).read n := by
  unfold Ptr.read Ptr.add Ptr.ofBytes
  apply List.map_congr_left
  intro i hi
  rw [List.mem_range] at hi
  exact h (o + i) (by omega) (by omega)

theorem getD_append_left (A B : List Byte) (i : Nat) (h : i < A.length) :
    (A ++ B).getD i 0 = A.getD i 0 := by
  simp [List.getD_eq_getElem?_getD, List.getElem?_append_left h]

theorem Ptr_read_append (A r : List Byte) :
    ((Ptr.ofBytes (A ++ r)).add A.length).read r.length = r := by
  apply List.ext_getElem
  · simp [Ptr.read]
  · intro i h1 h2
    simp [Ptr.read, Ptr.add, Ptr.ofBytes, List.getD_eq_getElem?_getD,
      List.getElem?_append_right, List.getElem?_eq_getElem h2]

theorem u32_bytes_length (v : Nat) : (u32_bytes v).length = 4 := rfl

theorem open_chunk_bytes (w : xr_writer) (id : Nat) :
    (w.open_chunk id).bytes = w.bytes ++ (u32_bytes id ++ u32_bytes 0) ∧
    (w.open_chunk id).open_chunks = (w.bytes.length + 8) :: w.open_chunks := by
  simp [xr_writer.open_chunk, xr_writer.w_u32, xr_writer.w_raw, xr_writer.tell, u32_bytes]

theorem close_chunk_spec (w : xr_writer) (p : Nat) (ps : List Nat)
    (ho : w.open_chunks = p :: ps) (h4 : 4 ≤ p) (hp : p ≤ w.bytes.length) :
    w.close_chunk.open_chunks = ps ∧ w.close_chunk.bytes.length = w.bytes.length ∧
    ∀ i, (i < p - 4 ∨ p ≤ i) → w.close_chunk.bytes.getD i 0 = w.bytes.getD i 0 := by
  unfold xr_writer.close_chunk
  rw [ho]
  refine ⟨rfl, ?_, ?_⟩
  · simp only [List.length_append, List.length_take, List.length_drop, u32_bytes_length]
    omega
  · intro i hi
    simp only [List.getD_eq_getElem?_getD]
    congr 1
    have hl : (List.take (p - 4) w.bytes).length = p - 4 := by
      rw [List.length_take]; omega
    rcases hi with hi | hi
    · rw [List.append_assoc, List.getElem?_append_left (by omega), List.getElem?_take_of_lt hi]
    · rw [List.getElem?_append_right (by simp [u32_bytes_length]; omega), List.getElem?_drop]
      congr 1
      simp only [List.length_append, hl, u32_bytes_length]
      omega

theorem file_stored_mono (env : Env) (t : List directory_entry) (m_root : Str)
    (A B : List Byte) (lo lo1 : Nat) (f : db_file) (r : List Byte)
    (h : file_stored env t m_root A lo f r) (hlo : lo1 ≤ lo) (hlen : A.length ≤ B.length)
    (hsame : ∀ i, lo ≤ i → i < A.length → B.getD i 0 = A.getD i 0) :
    file_stored env t m_root B lo1 f r := by
  obtain ⟨h1, h2, h3, h4, h5, h6, h7⟩ := h
  refine ⟨h1, h2, h3, h4, by omega, by omega, ?_⟩
  rw [Ptr_read_congr A B f.offset r.length (fun i hi1 hi2 => hsame i (by omega) (by omega))]
  exact h7

theorem process_file_stores (env : Env) (t : List directory_entry) (lo : Nat) (p : db_packer)
    (hist : List Event) (e : directory_entry) (he : e ∈ t)
    (hk : e.kind = entry_kind.regular_file) (hlo : lo ≤ p.m_archive.bytes.length)
    (hinv : ∀ f ∈ p.m_files, ∃ r, file_stored env t p.m_root p.m_archive.bytes lo f r) :
    (process_file env p hist e.relative_path).1.m_root = p.m_root ∧
    (process_file env p hist e.relative_path).1.m_archive.open_chunks =
      p.m_archive.open_chunks ∧
    p.m_archive.bytes.length ≤ (process_file env p hist e.relative_path).1.m_archive.bytes.length ∧
    ∀ f ∈ (process_file env p hist e.relative_path).1.m_files,
      ∃ r, file_stored env t p.m_root
        (process_file env p hist e.relative_path).1.m_archive.bytes lo f r := by
  unfold process_file
  cases hr : env.r_open hist (p.m_root ++ e.relative_path) with
  | none => exact ⟨rfl, rfl, Nat.le_refl _, hinv⟩
  | some r =>
    refine ⟨rfl, rfl, by simp [xr_writer.w_raw], ?_⟩
    intro f hf
    simp only [List.mem_append, List.mem_singleton] at hf
    rcases hf with hf | hf
    · obtain ⟨r0, h0⟩ := hinv f hf
      exact ⟨r0, file_stored_mono env t p.m_root _ _ lo lo f r0 h0 (Nat.le_refl _)
        (by simp [xr_writer.w_raw])
        (fun i _ hi => getD_append_left _ _ i hi)⟩
    · subst hf
      refine ⟨r, ⟨e, he, hk, rfl, hist, hr⟩, rfl, rfl, rfl, hlo, ?_, ?_⟩
      · simp [xr_writer.w_raw, xr_writer.tell]
      · exact Ptr_read_append _ _

theorem process_entries_stores (env : Env) (t : List directory_entry) (lo : Nat)
    (es : List directory_entry) :
    ∀ (p : db_packer) (hist : List Event), (∀ e ∈ es, e ∈ t) →
      lo ≤ p.m_archive.bytes.length →
      (∀ f ∈ p.m_files, ∃ r, file_stored env t p.m_root p.m_archive.bytes lo f r) →
      (process_entries env es p hist).1.m_archive.open_chunks = p.m_archive.open_chunks ∧
      lo ≤ (process_entries env es p hist).1.m_archive.bytes.length ∧
      ∀ f ∈ (process_entries env es p hist).1.m_files,
        ∃ r, file_stored env t p.m_root (process_entries env es p hist).1.m_archive.bytes lo f r := by
  induction es with
  | nil =>
    intro p hist _ hlo hinv
    exact ⟨rfl, hlo, hinv⟩
  | cons e rest ih =>
    intro p hist hsub hlo hinv
    have hrest : ∀ x ∈ rest, x ∈ t := fun x hx => hsub x (List.mem_cons_of_mem _ hx)
    unfold process_entries
    by_cases hd : e.kind = entry_kind.directory
    · rw [if_pos hd]
      exact ih { p with m_folders := p.m_folders ++ [e.relative_path] } hist hrest hlo hinv
    · by_cases hf : e.kind = entry_kind.regular_file
      · rw [if_neg hd, if_pos hf]
        obtain ⟨a1, a2, a3, a4⟩ :=
          process_file_stores env t lo p hist e (hsub e (List.mem_cons_self _ _)) hf hlo hinv
        have := ih (process_file env p hist e.relative_path).1
          (hist ++ (process_file env p hist e.relative_path).2) hrest (by omega)
          (by rw [a1]; exact a4)
        rw [a1, a2] at this
        exact this
      · rw [if_neg hd, if_neg hf]
        exact ih p hist hrest hlo hinv

theorem write_chunk_spec (w : xr_writer) (id : Nat) (r : List Byte) :
    ((w.open_chunk id).w_raw r).close_chunk.open_chunks = w.open_chunks ∧
    w.bytes.length ≤ ((w.open_chunk id).w_raw r).close_chunk.bytes.length ∧
    ∀ i, i < w.bytes.length →
      ((w.open_chunk id).w_raw r).close_chunk.bytes.getD i 0 = w.bytes.getD i 0 := by
  obtain ⟨h1, h2⟩ := open_chunk_bytes w id
  have hoc : ((w.open_chunk id).w_raw r).open_chunks = (w.bytes.length + 8) :: w.open_chunks := by
    rw [← h2]; rfl
  have hb : ((w.open_chunk id).w_raw r).bytes = w.bytes ++ ((u32_bytes id ++ u32_bytes 0) ++ r) := by
    show (w.open_chunk id).bytes ++ r = _
    rw [h1, List.append_assoc]
  have hl : ((w.open_chunk id).w_raw r).bytes.length = w.bytes.length + 8 + r.length := by
    rw [hb]; simp [u32_bytes]; omega
  obtain ⟨c1, c2, c3⟩ := close_chunk_spec _ _ _ hoc (by omega) (by omega)
  refine ⟨c1, by omega, ?_⟩
  intro i hi
  rw [c3 i (Or.inl (by omega)), hb, getD_append_left _ _ i hi]

theorem pack_userdata_open_chunks (K : db_consts) (env : Env) (vm : variables_map) (version : Nat)
    (hist : List Event) :
    (pack_userdata K env vm version xr_writer.empty hist).1.open_chunks = [] := by
  unfold pack_userdata
  split
  · dsimp only
    split
    · exact (write_chunk_spec xr_writer.empty _ _).1
    · rfl
  · rfl

theorem pack_data_stores (K : db_consts) (env : Env) (w : xr_writer) (source : Str)
    (hist : List Event) (hw : w.open_chunks = []) :
    (pack_data K env w source hist).1.m_archive.open_chunks = [] ∧
    ∀ f ∈ (pack_data K env w source hist).1.m_files,
      ∃ r, file_stored env
        (env.recursive_directory_iterator hist (env.append_path_separator source))
        (env.append_path_separator source) (pack_data K env w source hist).1.m_archive.bytes
        (w.bytes.length + 8) f r := by
  obtain ⟨o1, o2⟩ := open_chunk_bytes w K.DB_CHUNK_DATA
  have hlen : (w.open_chunk K.DB_CHUNK_DATA).bytes.length = w.bytes.length + 8 := by
    rw [o1]; simp [u32_bytes]
  obtain ⟨a1, a2, a3⟩ := process_entries_stores env
    (env.recursive_directory_iterator hist (env.append_path_separator source))
    (w.bytes.length + 8)
    (env.recursive_directory_iterator hist (env.append_path_separator source))
    { m_root := env.append_path_separator source, m_folders := [], m_files := [],
      m_archive := w.open_chunk K.DB_CHUNK_DATA } hist (fun e he => he) (by simp only; omega)
    (by intro f hf; simp at hf)
  simp only at a1 a2 a3
  rw [o2, hw] at a1
  obtain ⟨c1, c2, c3⟩ := close_chunk_spec _ _ _ a1 (by omega) a2
  unfold pack_data process_folder
  simp only
  refine ⟨c1, ?_⟩
  intro f hf
  obtain ⟨r, hr⟩ := a3 f hf
  exact ⟨r, file_stored_mono env _ _ _ _ _ _ f r hr (Nat.le_refl _) (by omega)
    (fun i hi _ => c3 i (Or.inr hi))⟩

theorem process_file_records (env : Env) (p : db_packer) (h : List Event) (path : Str)
    (r : List Byte) (hr : env.r_open h (p.m_root ++ path) = some r) :
    (process_file env p h path).1.m_files =
        p.m_files ++ [{ path := path.map tolower, crc := env.crc32 r % 2 ^ 32,
                        offset := p.m_archive.tell, size_real := r.length,
                        size_compressed := r.length }] ∧
      (process_file env p h path).1.m_archive.bytes = p.m_archive.bytes ++ r := by
  unfold process_file
  rw [hr]
  exact ⟨rfl, rfl⟩

theorem packed_file_stored (K : db_consts) (env : Env) (vm : variables_map) (version : Nat)
    (source : Str) (hist : List Event) :
    (∀ (p : db_packer) (h : List Event) (path : Str) (r : List Byte),
      env.r_open h (p.m_root ++ path) = some r →
      (process_file env p h path).1.m_files =
          p.m_files ++ [{ path := path.map tolower, crc := env.crc32 r % 2 ^ 32,
                          offset := p.m_archive.tell, size_real := r.length,
                          size_compressed := r.length }] ∧
        (process_file env p h path).1.m_archive.bytes = p.m_archive.bytes ++ r) ∧
    (∀ f ∈ (pack_archive K env vm version source hist).1.m_files,
      ∃ (r : List Byte) (h0 : List Event),
        file_stored env
          (env.recursive_directory_iterator h0 (env.append_path_separator source))
          (env.append_path_separator source)
          (pack_archive K env vm version source hist).1.m_archive.bytes 8 f r ∧
        (∀ (env2 : Env) (hist2 : List Event) (target : Str) (bytes : List Byte),
          Event.w_raw bytes ∈ (write_file env2 hist2 target
            ((Ptr.ofBytes (pack_archive K env vm version source hist).1.m_archive.bytes).add
              f.offset) f.size_real f.size_compressed).2 → bytes = r) ∧
        ((pack_archive K env vm version source hist).1.m_archive.bytes.length < 2 ^ 32 →
          f.offset % 2 ^ 32 = f.offset ∧ f.size_real % 2 ^ 32 = f.size_real ∧
            f.size_compressed % 2 ^ 32 = f.size_compressed)) := by
  refine ⟨fun p h path r hr => process_file_records env p h path r hr, ?_⟩
  intro f hf
  have hu := pack_userdata_open_chunks K env vm version hist
  obtain ⟨d1, d2⟩ := pack_data_stores K env
    (pack_userdata K env vm version xr_writer.empty hist).1 source
    (hist ++ (pack_userdata K env vm version xr_writer.empty hist).2) hu
  have hf1 : f ∈ (pack_data K env (pack_userdata K env vm version xr_writer.empty hist).1 source
      (hist ++ (pack_userdata K env vm version xr_writer.empty hist).2)).1.m_files :=
    (std_sort_perm file_lt _).subset hf
  obtain ⟨r, hr⟩ := d2 f hf1
  obtain ⟨w1, w2, w3⟩ := write_chunk_spec
    (pack_data K env (pack_userdata K env vm version xr_writer.empty hist).1 source
      (hist ++ (pack_userdata K env vm version xr_writer.empty hist).2)).1.m_archive
    (u32_or K.DB_CHUNK_HEADER K.CHUNK_COMPRESSED)
    (pack_header K env version (packer_table
      (pack_data K env (pack_userdata K env vm version xr_writer.empty hist).1 source
        (hist ++ (pack_userdata K env vm version xr_writer.empty hist).2)).1.m_folders
      (pack_data K env (pack_userdata K env vm version xr_writer.empty hist).1 source
        (hist ++ (pack_userdata K env vm version xr_writer.empty hist).2)).1.m_files).bytes)
  have hst : file_stored env
      (env.recursive_directory_iterator
        (hist ++ (pack_userdata K env vm version xr_writer.empty hist).2)
        (env.append_path_separator source))
      (env.append_path_separator source)
      (pack_archive K env vm version source hist).1.m_archive.bytes 8 f r :=
    file_stored_mono env _ _ _ _ _ 8 f r hr (by omega) w2 (fun i _ hi => w3 i hi)
  refine ⟨r, _, hst, ?_, ?_⟩
  · intro env2 hist2 target bytes hmem
    obtain ⟨_, s1, s2, _, _, _, s7⟩ := hst
    rw [s1, s2] at hmem
    rcases write_file_events env2 hist2 target _ _ _ _ _ _
      (write_file_source_eq env2 _ r.length) _ hmem with h | h
    · simp at h
    · rcases h with h | h | h | h | ⟨g, q, h⟩ | ⟨g, q, h⟩ | h <;> simp at h
      rw [h]
      exact s7
  · intro hlt
    obtain ⟨_, s1, s2, _, _, s6, _⟩ := hst
    have h1 : f.offset < 2 ^ 32 := by omega
    have h2 : f.size_real < 2 ^ 32 := by omega
    have h3 : f.size_compressed < 2 ^ 32 := by omega
    exact ⟨Nat.mod_eq_of_lt h1, Nat.mod_eq_of_lt h2, Nat.mod_eq_of_lt h3⟩

theorem step_2947_file (env : Env) (data : Ptr) (e : db_file) (hist : List Event)
    (ho : e.offset ≠ 0) :
    step_2947 env [] data e hist =
      (write_file env hist e.path (data.add e.offset) e.size_real e.size_compressed).2 := by
  unfold step_2947
  rw [if_neg (by simp [mask_skips]), if_neg (by simp [DB_DEBUG]), if_neg ho]

/-! ## Packing a tree of 2^32 bytes -/

theorem huge_root : huge_tree_env.append_path_separator (ascii "src") = ascii "src/" := by decide
theorem huge_iterator (h : List Event) (p : Str) : huge_tree_env.recursive_directory_iterator h p =
      [⟨ascii "a", entry_kind.regular_file⟩, ⟨ascii "b", entry_kind.regular_file⟩] := rfl
theorem pack_data_files (K : db_consts) (env : Env) (w : xr_writer) (source : Str)
    (hist : List Event) :
    (pack_data K env w source hist).1.m_files =
      (process_entries env (env.recursive_directory_iterator hist (env.append_path_separator source))
        (db_packer.mk (env.append_path_separator source) [] [] (w.open_chunk K.DB_CHUNK_DATA))
        hist).1.m_files := rfl

theorem process_entries_regular (env : Env) (e : directory_entry) (rest : List directory_entry)
    (p : db_packer) (hist : List Event) (hk : e.kind = entry_kind.regular_file) :
    (process_entries env (e :: rest) p hist).1 =
      (process_entries env rest (process_file env p hist e.relative_path).1
        (hist ++ (process_file env p hist e.relative_path).2)).1 := by
  rw [process_entries, if_neg (by rw [hk]; decide), if_pos hk]

theorem process_file_some (env : Env) (p : db_packer) (h : List Event) (path : Str)
    (r : List Byte) (hr : env.r_open h (p.m_root ++ path) = some r) :
    (process_file env p h path).1 =
      { p with
        m_archive := p.m_archive.w_raw r,
        m_files := p.m_files ++ [{ path := path.map tolower, crc := env.crc32 r % 2 ^ 32,
                                   offset := p.m_archive.tell, size_real := r.length,
                                   size_compressed := r.length }] } := by
  unfold process_file
  rw [hr]

theorem pack_archive_files (K : db_consts) (env : Env) (vm : variables_map) (version : Nat)
    (source : Str) (hist : List Event) :
    (pack_archive K env vm version source hist).1.m_files =
      sorted_files (pack_data K env (pack_userdata K env vm version xr_writer.empty hist).1 source
        (hist ++ (pack_userdata K env vm version xr_writer.empty hist).2)).1.m_files := rfl

theorem huge_contents_length : huge_contents.length = 4294967288 := by
  unfold huge_contents
  exact List.length_replicate _ _

theorem huge_r_open_a (h : List Event) :
    huge_tree_env.r_open h (ascii "src/" ++ ascii "a") = some huge_contents := by
  show (if ascii "src/" ++ ascii "a" = ascii "src/a" then some huge_contents else some [1]) = _
  rw [if_pos (by decide)]

theorem huge_r_open_b (h : List Event) :
    huge_tree_env.r_open h (ascii "src/" ++ ascii "b") = some [1] := by
  show (if ascii "src/" ++ ascii "b" = ascii "src/a" then some huge_contents else some [1]) = _
  rw [if_neg (by decide)]

theorem huge_crc32 (r : List Byte) : huge_tree_env.crc32 r % 2 ^ 32 = 0 := rfl

theorem huge_userdata :
    pack_userdata upstream_consts huge_tree_env sample_pack_vm upstream_consts.DB_VERSION_XDB
      xr_writer.empty [] = (xr_writer.empty, []) := by
  unfold pack_userdata
  rw [if_neg (by decide)]

theorem huge_pack_files :
    (pack_archive upstream_consts huge_tree_env sample_pack_vm upstream_consts.DB_VERSION_XDB
        (ascii "src") []).1.m_files =
      sorted_files
        [{ path := ascii "a", crc := 0, offset := 8, size_real := 4294967288,
           size_compressed := 4294967288 }, wrapped_entry] := by
  rw [pack_archive_files, huge_userdata, pack_data_files, huge_root, huge_iterator]
  dsimp only
  rw [process_entries_regular _ _ _ _ _ rfl,
    process_file_some _ _ _ _ _ (huge_r_open_a _),
    process_entries_regular _ _ _ _ _ rfl,
    process_file_some _ _ _ _ _ (huge_r_open_b _)]
  have e1 : (xr_writer.empty.open_chunk upstream_consts.DB_CHUNK_DATA).tell = 8 := rfl
  have e2 : ((xr_writer.empty.open_chunk upstream_consts.DB_CHUNK_DATA).w_raw
      huge_contents).tell = 4294967296 := by
    show ((xr_writer.empty.open_chunk upstream_consts.DB_CHUNK_DATA).bytes ++
      huge_contents).length = 4294967296
    rw [List.length_append, huge_contents_length]
    rfl
  simp only [process_entries, e1, e2, huge_crc32, huge_contents_length]
  rfl

/-! ## The closed form of `write_file` -/

theorem write_file_retry_eq (env : Env) (hist : List Event) (path : Str) (data : Ptr)
    (size : Nat) :
    write_file_retry env hist path data size =
      if env.w_open hist path then
        (true, [Event.w_open path true, Event.w_raw (data.read size), Event.w_close])
      else if env.w_open (hist ++ [Event.w_open path false] ++
          ensure_folder_events env (hist ++ [Event.w_open path false]) path) path then
        (true, [Event.w_open path false] ++
          ensure_folder_events env (hist ++ [Event.w_open path false]) path ++
          [Event.w_open path true, Event.w_raw (data.read size), Event.w_close])
      else
        (false, [Event.w_open path false] ++
          ensure_folder_events env (hist ++ [Event.w_open path false]) path ++
          [Event.w_open path false]) := by
  by_cases h1 : env.w_open hist path = true
  · have e1 : write_file_raw env hist path data size =
        (true, [Event.w_open path true, Event.w_raw (data.read size), Event.w_close]) := by
      unfold write_file_raw; rw [if_pos h1]
    unfold write_file_retry
    rw [e1, if_pos h1]
    rfl
  · have e1 : write_file_raw env hist path data size = (false, [Event.w_open path false]) := by
      unfold write_file_raw; rw [if_neg h1]
    have hf : ∀ h : List Event,
        (if (!env.folder_exist h (env.split_path path).folder) = true then
          [Event.create_path (env.split_path path).folder
            (env.create_path (h ++ [Event.folder_exist (env.split_path path).folder
              (env.folder_exist h (env.split_path path).folder)]) (env.split_path path).folder)]
         else []) =
        (if env.folder_exist h (env.split_path path).folder = true then []
         else [Event.create_path (env.split_path path).folder
            (env.create_path (h ++ [Event.folder_exist (env.split_path path).folder
              (env.folder_exist h (env.split_path path).folder)])
              (env.split_path path).folder)]) := by
      intro h
      cases env.folder_exist h (env.split_path path).folder <;> rfl
    unfold write_file_retry
    rw [e1, if_neg h1]
    simp only [Bool.not_false, if_true]
    rw [hf]
    unfold ensure_folder_events write_file_raw
    simp only [List.append_assoc]
    split <;> rename_i h2 <;> simp only [h2, if_true, if_false] <;> simp <;> split <;> simp

theorem write_file_eq (env : Env) (hist : List Event) (path : Str) (data : Ptr)
    (size_real size_compressed : Nat) (data1 : Ptr) (size1 : Nat) (ev0 : List Event)
    (hs : write_file_source env data size_real size_compressed = (some (data1, size1), ev0)) :
    write_file env hist path data size_real size_compressed =
      if env.w_open (hist ++ ev0) path = true then
        (true, ev0 ++ [Event.w_open path true, Event.w_raw (data1.read size1), Event.w_close])
      else if env.w_open (hist ++ ev0 ++ [Event.w_open path false] ++
          ensure_folder_events env (hist ++ ev0 ++ [Event.w_open path false]) path) path = true
      then
        (true, ev0 ++ [Event.w_open path false] ++
          ensure_folder_events env (hist ++ ev0 ++ [Event.w_open path false]) path ++
          [Event.w_open path true, Event.w_raw (data1.read size1), Event.w_close])
      else
        (false, ev0 ++ [Event.w_open path false] ++
          ensure_folder_events env (hist ++ ev0 ++ [Event.w_open path false]) path ++
          [Event.w_open path false, Event.msg "can't write %s" [msg_arg.str path]]) := by
  have hw : write_file env hist path data size_real size_compressed =
      if !(write_file_retry env (hist ++ ev0) path data1 size1).1 then
        (false, ev0 ++ (write_file_retry env (hist ++ ev0) path data1 size1).2 ++
          [Event.msg "can't write %s" [msg_arg.str path]])
      else (true, ev0 ++ (write_file_retry env (hist ++ ev0) path data1 size1).2) := by
    unfold write_file
    rw [hs]
  have hr := write_file_retry_eq env (hist ++ ev0) path data1 size1
  by_cases h1 : env.w_open (hist ++ ev0) path = true
  · rw [if_pos h1] at hr
    rw [hw, hr, if_pos h1]
    rfl
  · by_cases h2 : env.w_open (hist ++ ev0 ++ [Event.w_open path false] ++
        ensure_folder_events env (hist ++ ev0 ++ [Event.w_open path false]) path) path = true
    · rw [if_neg h1, if_pos h2] at hr
      rw [hw, hr, if_neg h1, if_pos h2]
      simp
    · rw [if_neg h1, if_neg h2] at hr
      rw [hw, hr, if_neg h1, if_neg h2]
      simp

/-! ## The claims -/

/-- C1: for all folder paths and file entries whose paths have no backslash and
at most 65519 bytes and whose numeric fields are below 2^32, the table that
`db_packer::process` serialises is decoded by the loop of `extract_2947`, with
an empty prefix, into the sorted folders as entries with offset 0 and zero
size and crc followed by the sorted files with their own fields, and the loop
ends without fault with the read cursor at the end of the table. -/
theorem packer_table_decodes (env : Env) (mask : Str) (data : Ptr) (hist : List Event)
    (m_folders : List Str) (m_files : List db_file)
    (hfolders : ∀ p ∈ m_folders, BACKSLASH ∉ p ∧ p.length ≤ 65519)
    (hfiles : ∀ f ∈ m_files, fits_2947 f) :
    (extract_2947 env [] mask (xr_reader.ofBytes (packer_table m_folders m_files).bytes)
        data hist).1 = (sorted_folders m_folders).map folder_entry ++ sorted_files m_files ∧
    (extract_2947 env [] mask (xr_reader.ofBytes (packer_table m_folders m_files).bytes)
        data hist).2.2 = .ok ⟨(packer_table m_folders m_files).bytes.length, []⟩ := by
  have hes : ∀ f ∈ (sorted_folders m_folders).map folder_entry ++ sorted_files m_files,
      fits_2947 f := by
    intro f hf
    rcases List.mem_append.1 hf with h | h
    · obtain ⟨p, hp, rfl⟩ := List.mem_map.1 h
      have := hfolders p ((std_sort_perm str_lt m_folders).subset hp)
      exact ⟨this.1, this.2, by simp [folder_entry], by simp [folder_entry],
        by simp [folder_entry], by simp [folder_entry]⟩
    · exact hfiles f ((std_sort_perm file_lt m_files).subset h)
  have h := extract_2947_loop_records env mask data _ hes
    (((sorted_folders m_folders).map folder_entry ++ sorted_files m_files).map
      record_bytes).flatten.length 0 hist (length_le_flatten_record_bytes _)
  rw [Nat.zero_add] at h
  unfold extract_2947 packer_table xr_reader.ofBytes
  rw [serialise_table_bytes]
  exact h

/-- Witness of C1: the two folders and two files of `sample_folders` and
`sample_files` satisfy the hypotheses. -/
theorem packer_table_decodes_witness :
    (extract_2947 failing_env [] (ascii "x")
        (xr_reader.ofBytes (packer_table sample_folders sample_files).bytes)
        (Ptr.ofBytes []) []).1 =
      (sorted_folders sample_folders).map folder_entry ++ sorted_files sample_files ∧
    (extract_2947 failing_env [] (ascii "x")
        (xr_reader.ofBytes (packer_table sample_folders sample_files).bytes)
        (Ptr.ofBytes []) []).2.2 =
      .ok ⟨(packer_table sample_folders sample_files).bytes.length, []⟩ :=
  packer_table_decodes failing_env (ascii "x") (Ptr.ofBytes []) [] sample_folders sample_files
    (by decide) (by unfold fits_2947; decide)

/-- C2: in `db_unpacker::process`, when the six version constants are distinct
single bits and `DB_VERSION_AUTO` is 0, for every set of options with a source
the version word is the or of the constants of the given flags, or, only when
no flag is given, the version inferred from the extension; the source archive
is opened if and only if the word is a single bit (a power of two), and
otherwise the operation reports an unspecified format and does nothing else. -/
theorem unpack_version_gate (K : db_consts) (hK : K.version_bits) (env : Env)
    (vm : variables_map) (hist : List Event) (hsrc : vm.count "unpack" ≠ 0) :
    unpack_version K vm (env.split_path (vm.as_string "unpack")).extension =
        (if given_flags K vm = [] then
          inferred_version K (env.split_path (vm.as_string "unpack")).extension
         else or_all (given_flags K vm)) ∧
      ((∃ ok, Event.r_open (vm.as_string "unpack") ok ∈ (db_unpacker_process K env vm hist).1) ↔
        ∃ k, unpack_version K vm (env.split_path (vm.as_string "unpack")).extension = 2 ^ k) ∧
      ((¬ ∃ k, unpack_version K vm (env.split_path (vm.as_string "unpack")).extension = 2 ^ k) →
        db_unpacker_process K env vm hist = ([Event.msg "unspecified DB format" []], none)) := by
  obtain ⟨hspec, hlt⟩ :=
    unpack_version_spec K hK vm (env.split_path (vm.as_string "unpack")).extension
  have hrej := version_rejected_iff K hK.1 _ hlt
  refine ⟨hspec, ?_, ?_⟩
  · rw [← hrej]
    cases hv : version_rejected K
        (unpack_version K vm (env.split_path (vm.as_string "unpack")).extension) with
    | true =>
      rw [db_unpacker_process_rejected K env vm hist hsrc hv]
      simp
    | false =>
      simp only [iff_true]
      exact db_unpacker_process_opens K env vm hist hsrc hv
  · intro hne
    apply db_unpacker_process_rejected K env vm hist hsrc
    cases h : version_rejected K
        (unpack_version K vm (env.split_path (vm.as_string "unpack")).extension) with
    | true => rfl
    | false => exact absurd (hrej.1 h) hne

/-- Witness of C2: the upstream constants and an unpack run with the flag
`2947ru` satisfy the hypotheses. -/
theorem unpack_version_gate_witness :
    unpack_version upstream_consts sample_unpack_vm
        (working_env.split_path (sample_unpack_vm.as_string "unpack")).extension =
        (if given_flags upstream_consts sample_unpack_vm = [] then
          inferred_version upstream_consts
            (working_env.split_path (sample_unpack_vm.as_string "unpack")).extension
         else or_all (given_flags upstream_consts sample_unpack_vm)) ∧
      ((∃ ok, Event.r_open (sample_unpack_vm.as_string "unpack") ok ∈
          (db_unpacker_process upstream_consts working_env sample_unpack_vm []).1) ↔
        ∃ k, unpack_version upstream_consts sample_unpack_vm
          (working_env.split_path (sample_unpack_vm.as_string "unpack")).extension = 2 ^ k) ∧
      ((¬ ∃ k, unpack_version upstream_consts sample_unpack_vm
          (working_env.split_path (sample_unpack_vm.as_string "unpack")).extension = 2 ^ k) →
        db_unpacker_process upstream_consts working_env sample_unpack_vm [] =
          ([Event.msg "unspecified DB format" []], none)) :=
  unpack_version_gate upstream_consts upstream_consts_version_bits working_env sample_unpack_vm []
    (by decide)

/-- C3, the code at two failing inputs. Layout 1114, mask `textures`, a table
whose only record is the file `a/b/textures/x.dds`: the mask occurs in the
path of the entry, and the loop reads the record and adds no event, the entry
is skipped. Layout 2947, output folder `textures_out/`, mask `textures`, the
file `a/b/other/x.dds`: the mask does not occur in the path of the entry, and
the loop opens and writes `textures_out/a/b/other/x.dds`. -/
theorem mask_filter_divergence :
    (str_find textures_entry_1114.temp (ascii "textures") = some 4 ∧
      extract_1114 working_env (ascii "out/") (ascii "textures")
          (xr_reader.ofBytes (record_bytes_1114 textures_entry_1114)) (Ptr.ofBytes []) [] =
        ([textures_entry_1114], [], .ok ⟨31, []⟩)) ∧
    (str_find other_entry_2947.path (ascii "textures") = none ∧
      (extract_2947 working_env (ascii "textures_out/") (ascii "textures")
          (xr_reader.ofBytes (record_bytes other_entry_2947)) (Ptr.ofBytes []) []).2.1 =
        [Event.w_open (ascii "textures_out/a/b/other/x.dds") true, Event.w_raw [0],
         Event.w_close]) :=
  ⟨⟨by decide, rfl⟩, by decide⟩

/-- C4, the code at a failing input. Layout 1114, output prefix `out/`, no
mask, a record whose stored name is `a\b.txt`: the file is opened and written
at the prefix followed by the stored name as it is, backslash included. -/
theorem backslash_survives_1114 :
    (extract_1114 working_env (ascii "out/") []
        (xr_reader.ofBytes (record_bytes_1114 backslash_entry_1114)) (Ptr.ofBytes []) []).2.1 =
      [Event.folder_exist (ascii "out/") true,
       Event.w_open (ascii "out/a" ++ [BACKSLASH] ++ ascii "b.txt") true, Event.w_raw [0],
       Event.w_close] ∧
    BACKSLASH ∈ ascii "out/a" ++ [BACKSLASH] ++ ascii "b.txt" := by
  decide

/-- C5: whatever the collected `m_folders` and `m_files` are, the serialised
table is the records of the sorted folders followed by the records of the
sorted files; the sorted sequences are permutations of the collected ones,
the folders in non-decreasing lexicographic order of path and the files in
non-decreasing lexicographic order of path; hence collections that are
permutations of each other give the same sequence of entry paths, and so do
two traversals of the same snapshot (the files open alike whatever happened
before) that deliver the same entries in different orders. -/
theorem packer_table_order (m_folders : List Str) (m_files : List db_file) :
    (packer_table m_folders m_files).bytes =
        (((sorted_folders m_folders).map folder_entry).map record_bytes).flatten ++
          ((sorted_files m_files).map record_bytes).flatten ∧
      (sorted_folders m_folders).Perm m_folders ∧ (sorted_files m_files).Perm m_files ∧
      (sorted_folders m_folders).Pairwise (fun a b => str_lt b a = false) ∧
      (sorted_files m_files).Pairwise (fun a b => str_lt b.path a.path = false) ∧
      (∀ (m_folders1 : List Str) (m_files1 : List db_file), m_folders1.Perm m_folders →
        (m_files1.map (fun f => f.path)).Perm (m_files.map (fun f => f.path)) →
        table_entry_paths m_folders1 m_files1 = table_entry_paths m_folders m_files) ∧
      (∀ (env : Env) (t1 t2 : List directory_entry) (p : db_packer) (h1 h2 : List Event),
        (∀ (a b : List Event) (q : Str), env.r_open a q = env.r_open b q) → t1.Perm t2 →
        table_entry_paths (process_entries env t1 p h1).1.m_folders
            (process_entries env t1 p h1).1.m_files =
          table_entry_paths (process_entries env t2 p h2).1.m_folders
            (process_entries env t2 p h2).1.m_files) := by
  refine ⟨?_, std_sort_perm _ _, std_sort_perm _ _, sorted_folders_sorted _,
    sorted_files_sorted _, ?_, ?_⟩
  · unfold packer_table
    rw [serialise_table_bytes, List.map_append, List.flatten_append]
  · intro f1 g1 hf hg
    unfold table_entry_paths
    rw [sorted_folders_congr _ _ hf, sorted_files_paths_congr _ _ hg]
  · intro env t1 t2 p h1 h2 hsnap ht
    obtain ⟨_, a2, a3⟩ := process_entries_collects env hsnap t1 p h1
    obtain ⟨_, b2, b3⟩ := process_entries_collects env hsnap t2 p h2
    unfold table_entry_paths
    rw [sorted_folders_congr _ _ (show (process_entries env t1 p h1).1.m_folders.Perm
        (process_entries env t2 p h2).1.m_folders from ?_),
      sorted_files_paths_congr _ _ (show
        ((process_entries env t1 p h1).1.m_files.map (fun f => f.path)).Perm
        ((process_entries env t2 p h2).1.m_files.map (fun f => f.path)) from ?_)]
    · rw [a3, b3]
      exact List.Perm.append_left _ ((ht.filter _).map _)
    · rw [a2, b2]
      exact List.Perm.append_left _ ((ht.filter _).map _)

/-- C6 fails on the code: without a version flag the extension `.db0` of
`gamedata.db0`, which `is_db` recognises, does not select XDB; the version
word stays `DB_VERSION_AUTO` and the operation reports an unspecified format
without opening the archive. -/
theorem db_extension_not_inferred :
    is_db (ascii ".db0") = true ∧
    (working_env.split_path (sample_db_vm.as_string "unpack")).extension = ascii ".db0" ∧
    unpack_version upstream_consts sample_db_vm (ascii ".db0") ≠ upstream_consts.DB_VERSION_XDB ∧
    db_unpacker_process upstream_consts working_env sample_db_vm [] =
      ([Event.msg "unspecified DB format" []], none) := by
  decide

/-- C6 as amended: when no explicit version flag is given (and the version
constants are distinct single bits), the extension `.xrp` selects 1114, `.xp`
followed by one alphanumeric character selects 2215 and `.xdb` followed by one
alphanumeric character selects XDB, and in each of these cases the operation
goes on to open the source; `.db` followed by one alphanumeric character
selects no version: the word stays `DB_VERSION_AUTO` and the operation reports
an unspecified format. -/
theorem extension_inference (K : db_consts) (hK : K.version_bits) (env : Env)
    (vm : variables_map) (hist : List Event) (c : Byte) (hc : isalnum c = true)
    (hsrc : vm.count "unpack" ≠ 0) (hnone : given_flags K vm = []) :
    ((env.split_path (vm.as_string "unpack")).extension = ascii ".xrp" →
      unpack_version K vm (ascii ".xrp") = K.DB_VERSION_1114 ∧
      ∃ ok, Event.r_open (vm.as_string "unpack") ok ∈ (db_unpacker_process K env vm hist).1) ∧
    ((env.split_path (vm.as_string "unpack")).extension = ascii ".xp" ++ [c] →
      unpack_version K vm (ascii ".xp" ++ [c]) = K.DB_VERSION_2215 ∧
      ∃ ok, Event.r_open (vm.as_string "unpack") ok ∈ (db_unpacker_process K env vm hist).1) ∧
    ((env.split_path (vm.as_string "unpack")).extension = ascii ".xdb" ++ [c] →
      unpack_version K vm (ascii ".xdb" ++ [c]) = K.DB_VERSION_XDB ∧
      ∃ ok, Event.r_open (vm.as_string "unpack") ok ∈ (db_unpacker_process K env vm hist).1) ∧
    ((env.split_path (vm.as_string "unpack")).extension = ascii ".db" ++ [c] →
      unpack_version K vm (ascii ".db" ++ [c]) = K.DB_VERSION_AUTO ∧
      db_unpacker_process K env vm hist = ([Event.msg "unspecified DB format" []], none)) := by
  obtain ⟨i1, i2, i3, i4⟩ := inferred_version_cases K c hc
  have hv : ∀ ext, unpack_version K vm ext = inferred_version K ext := by
    intro ext
    rw [(unpack_version_spec K hK vm ext).1, if_pos hnone]
  have hbit : ∀ v ∈ K.versions, version_rejected K v = false := by
    intro v hv
    obtain ⟨k, hk, rfl⟩ := hK.2.2 v hv
    exact (version_rejected_iff K hK.1 _ (Nat.pow_lt_pow_right (by decide) hk)).2 ⟨k, rfl⟩
  have accept : ∀ ext v, (env.split_path (vm.as_string "unpack")).extension = ext →
      inferred_version K ext = v → v ∈ K.versions →
      unpack_version K vm ext = v ∧
        ∃ ok, Event.r_open (vm.as_string "unpack") ok ∈ (db_unpacker_process K env vm hist).1 := by
    intro ext v he hi hm
    refine ⟨(hv ext).trans hi, ?_⟩
    apply db_unpacker_process_opens K env vm hist hsrc
    rw [he, hv ext, hi]
    exact hbit v hm
  refine ⟨fun he => accept _ _ he i1 (by simp [db_consts.versions]),
    fun he => accept _ _ he i2 (by simp [db_consts.versions]),
    fun he => accept _ _ he i3 (by simp [db_consts.versions]), ?_⟩
  intro he
  refine ⟨(hv _).trans i4, ?_⟩
  apply db_unpacker_process_rejected K env vm hist hsrc
  rw [he, hv _, i4]
  simp [version_rejected]

/-- Witness of C6 as amended: the upstream constants and an unpack run of
`gamedata.xdb0` without a flag satisfy the hypotheses. -/
theorem extension_inference_witness :
    ((working_env.split_path (sample_auto_vm.as_string "unpack")).extension = ascii ".xrp" →
      unpack_version upstream_consts sample_auto_vm (ascii ".xrp") =
        upstream_consts.DB_VERSION_1114 ∧
      ∃ ok, Event.r_open (sample_auto_vm.as_string "unpack") ok ∈
        (db_unpacker_process upstream_consts working_env sample_auto_vm []).1) ∧
    ((working_env.split_path (sample_auto_vm.as_string "unpack")).extension =
        ascii ".xp" ++ [48] →
      unpack_version upstream_consts sample_auto_vm (ascii ".xp" ++ [48]) =
        upstream_consts.DB_VERSION_2215 ∧
      ∃ ok, Event.r_open (sample_auto_vm.as_string "unpack") ok ∈
        (db_unpacker_process upstream_consts working_env sample_auto_vm []).1) ∧
    ((working_env.split_path (sample_auto_vm.as_string "unpack")).extension =
        ascii ".xdb" ++ [48] →
      unpack_version upstream_consts sample_auto_vm (ascii ".xdb" ++ [48]) =
        upstream_consts.DB_VERSION_XDB ∧
      ∃ ok, Event.r_open (sample_auto_vm.as_string "unpack") ok ∈
        (db_unpacker_process upstream_consts working_env sample_auto_vm []).1) ∧
    ((working_env.split_path (sample_auto_vm.as_string "unpack")).extension =
        ascii ".db" ++ [48] →
      unpack_version upstream_consts sample_auto_vm (ascii ".db" ++ [48]) =
        upstream_consts.DB_VERSION_AUTO ∧
      db_unpacker_process upstream_consts working_env sample_auto_vm [] =
        ([Event.msg "unspecified DB format" []], none)) :=
  extension_inference upstream_consts upstream_consts_version_bits working_env sample_auto_vm []
    48 (by decide) (by decide) (by decide)

/-- C7: for `write_file` with `size_real` and `size_compressed`, over every
behaviour of the file system and of the decompressor. When the sizes are equal
the result and the trace are exactly those of the write policy on the
`size_real` bytes at `data`: the target is opened and, when it opens, exactly
these bytes are written (after the fallback when the first attempt fails), and
the block decompressor is not called. When they differ and the decompressor
succeeds (its output fitting 32 bits) the trace is the call of the decompressor
on the `size_compressed` stored bytes followed by the same policy on the
decompressor's output. Every write in these traces hands over exactly these
bytes. When the sizes differ and the decompressor reports an error the
function returns failure having attempted no open and no write; and in that
case the loops of layouts 2215, 2945 and 2947 go on with the next record. -/
theorem write_file_payload (env : Env) (hist : List Event) (path : Str) (data : Ptr)
    (size_real size_compressed : Nat) :
    (size_real = size_compressed →
      write_file env hist path data size_real size_compressed =
        if env.w_open hist path = true then
          (true, [Event.w_open path true, Event.w_raw (data.read size_real), Event.w_close])
        else if env.w_open (hist ++ [Event.w_open path false] ++
            ensure_folder_events env (hist ++ [Event.w_open path false]) path) path = true
        then
          (true, [Event.w_open path false] ++
            ensure_folder_events env (hist ++ [Event.w_open path false]) path ++
            [Event.w_open path true, Event.w_raw (data.read size_real), Event.w_close])
        else
          (false, [Event.w_open path false] ++
            ensure_folder_events env (hist ++ [Event.w_open path false]) path ++
            [Event.w_open path false, Event.msg "can't write %s" [msg_arg.str path]])) ∧
    (size_real ≠ size_compressed → ∀ temp,
      env.lzo1x_decompress_safe (data.read size_compressed) size_real = some temp →
      temp.length < 2 ^ 32 →
      write_file env hist path data size_real size_compressed =
        if env.w_open (hist ++ [Event.lzo1x_decompress_safe (data.read size_compressed) size_real true]) path = true then
          (true, [Event.lzo1x_decompress_safe (data.read size_compressed) size_real true] ++ [Event.w_open path true, Event.w_raw temp, Event.w_close])
        else if env.w_open (hist ++ [Event.lzo1x_decompress_safe (data.read size_compressed) size_real true] ++ [Event.w_open path false] ++
            ensure_folder_events env (hist ++ [Event.lzo1x_decompress_safe (data.read size_compressed) size_real true] ++ [Event.w_open path false]) path) path = true
        then
          (true, [Event.lzo1x_decompress_safe (data.read size_compressed) size_real true] ++ [Event.w_open path false] ++
            ensure_folder_events env (hist ++ [Event.lzo1x_decompress_safe (data.read size_compressed) size_real true] ++ [Event.w_open path false]) path ++
            [Event.w_open path true, Event.w_raw temp, Event.w_close])
        else
          (false, [Event.lzo1x_decompress_safe (data.read size_compressed) size_real true] ++ [Event.w_open path false] ++
            ensure_folder_events env (hist ++ [Event.lzo1x_decompress_safe (data.read size_compressed) size_real true] ++ [Event.w_open path false]) path ++
            [Event.w_open path false, Event.msg "can't write %s" [msg_arg.str path]])) ∧
    (size_real = size_compressed →
      (∀ src n ok, Event.lzo1x_decompress_safe src n ok ∉
        (write_file env hist path data size_real size_compressed).2) ∧
      (∀ bytes, Event.w_raw bytes ∈ (write_file env hist path data size_real size_compressed).2 →
        bytes = data.read size_real ∧ bytes.length = size_real)) ∧
    (size_real ≠ size_compressed → ∀ temp,
      env.lzo1x_decompress_safe (data.read size_compressed) size_real = some temp →
      temp.length < 2 ^ 32 →
      ∀ bytes, Event.w_raw bytes ∈ (write_file env hist path data size_real size_compressed).2 →
        bytes = temp) ∧
    (size_real ≠ size_compressed →
      env.lzo1x_decompress_safe (data.read size_compressed) size_real = none →
      write_file env hist path data size_real size_compressed =
        (false, [Event.lzo1x_decompress_safe (data.read size_compressed) size_real false]) ∧
      (∀ ev ∈ (write_file env hist path data size_real size_compressed).2,
        (∀ p ok, ev ≠ Event.w_open p ok) ∧ (∀ bytes, ev ≠ Event.w_raw bytes))) ∧
    (∀ (pfx mask : Str) (archive : Ptr) (fuel : Nat) (s s1 : xr_reader) (e : entry_2215),
      s.eof = false → read_2215 s = .ok (e, s1) → mask_skips mask e.offset e.path = false →
      e.offset ≠ 0 → e.size_real ≠ e.size_compressed →
      env.lzo1x_decompress_safe ((archive.add e.offset).read e.size_compressed) e.size_real =
        none →
      extract_2215_loop env pfx mask archive (fuel + 1) s hist =
        (e :: (extract_2215_loop env pfx mask archive fuel s1 (hist ++
            [Event.lzo1x_decompress_safe ((archive.add e.offset).read e.size_compressed)
              e.size_real false])).1,
          Event.lzo1x_decompress_safe ((archive.add e.offset).read e.size_compressed)
              e.size_real false ::
            (extract_2215_loop env pfx mask archive fuel s1 (hist ++
              [Event.lzo1x_decompress_safe ((archive.add e.offset).read e.size_compressed)
                e.size_real false])).2.1,
          (extract_2215_loop env pfx mask archive fuel s1 (hist ++
            [Event.lzo1x_decompress_safe ((archive.add e.offset).read e.size_compressed)
              e.size_real false])).2.2)) ∧
    (∀ (pfx mask : Str) (archive : Ptr) (fuel : Nat) (s s1 : xr_reader) (e : db_file),
      s.eof = false → read_2945 s = .ok (e, s1) → mask_skips mask e.offset e.path = false →
      e.offset ≠ 0 → e.size_real ≠ e.size_compressed →
      env.lzo1x_decompress_safe ((archive.add e.offset).read e.size_compressed) e.size_real =
        none →
      extract_2945_loop env pfx mask archive (fuel + 1) s hist =
        (e :: (extract_2945_loop env pfx mask archive fuel s1 (hist ++
            [Event.lzo1x_decompress_safe ((archive.add e.offset).read e.size_compressed)
              e.size_real false])).1,
          Event.lzo1x_decompress_safe ((archive.add e.offset).read e.size_compressed)
              e.size_real false ::
            (extract_2945_loop env pfx mask archive fuel s1 (hist ++
              [Event.lzo1x_decompress_safe ((archive.add e.offset).read e.size_compressed)
                e.size_real false])).2.1,
          (extract_2945_loop env pfx mask archive fuel s1 (hist ++
            [Event.lzo1x_decompress_safe ((archive.add e.offset).read e.size_compressed)
              e.size_real false])).2.2)) ∧
    (∀ (pfx mask : Str) (archive : Ptr) (fuel : Nat) (s s1 : xr_reader) (e : db_file),
      s.eof = false → read_2947 pfx s = .ok (e, s1) → mask_skips mask e.offset e.path = false →
      e.offset ≠ 0 → e.size_real ≠ e.size_compressed →
      env.lzo1x_decompress_safe ((archive.add e.offset).read e.size_compressed) e.size_real =
        none →
      extract_2947_loop env pfx mask archive (fuel + 1) s hist =
        (e :: (extract_2947_loop env pfx mask archive fuel s1 (hist ++
            [Event.lzo1x_decompress_safe ((archive.add e.offset).read e.size_compressed)
              e.size_real false])).1,
          Event.lzo1x_decompress_safe ((archive.add e.offset).read e.size_compressed)
              e.size_real false ::
            (extract_2947_loop env pfx mask archive fuel s1 (hist ++
              [Event.lzo1x_decompress_safe ((archive.add e.offset).read e.size_compressed)
                e.size_real false])).2.1,
          (extract_2947_loop env pfx mask archive fuel s1 (hist ++
            [Event.lzo1x_decompress_safe ((archive.add e.offset).read e.size_compressed)
              e.size_real false])).2.2)) := by
  refine ⟨?_, ?_, ?_, ?_, ?_, ?_, ?_, ?_⟩
  · intro he
    subst he
    rw [write_file_eq env hist path data size_real size_real data size_real []
      (write_file_source_eq env data size_real)]
    simp only [List.append_nil, List.nil_append]
  · intro hne temp hd hlen
    have e : temp.length % 2 ^ 32 = temp.length := Nat.mod_eq_of_lt hlen
    rw [write_file_eq env hist path data size_real size_compressed _ _ _
      (write_file_source_ok env data size_real size_compressed temp hne hd), e,
      Ptr_read_ofBytes]
  · intro he
    subst he
    have hev := write_file_events env hist path data size_real size_real data size_real []
      (write_file_source_eq env data size_real)
    constructor
    · intro src n ok hmem
      rcases hev _ hmem with h | h
      · simp at h
      · rcases h with h | h | h | h | ⟨f, r, h⟩ | ⟨f, r, h⟩ | h <;> simp at h
    · intro bytes hmem
      rcases hev _ hmem with h | h
      · simp at h
      · rcases h with h | h | h | h | ⟨f, r, h⟩ | ⟨f, r, h⟩ | h <;> simp at h
        rw [h]
        exact ⟨rfl, Ptr_read_length _ _⟩
  · intro hne temp hd hlen bytes hmem
    have hev := write_file_events env hist path data size_real size_compressed _ _ _
      (write_file_source_ok env data size_real size_compressed temp hne hd)
    rcases hev _ hmem with h | h
    · simp at h
    · rcases h with h | h | h | h | ⟨f, r, h⟩ | ⟨f, r, h⟩ | h <;> simp at h
      have e : temp.length % 4294967296 = temp.length := by omega
      rw [h, e, Ptr_read_ofBytes]
  · intro hne hd
    rw [write_file_decompress_error env hist path data size_real size_compressed hne hd]
    refine ⟨rfl, ?_⟩
    intro ev hmem
    simp only [List.mem_singleton] at hmem
    subst hmem
    simp
  · intro pfx mask archive fuel s s1 e hs hr hm ho hne hd
    rw [extract_2215_loop_step env pfx mask archive fuel s s1 e hist hs hr,
      step_2215_decompress_error env pfx mask archive e hist hm ho hne hd]
    rfl
  · intro pfx mask archive fuel s s1 e hs hr hm ho hne hd
    rw [extract_2945_loop_step env pfx mask archive fuel s s1 e hist hs hr,
      step_2945_decompress_error env pfx mask archive e hist hm ho hne hd]
    rfl
  · intro pfx mask archive fuel s s1 e hs hr hm ho hne hd
    rw [extract_2947_loop_step env pfx mask archive fuel s s1 e hist hs hr,
      step_2947_decompress_error env mask archive e hist hm ho hne hd]
    rfl

/-- Witness of C7: on a file system where every open succeeds, the three
bytes at `data` are written when the sizes are equal, and the output of the
decompressor is written when they differ; on a file system where the first
open fails, the bytes are written by the second attempt. -/
theorem write_file_payload_witness :
    write_file working_env [] (ascii "out/a.txt") (Ptr.ofBytes (ascii "abcdef")) 3 3 =
      (true, [Event.w_open (ascii "out/a.txt") true, Event.w_raw (ascii "abc"),
        Event.w_close]) ∧
    write_file working_env [] (ascii "out/a.txt") (Ptr.ofBytes (ascii "abcdef")) 5 3 =
      (true, [Event.lzo1x_decompress_safe (ascii "abc") 5 true,
        Event.w_open (ascii "out/a.txt") true, Event.w_raw (ascii "abc"), Event.w_close]) ∧
    write_file created_env [] (ascii "out/a.txt") (Ptr.ofBytes (ascii "abcdef")) 3 3 =
      (true, [Event.w_open (ascii "out/a.txt") false,
        Event.folder_exist (ascii "out/") false, Event.create_path (ascii "out/") true,
        Event.w_open (ascii "out/a.txt") true, Event.w_raw (ascii "abc"), Event.w_close]) :=
  ⟨((write_file_payload working_env [] (ascii "out/a.txt") (Ptr.ofBytes (ascii "abcdef"))
      3 3).1 rfl).trans rfl,
    ((write_file_payload working_env [] (ascii "out/a.txt") (Ptr.ofBytes (ascii "abcdef"))
      5 3).2.1 (by decide) (ascii "abc") rfl (by decide)).trans rfl,
    ((write_file_payload created_env [] (ascii "out/a.txt") (Ptr.ofBytes (ascii "abcdef"))
      3 3).1 rfl).trans rfl⟩

/-- C8 fails on the code: packing the file `a` of 2^32 - 8 bytes and then the
file `b` with the contents `[1]`, the entry recorded for `b` has the offset
2^32; its record in the table holds the offset 0, the loop of `extract_2947`
reads it back with offset 0, and for that entry the unpacker creates a
directory `b` and writes nothing. -/
theorem huge_archive_offset_wraps :
    huge_tree_env.r_open [] (ascii "src/" ++ ascii "b") = some [1] ∧
    wrapped_entry ∈
      (pack_archive upstream_consts huge_tree_env sample_pack_vm upstream_consts.DB_VERSION_XDB
        (ascii "src") []).1.m_files ∧
    emitted_entry wrapped_entry =
      { path := ascii "b", crc := 0, offset := 0, size_real := 1, size_compressed := 1 } ∧
    read_2947 [] (xr_reader.ofBytes (record_bytes wrapped_entry)) =
      .ok ({ path := ascii "b", crc := 0, offset := 0, size_real := 1, size_compressed := 1 },
        ⟨19, []⟩) ∧
    (∀ (data : Ptr) (hist : List Event),
      step_2947 working_env [] data
          { path := ascii "b", crc := 0, offset := 0, size_real := 1, size_compressed := 1 } hist =
        [Event.create_path (ascii "b") true]) := by
  refine ⟨huge_r_open_b [], ?_, by decide, rfl, fun _ _ => rfl⟩
  rw [huge_pack_files]
  decide

/-- C8 as amended: `process_file` records, for a file it can open, an entry
with the lower-cased path, `size_real = size_compressed =` the length of the
contents, the CRC-32 of the contents and the writer's position before the
contents were appended, and appends the contents to the archive; for every
file entry of the sorted `m_files` that `process` serialises there are the
contents `r` of a regular file of the traversal such that the entry has these
fields and the bytes of the finished archive at `[offset, offset + size_real)`
are `r`; `write_file` for the entry, over every behaviour of the file system,
opens the target and, when it opens (at once or after the fallback), writes
exactly `r`, without calling the decompressor; and when the finished archive
is shorter than 2^32 bytes the record of the table holds the recorded offset
and sizes, the offset is not 0, and the unpacker handles the emitted entry as
a file: the events of its iteration are exactly those of that `write_file`,
so the contents written are `r`. -/
theorem packed_file_roundtrip (K : db_consts) (env : Env) (vm : variables_map) (version : Nat)
    (source : Str) (hist : List Event) :
    (∀ (p : db_packer) (h : List Event) (path : Str) (r : List Byte),
      env.r_open h (p.m_root ++ path) = some r →
      (process_file env p h path).1.m_files =
          p.m_files ++ [{ path := path.map tolower, crc := env.crc32 r % 2 ^ 32,
                          offset := p.m_archive.tell, size_real := r.length,
                          size_compressed := r.length }] ∧
        (process_file env p h path).1.m_archive.bytes = p.m_archive.bytes ++ r) ∧
    (∀ f ∈ (pack_archive K env vm version source hist).1.m_files,
      ∃ (r : List Byte) (h0 : List Event),
        file_stored env
          (env.recursive_directory_iterator h0 (env.append_path_separator source))
          (env.append_path_separator source)
          (pack_archive K env vm version source hist).1.m_archive.bytes 8 f r ∧
        (∀ (env2 : Env) (hist2 : List Event) (target : Str),
          write_file env2 hist2 target
              ((Ptr.ofBytes (pack_archive K env vm version source hist).1.m_archive.bytes).add
                f.offset) f.size_real f.size_compressed =
            if env2.w_open hist2 target = true then
              (true, [Event.w_open target true, Event.w_raw r, Event.w_close])
            else if env2.w_open (hist2 ++ [Event.w_open target false] ++
                ensure_folder_events env2 (hist2 ++ [Event.w_open target false]) target) target = true
            then
              (true, [Event.w_open target false] ++
                ensure_folder_events env2 (hist2 ++ [Event.w_open target false]) target ++
                [Event.w_open target true, Event.w_raw r, Event.w_close])
            else
              (false, [Event.w_open target false] ++
                ensure_folder_events env2 (hist2 ++ [Event.w_open target false]) target ++
                [Event.w_open target false, Event.msg "can't write %s" [msg_arg.str target]])) ∧
        (∀ (env2 : Env) (hist2 : List Event) (target : Str) (bytes : List Byte),
          Event.w_raw bytes ∈ (write_file env2 hist2 target
            ((Ptr.ofBytes (pack_archive K env vm version source hist).1.m_archive.bytes).add
              f.offset) f.size_real f.size_compressed).2 → bytes = r) ∧
        ((pack_archive K env vm version source hist).1.m_archive.bytes.length < 2 ^ 32 →
          emitted_entry f = f ∧ (emitted_entry f).offset ≠ 0 ∧
          mask_skips [] (emitted_entry f).offset (emitted_entry f).path = false ∧
          (∀ (env2 : Env) (hist2 : List Event),
            step_2947 env2 []
                (Ptr.ofBytes (pack_archive K env vm version source hist).1.m_archive.bytes)
                (emitted_entry f) hist2 =
              (
                if env2.w_open hist2 f.path = true then
                  (true, [Event.w_open f.path true, Event.w_raw r, Event.w_close])
                else if env2.w_open (hist2 ++ [Event.w_open f.path false] ++
                    ensure_folder_events env2 (hist2 ++ [Event.w_open f.path false]) f.path) f.path = true
                then
                  (true, [Event.w_open f.path false] ++
                    ensure_folder_events env2 (hist2 ++ [Event.w_open f.path false]) f.path ++
                    [Event.w_open f.path true, Event.w_raw r, Event.w_close])
                else
                  (false, [Event.w_open f.path false] ++
                    ensure_folder_events env2 (hist2 ++ [Event.w_open f.path false]) f.path ++
                    [Event.w_open f.path false, Event.msg "can't write %s" [msg_arg.str f.path]])).2) ∧
          ∀ (env2 : Env) (hist2 : List Event) (bytes : List Byte),
            Event.w_raw bytes ∈ step_2947 env2 []
              (Ptr.ofBytes (pack_archive K env vm version source hist).1.m_archive.bytes)
              (emitted_entry f) hist2 → bytes = r)) := by
  obtain ⟨h1, h2⟩ := packed_file_stored K env vm version source hist
  refine ⟨h1, ?_⟩
  intro f hf
  obtain ⟨r, h0, a1, a2, a3⟩ := h2 f hf
  have hw : ∀ (env2 : Env) (hist2 : List Event) (target : Str),
      write_file env2 hist2 target
          ((Ptr.ofBytes (pack_archive K env vm version source hist).1.m_archive.bytes).add
            f.offset) f.size_real f.size_compressed =
        if env2.w_open hist2 target = true then
          (true, [Event.w_open target true, Event.w_raw r, Event.w_close])
        else if env2.w_open (hist2 ++ [Event.w_open target false] ++
            ensure_folder_events env2 (hist2 ++ [Event.w_open target false]) target) target = true
        then
          (true, [Event.w_open target false] ++
            ensure_folder_events env2 (hist2 ++ [Event.w_open target false]) target ++
            [Event.w_open target true, Event.w_raw r, Event.w_close])
        else
          (false, [Event.w_open target false] ++
            ensure_folder_events env2 (hist2 ++ [Event.w_open target false]) target ++
            [Event.w_open target false, Event.msg "can't write %s" [msg_arg.str target]]) := by
    intro env2 hist2 target
    obtain ⟨_, s1, s2, _, _, _, s7⟩ := a1
    rw [s1, s2, write_file_eq env2 hist2 target _ r.length r.length _ r.length []
      (write_file_source_eq env2 _ r.length), s7]
    simp only [List.append_nil, List.nil_append]
  refine ⟨r, h0, a1, hw, a2, ?_⟩
  intro hlt
  obtain ⟨b1, b2, b3⟩ := a3 hlt
  have he : emitted_entry f = f := by
    unfold emitted_entry
    rw [b1, b2, b3]
  have ho : f.offset ≠ 0 := by have := a1.2.2.2.2.1; omega
  rw [he]
  refine ⟨rfl, ho, by simp [mask_skips], ?_, ?_⟩
  · intro env2 hist2
    rw [step_2947_file env2 _ f hist2 ho, hw env2 hist2 f.path]
  · intro env2 hist2 bytes hmem
    rw [step_2947_file env2 _ f hist2 ho] at hmem
    exact a2 env2 hist2 f.path bytes hmem

set_option maxRecDepth 8000 in
/-- Witness of C8 (amended): the first file packed from `sample_tree_env`,
whose contents are the three bytes "DDS"; unpacking its emitted entry on a file
system where every open succeeds writes these three bytes. -/
theorem packed_file_roundtrip_witness :
    db_file.mk (ascii "textures/wall.dds") 0 8 3 3 ∈
      (pack_archive upstream_consts sample_tree_env sample_pack_vm upstream_consts.DB_VERSION_XDB
        (ascii "src") []).1.m_files ∧
    (∃ (r : List Byte) (h0 : List Event),
      file_stored sample_tree_env
        (sample_tree_env.recursive_directory_iterator h0
          (sample_tree_env.append_path_separator (ascii "src")))
        (sample_tree_env.append_path_separator (ascii "src"))
        (pack_archive upstream_consts sample_tree_env sample_pack_vm
          upstream_consts.DB_VERSION_XDB (ascii "src") []).1.m_archive.bytes 8
        (db_file.mk (ascii "textures/wall.dds") 0 8 3 3) r) ∧
    step_2947 working_env []
        (Ptr.ofBytes (pack_archive upstream_consts sample_tree_env sample_pack_vm
          upstream_consts.DB_VERSION_XDB (ascii "src") []).1.m_archive.bytes)
        (emitted_entry (db_file.mk (ascii "textures/wall.dds") 0 8 3 3)) [] =
      [Event.w_open (ascii "textures/wall.dds") true, Event.w_raw (ascii "DDS"),
        Event.w_close] :=
  by
  obtain ⟨r, h0, a1, _, _, a3⟩ :=
    (packed_file_roundtrip upstream_consts sample_tree_env sample_pack_vm
      upstream_consts.DB_VERSION_XDB (ascii "src") []).2
      (db_file.mk (ascii "textures/wall.dds") 0 8 3 3) (by decide)
  refine ⟨by decide, ⟨r, h0, a1⟩, ?_⟩
  have hlen : r.length = 3 := a1.2.1.symm
  have hr : r = ascii "DDS" := by
    have h := a1.2.2.2.2.2.2
    rw [hlen] at h
    exact h.symm.trans (by decide)
  have hs := (a3 (by decide)).2.2.2.1 working_env []
  rw [hr] at hs
  exact hs.trans (by decide)

/-- C9, the code at a failing input. Packing a source tree with the folder
`Textures` and the files `Textures/Wall.DDS` and `Readme.TXT`: the folder
entry keeps its path `Textures`, with the upper-case letter `T`, while the
paths of the file entries are lower-cased; the serialised folder record
decodes to the path `Textures`. -/
theorem folder_path_keeps_case :
    (pack_archive upstream_consts sample_tree_env sample_pack_vm
        upstream_consts.DB_VERSION_XDB (ascii "src") []).1.m_folders = [ascii "Textures"] ∧
    (84 : Byte) ∈ ascii "Textures" ∧ tolower 84 ≠ 84 ∧
    ((pack_archive upstream_consts sample_tree_env sample_pack_vm
        upstream_consts.DB_VERSION_XDB (ascii "src") []).1.m_files.map (fun f => f.path)) =
      [ascii "readme.txt", ascii "textures/wall.dds"] ∧
    (extract_2947 working_env [] [] (xr_reader.ofBytes (packer_table [ascii "Textures"] []).bytes)
        (Ptr.ofBytes []) []).1 = [folder_entry (ascii "Textures")] := by
  decide

/-- C10, the code at a failing input. A pack run with the legacy flag `2215`
and the target `out.xdb0`: the request is not rejected, the output archive is
opened, written and closed. -/
theorem legacy_flag_2215_packs :
    legacy_pack_vm.count "2215" = 1 ∧
    Event.w_open (ascii "out.xdb0") true ∈
      db_packer_process upstream_consts sample_tree_env legacy_pack_vm [] ∧
    Event.archive_closed (pack_archive upstream_consts sample_tree_env legacy_pack_vm
        upstream_consts.DB_VERSION_XDB (ascii "src") []).1.m_archive.bytes ∈
      db_packer_process upstream_consts sample_tree_env legacy_pack_vm [] := by
  refine ⟨by decide, by decide, ?_⟩
  set_option maxRecDepth 4000 in decide

/-! ## Further lemmas on the reads of a record -/

theorem except_bind_error {ε α β : Type} (e : ε) (f : α → Except ε β) :
    (Except.error e >>= f) = Except.error e := rfl

theorem read_2947_inv (pfx : Str) (s s6 : xr_reader) (e : db_file)
    (hr : read_2947 pfx s = .ok (e, s6)) :
    ∃ len s1 s2 s3 s4 s5 name,
      s.r_u16 = .ok (len, s1) ∧ s1.r_u32 = .ok (e.size_real, s2) ∧
      s2.r_u32 = .ok (e.size_compressed, s3) ∧ s3.r_u32 = .ok (e.crc, s4) ∧
      s4.skip (name_size_of len) = .ok (name, s5) ∧ s5.r_u32 = .ok (e.offset, s6) ∧
      e.path = pfx ++ std_replace name BACKSLASH SLASH := by
  unfold read_2947 at hr
  cases h1 : s.r_u16 with
  | error f => rw [h1, except_bind_error] at hr; exact Except.noConfusion hr
  | ok v1 =>
    obtain ⟨len, s1⟩ := v1
    rw [h1, except_bind_ok] at hr
    dsimp only at hr
    cases h2 : s1.r_u32 with
    | error f => rw [h2, except_bind_error] at hr; exact Except.noConfusion hr
    | ok v2 =>
      obtain ⟨size_real, s2⟩ := v2
      rw [h2, except_bind_ok] at hr
      dsimp only at hr
      cases h3 : s2.r_u32 with
      | error f => rw [h3, except_bind_error] at hr; exact Except.noConfusion hr
      | ok v3 =>
        obtain ⟨size_compressed, s3⟩ := v3
        rw [h3, except_bind_ok] at hr
        dsimp only at hr
        cases h4 : s3.r_u32 with
        | error f => rw [h4, except_bind_error] at hr; exact Except.noConfusion hr
        | ok v4 =>
          obtain ⟨crc, s4⟩ := v4
          rw [h4, except_bind_ok] at hr
          dsimp only at hr
          cases h5 : s4.skip (name_size_of len) with
          | error f => rw [h5, except_bind_error] at hr; exact Except.noConfusion hr
          | ok v5 =>
            obtain ⟨name, s5⟩ := v5
            rw [h5, except_bind_ok] at hr
            dsimp only at hr
            cases h6 : s5.r_u32 with
            | error f => rw [h6, except_bind_error] at hr; exact Except.noConfusion hr
            | ok v6 =>
              obtain ⟨offset, s6a⟩ := v6
              rw [h6, except_bind_ok] at hr
              dsimp only at hr
              have hh : (db_file.mk (pfx ++ std_replace name BACKSLASH SLASH) crc offset
                  size_real size_compressed, s6a) = (e, s6) :=
                Except.ok.inj hr
              obtain ⟨he, hs⟩ := Prod.mk.inj hh
              subst he hs
              exact ⟨len, s1, s2, s3, s4, s5, name, rfl, h2, h3, h4, h5, h6, rfl⟩

theorem mask_skips_offset_zero (mask path : Str) : mask_skips mask 0 path = false := by
  simp [mask_skips]

/-! ## The version gate of the packer -/

theorem testBit_foldl_or (l : List Nat) (v i : Nat) (h : v.testBit i = true) :
    (l.foldl (fun x y => x ||| y) v).testBit i = true := by
  induction l generalizing v with
  | nil => exact h
  | cons a t ih =>
    rw [List.foldl_cons]
    apply ih
    rw [Nat.testBit_or, h, Bool.true_or]

theorem or_all_pow_iff (l : List Nat) (hn : l.Nodup) (hp : ∀ v ∈ l, ∃ k, v = 2 ^ k) :
    (∃ j, or_all l = 2 ^ j) ↔ l.length = 1 := by
  have hpos : ∀ k : Nat, 2 ^ k ≠ 0 := fun k => Nat.pos_iff_ne_zero.1 (Nat.two_pow_pos k)
  match l, hn, hp with
  | [], _, _ =>
    simp only [or_all, List.foldl_nil, List.length_nil]
    constructor
    · rintro ⟨j, hj⟩
      exact absurd hj.symm (hpos j)
    · intro h
      exact absurd h (by decide)
  | [x], _, hp =>
    obtain ⟨k, hk⟩ := hp x (List.mem_singleton_self _)
    simp only [or_all, List.foldl_cons, List.foldl_nil, Nat.zero_or, List.length_singleton,
      iff_true]
    exact ⟨k, hk⟩
  | x :: y :: t, hn, hp =>
    obtain ⟨a, ha⟩ := hp x (List.mem_cons_self _ _)
    obtain ⟨b, hb⟩ := hp y (List.mem_cons_of_mem _ (List.mem_cons_self _ _))
    have hxy : x ≠ y := by
      intro e
      rw [List.nodup_cons] at hn
      exact hn.1 (by rw [e]; exact List.mem_cons_self _ _)
    have hab : a ≠ b := fun e => hxy (by rw [ha, hb, e])
    constructor
    · rintro ⟨j, hj⟩
      exfalso
      have h1 : (or_all (x :: y :: t)).testBit a = true := by
        unfold or_all
        rw [List.foldl_cons, List.foldl_cons]
        apply testBit_foldl_or
        rw [Nat.testBit_or, Nat.testBit_or, ha, Nat.testBit_two_pow_self]
        simp
      have h2 : (or_all (x :: y :: t)).testBit b = true := by
        unfold or_all
        rw [List.foldl_cons, List.foldl_cons]
        apply testBit_foldl_or
        rw [Nat.testBit_or, hb, Nat.testBit_two_pow_self]
        simp
      rw [hj, Nat.testBit_two_pow] at h1 h2
      have e1 : j = a := by simpa using h1
      have e2 : j = b := by simpa using h2
      exact hab (e1.symm.trans e2)
    · intro h
      simp at h

theorem is_xdb_iff (extension : Str) :
    is_xdb extension = true ↔ ∃ c, isalnum c = true ∧ extension = ascii ".xdb" ++ [c] := by
  rw [ascii_xdb]
  constructor
  · intro h
    match extension, h with
    | [a, b, c, d, e], h =>
      simp only [is_xdb, compare_eq, ascii_xdb, Bool.and_eq_true, beq_iff_eq] at h
      obtain ⟨⟨h1, _⟩, h3⟩ := h
      simp only [List.take, List.cons.injEq, and_true] at h1
      obtain ⟨rfl, rfl, rfl, rfl⟩ := h1
      exact ⟨e, h3, rfl⟩
    | [], h => exact absurd h (by decide)
    | [_], h => exact absurd h (by simp [is_xdb, compare_eq, ascii_xdb])
    | [_, _], h => exact absurd h (by simp [is_xdb, compare_eq, ascii_xdb])
    | [_, _, _], h => exact absurd h (by simp [is_xdb, compare_eq, ascii_xdb])
    | [_, _, _, _], h => exact absurd h (by simp [is_xdb, compare_eq, ascii_xdb])
    | _ :: _ :: _ :: _ :: _ :: _ :: _, h => exact absurd h (by simp [is_xdb, compare_eq, ascii_xdb])
  · rintro ⟨c, hc, rfl⟩
    simp [is_xdb, compare_eq, ascii_xdb, hc]

theorem pack_version_eq_foldl (K : db_consts) (vm : variables_map) (extension : Str) :
    pack_version K vm extension =
      (pack_flag_table K vm extension).foldl or_flag K.DB_VERSION_AUTO := by
  simp only [pack_version, pack_flag_table, List.foldl_cons, List.foldl_nil, or_flag,
    decide_eq_true_eq, Bool.or_eq_true]

theorem resolved_variants_sublist (K : db_consts) (vm : variables_map) (extension : Str) :
    List.Sublist (resolved_variants K vm extension) K.versions := by
  have h1 : List.Sublist (resolved_variants K vm extension)
      ((pack_flag_table K vm extension).map (fun bc => bc.2)) :=
    List.Sublist.map _ (List.filter_sublist _)
  have h2 : List.Sublist ((pack_flag_table K vm extension).map (fun bc => bc.2)) K.versions :=
    List.Sublist.cons _ (List.Sublist.cons _ (List.Sublist.cons _ (List.Sublist.refl _)))
  exact h1.trans h2

theorem pack_flag_table_bits (K : db_consts) (hK : K.version_bits) (vm : variables_map)
    (extension : Str) :
    ∀ bc ∈ pack_flag_table K vm extension, ∃ k, k < 32 ∧ bc.2 = 2 ^ k := by
  intro bc hbc
  apply hK.2.2
  simp only [pack_flag_table, List.mem_cons, List.mem_singleton, List.not_mem_nil,
    or_false] at hbc
  simp only [db_consts.versions, List.mem_cons, List.mem_singleton, List.not_mem_nil, or_false]
  rcases hbc with h | h | h <;> simp [h]

theorem pack_version_accepted_iff (K : db_consts) (hK : K.version_bits) (vm : variables_map)
    (extension : Str) :
    version_rejected K (pack_version K vm extension) = false ↔
      (resolved_variants K vm extension).length = 1 := by
  have hsub := resolved_variants_sublist K vm extension
  obtain ⟨f1, f2, _⟩ := foldl_or_flag (pack_flag_table K vm extension)
    (pack_flag_table_bits K hK vm extension) 0 (by decide)
  have hn : (resolved_variants K vm extension).Nodup := List.Nodup.sublist hsub hK.2.1
  have hp : ∀ v ∈ resolved_variants K vm extension, ∃ k, v = 2 ^ k := by
    intro v hv
    obtain ⟨k, _, hk⟩ := hK.2.2 v (hsub.subset hv)
    exact ⟨k, hk⟩
  have e : pack_version K vm extension = or_all (resolved_variants K vm extension) := by
    rw [pack_version_eq_foldl, hK.1, f1]
    rfl
  have hlt : pack_version K vm extension < 2 ^ 32 := by
    rw [pack_version_eq_foldl, hK.1]
    exact f2
  rw [version_rejected_iff K hK.1 _ hlt, e]
  exact or_all_pow_iff _ hn hp

theorem db_packer_process_rejected (K : db_consts) (env : Env) (vm : variables_map)
    (hist : List Event)
    (hv : version_rejected K
      (pack_version K vm (env.split_path (vm.as_string "out")).extension) = true) :
    ∀ ev ∈ db_packer_process K env vm hist, is_io ev = false := by
  intro ev hev
  unfold db_packer_process at hev
  simp only [hv, if_true] at hev
  split_ifs at hev <;>
    simp only [List.mem_append, List.mem_singleton, List.mem_cons, List.not_mem_nil,
      or_false] at hev <;>
    first
      | (subst hev; rfl)
      | (rcases hev with h | h <;> subst h <;> rfl)

theorem db_packer_process_opens (K : db_consts) (env : Env) (vm : variables_map)
    (hist : List Event) (h1 : vm.count "pack" ≠ 0)
    (h2 : env.folder_exist hist (vm.as_string "pack") = true) (h3 : vm.count "out" ≠ 0)
    (h4 : ¬ (vm.count "11xx" ≠ 0 ∨ vm.count "12215" ≠ 0 ∨ vm.count "12945" ≠ 0))
    (hv : version_rejected K
      (pack_version K vm (env.split_path (vm.as_string "out")).extension) = false) :
    ∃ ok, Event.w_open (vm.as_string "out") ok ∈ db_packer_process K env vm hist := by
  unfold db_packer_process
  simp only [hv]
  rw [if_neg h1]
  simp only [h2]
  rw [if_neg (by simp), if_neg h3, if_neg h4, if_neg (by simp)]
  refine ⟨env.w_open (hist ++ [Event.folder_exist (vm.as_string "pack") true])
    (vm.as_string "out"), ?_⟩
  split_ifs <;> simp

/-- C11. With the version constants distinct single bits and AUTO = 0: the
variants `db_packer::process` resolves are RU for flag `2947ru`, WW for flag
`2947ww` and XDB for flag `xdb` or a target extension that is ".xdb" followed
by one alphanumeric character; the output archive is opened only when exactly
one variant is resolved; when not exactly one is resolved, in particular when
both flags `2947ru` and `2947ww` are given or when none is resolved, the run
consists of messages and the query whether the source folder exists: nothing
is opened, read, created or written; and when exactly one is resolved and the
earlier checks pass, the archive is opened. -/
theorem pack_version_gate (K : db_consts) (hK : K.version_bits) (env : Env)
    (vm : variables_map) (hist : List Event) :
    resolved_variants K vm (env.split_path (vm.as_string "out")).extension =
      (if vm.count "2947ru" ≠ 0 then [K.DB_VERSION_2947RU] else []) ++
      (if vm.count "2947ww" ≠ 0 then [K.DB_VERSION_2947WW] else []) ++
      (if vm.count "xdb" ≠ 0 ∨ is_xdb (env.split_path (vm.as_string "out")).extension = true
        then [K.DB_VERSION_XDB] else []) ∧
    (is_xdb (env.split_path (vm.as_string "out")).extension = true ↔
      ∃ c, isalnum c = true ∧ (env.split_path (vm.as_string "out")).extension = ascii ".xdb" ++ [c]) ∧
    ((∃ p ok, Event.w_open p ok ∈ db_packer_process K env vm hist) →
      (resolved_variants K vm (env.split_path (vm.as_string "out")).extension).length = 1) ∧
    ((resolved_variants K vm (env.split_path (vm.as_string "out")).extension).length ≠ 1 →
      ∀ ev ∈ db_packer_process K env vm hist, is_io ev = false) ∧
    (vm.count "2947ru" ≠ 0 → vm.count "2947ww" ≠ 0 →
      ∀ ev ∈ db_packer_process K env vm hist, is_io ev = false) ∧
    (resolved_variants K vm (env.split_path (vm.as_string "out")).extension = [] →
      ∀ ev ∈ db_packer_process K env vm hist, is_io ev = false) ∧
    (vm.count "pack" ≠ 0 → env.folder_exist hist (vm.as_string "pack") = true →
      vm.count "out" ≠ 0 →
      ¬ (vm.count "11xx" ≠ 0 ∨ vm.count "12215" ≠ 0 ∨ vm.count "12945" ≠ 0) →
      (resolved_variants K vm (env.split_path (vm.as_string "out")).extension).length = 1 →
      ∃ ok, Event.w_open (vm.as_string "out") ok ∈ db_packer_process K env vm hist) := by
  have hacc := pack_version_accepted_iff K hK vm (env.split_path (vm.as_string "out")).extension
  have hlist : ∀ (b1 b2 b3 : Bool) (x y z : Nat),
      (([(b1, x), (b2, y), (b3, z)] : List (Bool × Nat)).filter (fun bc => bc.1)).map
          (fun bc => bc.2) =
        (if b1 = true then [x] else []) ++ (if b2 = true then [y] else []) ++
          (if b3 = true then [z] else []) := by
    intro b1 b2 b3 x y z
    cases b1 <;> cases b2 <;> cases b3 <;> rfl
  have hexp : resolved_variants K vm (env.split_path (vm.as_string "out")).extension =
      (if vm.count "2947ru" ≠ 0 then [K.DB_VERSION_2947RU] else []) ++
      (if vm.count "2947ww" ≠ 0 then [K.DB_VERSION_2947WW] else []) ++
      (if vm.count "xdb" ≠ 0 ∨ is_xdb (env.split_path (vm.as_string "out")).extension = true
        then [K.DB_VERSION_XDB] else []) := by
    unfold resolved_variants pack_flag_table
    rw [hlist]
    simp only [decide_eq_true_eq, Bool.or_eq_true]
  have hrej : (resolved_variants K vm (env.split_path (vm.as_string "out")).extension).length ≠ 1 →
      ∀ ev ∈ db_packer_process K env vm hist, is_io ev = false := by
    intro hne
    apply db_packer_process_rejected
    cases hv : version_rejected K
        (pack_version K vm (env.split_path (vm.as_string "out")).extension) with
    | true => rfl
    | false => exact absurd (hacc.1 hv) hne
  refine ⟨hexp, is_xdb_iff _, ?_, hrej, ?_, ?_, ?_⟩
  · rintro ⟨p, ok, hmem⟩
    by_contra hne
    have := hrej hne _ hmem
    exact Bool.noConfusion this
  · intro hru hww
    apply hrej
    rw [hexp, if_pos hru, if_pos hww]
    simp only [List.length_append, List.length_singleton]
    omega
  · intro hnil
    apply hrej
    rw [hnil]
    decide
  · intro h1 h2 h3 h4 h5
    exact db_packer_process_opens K env vm hist h1 h2 h3 h4 (hacc.2 h5)

/-- Witness of C11: the upstream constants, on a run with both flags `2947ru`
and `2947ww`. -/
theorem pack_version_gate_witness :
    upstream_consts.version_bits ∧
    resolved_variants upstream_consts both_flags_vm (working_env.split_path (both_flags_vm.as_string "out")).extension =
      (if both_flags_vm.count "2947ru" ≠ 0 then [upstream_consts.DB_VERSION_2947RU] else []) ++
      (if both_flags_vm.count "2947ww" ≠ 0 then [upstream_consts.DB_VERSION_2947WW] else []) ++
      (if both_flags_vm.count "xdb" ≠ 0 ∨ is_xdb (working_env.split_path (both_flags_vm.as_string "out")).extension = true
        then [upstream_consts.DB_VERSION_XDB] else []) ∧
    (is_xdb (working_env.split_path (both_flags_vm.as_string "out")).extension = true ↔
      ∃ c, isalnum c = true ∧ (working_env.split_path (both_flags_vm.as_string "out")).extension = ascii ".xdb" ++ [c]) ∧
    ((∃ p ok, Event.w_open p ok ∈ db_packer_process upstream_consts working_env both_flags_vm []) →
      (resolved_variants upstream_consts both_flags_vm (working_env.split_path (both_flags_vm.as_string "out")).extension).length = 1) ∧
    ((resolved_variants upstream_consts both_flags_vm (working_env.split_path (both_flags_vm.as_string "out")).extension).length ≠ 1 →
      ∀ ev ∈ db_packer_process upstream_consts working_env both_flags_vm [], is_io ev = false) ∧
    (both_flags_vm.count "2947ru" ≠ 0 → both_flags_vm.count "2947ww" ≠ 0 →
      ∀ ev ∈ db_packer_process upstream_consts working_env both_flags_vm [], is_io ev = false) ∧
    (resolved_variants upstream_consts both_flags_vm (working_env.split_path (both_flags_vm.as_string "out")).extension = [] →
      ∀ ev ∈ db_packer_process upstream_consts working_env both_flags_vm [], is_io ev = false) ∧
    (both_flags_vm.count "pack" ≠ 0 → working_env.folder_exist [] (both_flags_vm.as_string "pack") = true →
      both_flags_vm.count "out" ≠ 0 →
      ¬ (both_flags_vm.count "11xx" ≠ 0 ∨ both_flags_vm.count "12215" ≠ 0 ∨ both_flags_vm.count "12945" ≠ 0) →
      (resolved_variants upstream_consts both_flags_vm (working_env.split_path (both_flags_vm.as_string "out")).extension).length = 1 →
      ∃ ok, Event.w_open (both_flags_vm.as_string "out") ok ∈ db_packer_process upstream_consts working_env both_flags_vm []) :=
  ⟨upstream_consts_version_bits,
    pack_version_gate upstream_consts upstream_consts_version_bits working_env both_flags_vm []⟩

/-! ## Entries with offset 0 -/

/-- C12. In the loops of layouts 2215, 2945 and 2947, for every mask and every
entry whose offset is 0, whatever its other fields are: the mask test does not
skip the entry, and the events of the iteration are exactly the creation of
the directory at output prefix + entry path (`create_folder` in 2215 and 2945;
in 2947 `create_path` at the decoded path, which is the prefix followed by the
stored name), so no payload is read, decompressed or written. -/
theorem folder_entry_creates_directory (env : Env) (pfx mask : Str) (data : Ptr)
    (hist : List Event) :
    (∀ e : entry_2215, e.offset = 0 →
      mask_skips mask e.offset e.path = false ∧
      step_2215 env pfx mask data e hist =
        [Event.create_folder (pfx ++ e.path) (env.create_folder hist (pfx ++ e.path))]) ∧
    (∀ e : db_file, e.offset = 0 →
      mask_skips mask e.offset e.path = false ∧
      step_2945 env pfx mask data e hist =
        [Event.create_folder (pfx ++ e.path) (env.create_folder hist (pfx ++ e.path))]) ∧
    (∀ (s s1 : xr_reader) (e : db_file), read_2947 pfx s = .ok (e, s1) → e.offset = 0 →
      mask_skips mask e.offset e.path = false ∧
      (∃ name, e.path = pfx ++ name) ∧
      step_2947 env mask data e hist = [Event.create_path e.path (env.create_path hist e.path)]) := by
  refine ⟨?_, ?_, ?_⟩
  · intro e ho
    have hm : mask_skips mask e.offset e.path = false := by rw [ho]; exact mask_skips_offset_zero _ _
    refine ⟨hm, ?_⟩
    unfold step_2215
    rw [hm, if_neg (by simp), if_neg (by simp [DB_DEBUG]), if_pos ho]
  · intro e ho
    have hm : mask_skips mask e.offset e.path = false := by rw [ho]; exact mask_skips_offset_zero _ _
    refine ⟨hm, ?_⟩
    unfold step_2945
    rw [hm, if_neg (by simp), if_neg (by simp [DB_DEBUG]), if_pos ho]
  · intro s s1 e hr ho
    have hm : mask_skips mask e.offset e.path = false := by rw [ho]; exact mask_skips_offset_zero _ _
    obtain ⟨_, _, _, _, _, _, name, _, _, _, _, _, _, hp⟩ := read_2947_inv pfx s s1 e hr
    refine ⟨hm, ⟨_, hp⟩, ?_⟩
    unfold step_2947
    rw [hm, if_neg (by simp), if_neg (by simp [DB_DEBUG]), if_pos ho]

/-- Witness of C12: a record with offset 0 and non-zero size and crc fields,
in each of the three layouts, under the mask "x". -/
theorem folder_entry_creates_directory_witness :
    (mask_skips (ascii "x") 0 (ascii "dir") = false ∧
      step_2215 working_env (ascii "out/") (ascii "x") (Ptr.ofBytes [])
          (entry_2215.mk (ascii "dir") 0 5 7) [] =
        [Event.create_folder (ascii "out/" ++ ascii "dir")
          (working_env.create_folder [] (ascii "out/" ++ ascii "dir"))]) ∧
    (mask_skips (ascii "x") 0 (ascii "dir") = false ∧
      step_2945 working_env (ascii "out/") (ascii "x") (Ptr.ofBytes [])
          (db_file.mk (ascii "dir") 9 0 5 7) [] =
        [Event.create_folder (ascii "out/" ++ ascii "dir")
          (working_env.create_folder [] (ascii "out/" ++ ascii "dir"))]) ∧
    (mask_skips (ascii "x") 0 (ascii "out/" ++ ascii "dir") = false ∧
      (∃ name, ascii "out/" ++ ascii "dir" = ascii "out/" ++ name) ∧
      step_2947 working_env (ascii "x") (Ptr.ofBytes [])
          (db_file.mk (ascii "out/" ++ ascii "dir") 9 0 5 7) [] =
        [Event.create_path (ascii "out/" ++ ascii "dir")
          (working_env.create_path [] (ascii "out/" ++ ascii "dir"))]) :=
  ⟨(folder_entry_creates_directory working_env (ascii "out/") (ascii "x") (Ptr.ofBytes []) []).1
      (entry_2215.mk (ascii "dir") 0 5 7) rfl,
    (folder_entry_creates_directory working_env (ascii "out/") (ascii "x") (Ptr.ofBytes [])
      []).2.1 (db_file.mk (ascii "dir") 9 0 5 7) rfl,
    (folder_entry_creates_directory working_env (ascii "out/") (ascii "x") (Ptr.ofBytes [])
      []).2.2 ⟨0, record_bytes (db_file.mk (ascii "dir") 9 0 5 7)⟩ ⟨21, []⟩
      (db_file.mk (ascii "out/" ++ ascii "dir") 9 0 5 7) rfl rfl⟩

/-! ## The offsets of packed files -/

/-- C13 as stated fails: packing the file `a` of 2^32 - 8 bytes and then the
file `b` of one byte, the packer records the offset 2^32 for `b`, the offset
field of the record it emits for `b` holds 0, and the unpacker treats that
record as a folder: it creates the directory `b` and writes no file. -/
theorem huge_archive_emits_offset_zero :
    wrapped_entry ∈
      (pack_archive upstream_consts huge_tree_env sample_pack_vm upstream_consts.DB_VERSION_XDB
        (ascii "src") []).1.m_files ∧
    wrapped_entry.offset = 4294967296 ∧
    (emitted_entry wrapped_entry).offset = 0 ∧
    (record_bytes wrapped_entry).drop 15 = [0, 0, 0, 0] ∧
    step_2947 working_env [] (Ptr.ofBytes []) (emitted_entry wrapped_entry) [] =
      [Event.create_path (ascii "b") true] := by
  refine ⟨?_, rfl, by decide, by decide, by decide⟩
  rw [huge_pack_files]
  decide

/-- C13, amended. Every file entry the packer records has an offset of at
least 8, the first file and files of length 0 included, for every source tree
and with or without a USERDATA chunk; and when the finished archive is shorter
than 2^32 bytes the offset field of the emitted record holds that offset, so
it is not 0, and the unpacker handles the emitted entry as a file (it calls
`write_file` for it and creates no directory). -/
theorem packed_file_offset_nonzero (K : db_consts) (env : Env) (vm : variables_map)
    (version : Nat) (source : Str) (hist : List Event) (f : db_file)
    (hf : f ∈ (pack_archive K env vm version source hist).1.m_files) :
    8 ≤ f.offset ∧
    ((pack_archive K env vm version source hist).1.m_archive.bytes.length < 2 ^ 32 →
      (emitted_entry f).offset = f.offset ∧ (emitted_entry f).offset ≠ 0 ∧
      ∀ (env2 : Env) (data : Ptr) (hist2 : List Event),
        step_2947 env2 [] data (emitted_entry f) hist2 =
          (write_file env2 hist2 f.path (data.add f.offset) f.size_real f.size_compressed).2) := by
  obtain ⟨r, h0, a1, _, a3⟩ := (packed_file_stored K env vm version source hist).2 f hf
  have h8 : 8 ≤ f.offset := a1.2.2.2.2.1
  refine ⟨h8, ?_⟩
  intro hlt
  obtain ⟨b1, b2, b3⟩ := a3 hlt
  have he : emitted_entry f = f := by
    unfold emitted_entry
    rw [b1, b2, b3]
  rw [he]
  refine ⟨rfl, by omega, ?_⟩
  intro env2 data hist2
  exact step_2947_file env2 data f hist2 (by omega)

set_option maxRecDepth 8000 in
/-- Witness of C13 (amended): the first file packed from `sample_tree_env`. -/
theorem packed_file_offset_nonzero_witness :
    db_file.mk (ascii "textures/wall.dds") 0 8 3 3 ∈
      (pack_archive upstream_consts sample_tree_env sample_pack_vm upstream_consts.DB_VERSION_XDB
        (ascii "src") []).1.m_files ∧
    8 ≤ (db_file.mk (ascii "textures/wall.dds") 0 8 3 3).offset ∧
    ((pack_archive upstream_consts sample_tree_env sample_pack_vm upstream_consts.DB_VERSION_XDB
        (ascii "src") []).1.m_archive.bytes.length < 2 ^ 32 →
      (emitted_entry (db_file.mk (ascii "textures/wall.dds") 0 8 3 3)).offset =
        (db_file.mk (ascii "textures/wall.dds") 0 8 3 3).offset ∧
      (emitted_entry (db_file.mk (ascii "textures/wall.dds") 0 8 3 3)).offset ≠ 0 ∧
      ∀ (env2 : Env) (data : Ptr) (hist2 : List Event),
        step_2947 env2 [] data (emitted_entry (db_file.mk (ascii "textures/wall.dds") 0 8 3 3))
            hist2 =
          (write_file env2 hist2 (db_file.mk (ascii "textures/wall.dds") 0 8 3 3).path
            (data.add (db_file.mk (ascii "textures/wall.dds") 0 8 3 3).offset)
            (db_file.mk (ascii "textures/wall.dds") 0 8 3 3).size_real
            (db_file.mk (ascii "textures/wall.dds") 0 8 3 3).size_compressed).2) :=
  ⟨by decide,
    packed_file_offset_nonzero upstream_consts sample_tree_env sample_pack_vm
      upstream_consts.DB_VERSION_XDB (ascii "src") []
      (db_file.mk (ascii "textures/wall.dds") 0 8 3 3) (by decide)⟩

/-! ## The write policy of `write_file` -/

theorem write_file_source_events (env : Env) (data : Ptr) (size_real size_compressed : Nat)
    (r : Option (Ptr × Nat)) (ev0 : List Event)
    (hs : write_file_source env data size_real size_compressed = (r, ev0)) :
    ∀ ev ∈ ev0, is_w_open ev = false := by
  unfold write_file_source at hs
  split at hs
  · dsimp only at hs
    split at hs
    · obtain ⟨_, h2⟩ := Prod.mk.inj hs
      subst h2
      intro ev hev
      rw [List.mem_singleton] at hev
      subst hev
      rfl
    · obtain ⟨_, h2⟩ := Prod.mk.inj hs
      subst h2
      intro ev hev
      rw [List.mem_singleton] at hev
      subst hev
      rfl
  · obtain ⟨_, h2⟩ := Prod.mk.inj hs
    subst h2
    intro ev hev
    exact absurd hev (List.not_mem_nil _)

theorem ensure_folder_events_no_open (env : Env) (hist : List Event) (path : Str) :
    ∀ ev ∈ ensure_folder_events env hist path, is_w_open ev = false := by
  intro ev hev
  unfold ensure_folder_events at hev
  rw [List.mem_append] at hev
  rcases hev with h | h
  · rw [List.mem_singleton] at h
    subst h
    rfl
  · split at h
    · exact absurd h (List.not_mem_nil _)
    · rw [List.mem_singleton] at h
      subst h
      rfl

theorem ensure_folder_events_create (env : Env) (hist : List Event) (path : Str) :
    (∃ created, Event.create_path (env.split_path path).folder created ∈
        ensure_folder_events env hist path) ↔
      env.folder_exist hist (env.split_path path).folder = false := by
  unfold ensure_folder_events
  cases h : env.folder_exist hist (env.split_path path).folder
  · simp
  · simp

/-- C14. The write policy of `write_file` (lines 217-238), over every behaviour
of the file system, once the source buffer has been obtained (`ev0` are the
events of lines 204-215, none of which is an attempt to open a file): the
write is attempted; when that attempt succeeds the trace is that attempt alone
(no folder is queried or created, no second attempt) and the result is `true`;
when it fails the parent folder is queried, created exactly when it does not
exist, and the write is attempted exactly once more: the result is `true` when
that attempt succeeds, and when it fails the trace ends with the message
"can't write %s" and the result is `false`. -/
theorem write_file_retry_policy (env : Env) (hist : List Event) (path : Str) (data : Ptr)
    (size_real size_compressed : Nat) (data1 : Ptr) (size1 : Nat) (ev0 : List Event)
    (hs : write_file_source env data size_real size_compressed = (some (data1, size1), ev0)) :
    (∀ ev ∈ ev0, is_w_open ev = false) ∧
    (env.w_open (hist ++ ev0) path = true →
      write_file env hist path data size_real size_compressed =
        (true, ev0 ++
          [Event.w_open path true, Event.w_raw (data1.read size1), Event.w_close])) ∧
    (env.w_open (hist ++ ev0) path = false →
      (∀ ev ∈ ensure_folder_events env (hist ++ ev0 ++ [Event.w_open path false]) path,
        is_w_open ev = false) ∧
      ((∃ created, Event.create_path (env.split_path path).folder created ∈
          ensure_folder_events env (hist ++ ev0 ++ [Event.w_open path false]) path) ↔
        env.folder_exist (hist ++ ev0 ++ [Event.w_open path false])
          (env.split_path path).folder = false) ∧
      (env.w_open (hist ++ ev0 ++ [Event.w_open path false] ++
          ensure_folder_events env (hist ++ ev0 ++ [Event.w_open path false]) path) path = true →
        write_file env hist path data size_real size_compressed =
          (true, ev0 ++ [Event.w_open path false] ++
            ensure_folder_events env (hist ++ ev0 ++ [Event.w_open path false]) path ++
            [Event.w_open path true, Event.w_raw (data1.read size1), Event.w_close])) ∧
      (env.w_open (hist ++ ev0 ++ [Event.w_open path false] ++
          ensure_folder_events env (hist ++ ev0 ++ [Event.w_open path false]) path) path = false →
        write_file env hist path data size_real size_compressed =
          (false, ev0 ++ [Event.w_open path false] ++
            ensure_folder_events env (hist ++ ev0 ++ [Event.w_open path false]) path ++
            [Event.w_open path false, Event.msg "can't write %s" [msg_arg.str path]]))) := by
  have hw : write_file env hist path data size_real size_compressed =
      if !(write_file_retry env (hist ++ ev0) path data1 size1).1 then
        (false, ev0 ++ (write_file_retry env (hist ++ ev0) path data1 size1).2 ++
          [Event.msg "can't write %s" [msg_arg.str path]])
      else (true, ev0 ++ (write_file_retry env (hist ++ ev0) path data1 size1).2) := by
    unfold write_file
    rw [hs]
  refine ⟨write_file_source_events env data size_real size_compressed _ ev0 hs, ?_, ?_⟩
  · intro h1
    have hr := write_file_retry_eq env (hist ++ ev0) path data1 size1
    rw [if_pos h1] at hr
    rw [hw, hr]
    rfl
  · intro h1
    have h1n : ¬ env.w_open (hist ++ ev0) path = true := by rw [h1]; simp
    refine ⟨ensure_folder_events_no_open env _ path, ensure_folder_events_create env _ path, ?_, ?_⟩
    · intro h2
      have hr := write_file_retry_eq env (hist ++ ev0) path data1 size1
      rw [if_neg h1n, if_pos h2] at hr
      rw [hw, hr]
      simp
    · intro h2
      have h2n : ¬ env.w_open (hist ++ ev0 ++ [Event.w_open path false] ++
          ensure_folder_events env (hist ++ ev0 ++ [Event.w_open path false]) path) path = true := by
        rw [h2]; simp
      have hr := write_file_retry_eq env (hist ++ ev0) path data1 size1
      rw [if_neg h1n, if_neg h2n] at hr
      rw [hw, hr]
      simp

set_option maxRecDepth 4000 in
theorem write_file_retry_policy_witness :
    write_file_source created_env (Ptr.ofBytes (ascii "x")) 1 1 =
      (some (Ptr.ofBytes (ascii "x"), 1), []) ∧
    (∀ ev ∈ ([] : List Event), is_w_open ev = false) ∧
    (created_env.w_open ([] ++ []) (ascii "out/a.txt") = true →
      write_file created_env [] (ascii "out/a.txt") (Ptr.ofBytes (ascii "x")) 1 1 =
        (true, [] ++
          [Event.w_open (ascii "out/a.txt") true,
            Event.w_raw ((Ptr.ofBytes (ascii "x")).read 1), Event.w_close])) ∧
    (created_env.w_open ([] ++ []) (ascii "out/a.txt") = false →
      (∀ ev ∈ ensure_folder_events created_env ([] ++ [] ++ [Event.w_open (ascii "out/a.txt") false])
          (ascii "out/a.txt"),
        is_w_open ev = false) ∧
      ((∃ created, Event.create_path (created_env.split_path (ascii "out/a.txt")).folder created ∈
          ensure_folder_events created_env ([] ++ [] ++ [Event.w_open (ascii "out/a.txt") false])
            (ascii "out/a.txt")) ↔
        created_env.folder_exist ([] ++ [] ++ [Event.w_open (ascii "out/a.txt") false])
          (created_env.split_path (ascii "out/a.txt")).folder = false) ∧
      (created_env.w_open ([] ++ [] ++ [Event.w_open (ascii "out/a.txt") false] ++
          ensure_folder_events created_env ([] ++ [] ++ [Event.w_open (ascii "out/a.txt") false])
            (ascii "out/a.txt")) (ascii "out/a.txt") = true →
        write_file created_env [] (ascii "out/a.txt") (Ptr.ofBytes (ascii "x")) 1 1 =
          (true, [] ++ [Event.w_open (ascii "out/a.txt") false] ++
            ensure_folder_events created_env ([] ++ [] ++ [Event.w_open (ascii "out/a.txt") false])
              (ascii "out/a.txt") ++
            [Event.w_open (ascii "out/a.txt") true,
              Event.w_raw ((Ptr.ofBytes (ascii "x")).read 1), Event.w_close])) ∧
      (created_env.w_open ([] ++ [] ++ [Event.w_open (ascii "out/a.txt") false] ++
          ensure_folder_events created_env ([] ++ [] ++ [Event.w_open (ascii "out/a.txt") false])
            (ascii "out/a.txt")) (ascii "out/a.txt") = false →
        write_file created_env [] (ascii "out/a.txt") (Ptr.ofBytes (ascii "x")) 1 1 =
          (false, [] ++ [Event.w_open (ascii "out/a.txt") false] ++
            ensure_folder_events created_env ([] ++ [] ++ [Event.w_open (ascii "out/a.txt") false])
              (ascii "out/a.txt") ++
            [Event.w_open (ascii "out/a.txt") false,
              Event.msg "can't write %s" [msg_arg.str (ascii "out/a.txt")]]))) :=
  ⟨rfl, write_file_retry_policy created_env [] (ascii "out/a.txt") (Ptr.ofBytes (ascii "x")) 1 1
    (Ptr.ofBytes (ascii "x")) 1 [] rfl⟩

/-! ## The payload of a 1114 entry -/

theorem ensure_folder_events_eq (env : Env) (hist : List Event) (path : Str) :
    ([Event.folder_exist (env.split_path path).folder
        (env.folder_exist hist (env.split_path path).folder)] ++
      if (!env.folder_exist hist (env.split_path path).folder) = true then
        [Event.create_path (env.split_path path).folder
          (env.create_path (hist ++ [Event.folder_exist (env.split_path path).folder
            (env.folder_exist hist (env.split_path path).folder)]) (env.split_path path).folder)]
      else []) = ensure_folder_events env hist path := by
  unfold ensure_folder_events
  cases env.folder_exist hist (env.split_path path).folder <;> rfl

theorem ensure_folder_events_append (env : Env) (hist : List Event) (path : Str)
    (rest : List Event) :
    ([Event.folder_exist (env.split_path path).folder
        (env.folder_exist hist (env.split_path path).folder)] ++
      ((if (!env.folder_exist hist (env.split_path path).folder) = true then
        [Event.create_path (env.split_path path).folder
          (env.create_path (hist ++ [Event.folder_exist (env.split_path path).folder
            (env.folder_exist hist (env.split_path path).folder)]) (env.split_path path).folder)]
      else []) ++ rest)) = ensure_folder_events env hist path ++ rest := by
  rw [← List.append_assoc, ensure_folder_events_eq]

theorem Ptr_add_read_getD (data : Ptr) (offset size i : Nat) (h : i < size) :
    ((data.add offset).read size).getD i 0 = data (offset + i) := by
  simp [Ptr.read, Ptr.add, List.getD_eq_getElem?_getD, h]

/-- C15. One iteration of `extract_1114` on an entry that is not filtered out
(empty mask). When the flag `uncompressed` is non-zero, after the parent folder
has been ensured the target is opened and, when it opens, exactly the `size`
bytes of the archive at the entry's offset are written; when the flag is zero
the `size` stored bytes at the offset go to the legacy decompressor and, after
the same steps, exactly the returned buffer is written, and when the returned
size is zero no file is opened or written at all. -/
theorem legacy_payload_1114 (env : Env) (pfx : Str) (data : Ptr) (path : Str) (e : entry_1114)
    (hist : List Event) :
    mask_skips [] e.offset (std_replace path BACKSLASH SLASH) = false ∧
    ((data.add e.offset).read e.size).length = e.size ∧
    (∀ i, i < e.size → ((data.add e.offset).read e.size).getD i 0 = data (e.offset + i)) ∧
    (e.uncompressed ≠ 0 →
      (step_1114 env pfx [] data path e hist).2 =
        ensure_folder_events env hist (pfx ++ e.temp) ++
          if env.w_open (hist ++ ensure_folder_events env hist (pfx ++ e.temp)) (pfx ++ e.temp)
          then [Event.w_open (pfx ++ e.temp) true,
            Event.w_raw ((data.add e.offset).read e.size), Event.w_close]
          else [Event.w_open (pfx ++ e.temp) false]) ∧
    (e.uncompressed = 0 →
      (env.lzhuf_decompress ((data.add e.offset).read e.size)).length ≠ 0 →
      (step_1114 env pfx [] data path e hist).2 =
        ensure_folder_events env hist (pfx ++ e.temp) ++
          [Event.lzhuf_decompress ((data.add e.offset).read e.size)] ++
          if env.w_open (hist ++ ensure_folder_events env hist (pfx ++ e.temp) ++
              [Event.lzhuf_decompress ((data.add e.offset).read e.size)]) (pfx ++ e.temp)
          then [Event.w_open (pfx ++ e.temp) true,
            Event.w_raw (env.lzhuf_decompress ((data.add e.offset).read e.size)), Event.w_close]
          else [Event.w_open (pfx ++ e.temp) false]) ∧
    (e.uncompressed = 0 →
      (env.lzhuf_decompress ((data.add e.offset).read e.size)).length = 0 →
      (step_1114 env pfx [] data path e hist).2 =
        ensure_folder_events env hist (pfx ++ e.temp) ++
          [Event.lzhuf_decompress ((data.add e.offset).read e.size)]) := by
  have hm : mask_skips [] e.offset (std_replace path BACKSLASH SLASH) = false := by
    simp [mask_skips]
  refine ⟨hm, Ptr_read_length _ _, fun i hi => Ptr_add_read_getD data e.offset e.size i hi,
    ?_, ?_, ?_⟩
  · intro hu
    unfold step_1114
    simp only []
    rw [hm, if_neg (by simp), if_neg (by simp [DB_DEBUG]), if_pos hu]
    rw [ensure_folder_events_eq]
    simp only [List.append_assoc]
    rw [ensure_folder_events_eq]
    unfold write_file_raw
    split_ifs <;> rfl
  · intro hu hp
    unfold step_1114
    simp only []
    rw [hm, if_neg (by simp), if_neg (by simp [DB_DEBUG]), if_neg (by simp [hu]), if_pos hp]
    rw [ensure_folder_events_eq]
    simp only [List.append_assoc]
    rw [ensure_folder_events_append]
    unfold write_file_raw
    rw [Ptr_read_ofBytes]
    split_ifs <;> rfl
  · intro hu hp
    unfold step_1114
    simp only []
    rw [hm, if_neg (by simp), if_neg (by simp [DB_DEBUG]), if_neg (by simp [hu]),
      if_neg (by simp [hp])]
    rw [ensure_folder_events_eq]

/-- Witness of C15: an entry with `uncompressed = 1` and `size = 100` at
offset 8, and an entry with `uncompressed = 0` whose decompressed size is 0. -/
theorem legacy_payload_1114_witness :
    ((Ptr.add (Ptr.ofBytes (List.replicate 200 7)) 8).read 100).length = 100 ∧
    (step_1114 working_env (ascii "out/") [] (Ptr.ofBytes (List.replicate 200 7)) []
        (entry_1114.mk (ascii "a.bin") 1 8 100) []).2 =
      ensure_folder_events working_env [] (ascii "out/" ++ ascii "a.bin") ++
        (if working_env.w_open
            ([] ++ ensure_folder_events working_env [] (ascii "out/" ++ ascii "a.bin"))
            (ascii "out/" ++ ascii "a.bin")
        then [Event.w_open (ascii "out/" ++ ascii "a.bin") true,
          Event.w_raw ((Ptr.add (Ptr.ofBytes (List.replicate 200 7)) 8).read 100),
          Event.w_close]
        else [Event.w_open (ascii "out/" ++ ascii "a.bin") false]) ∧
    (step_1114 working_env (ascii "out/") [] (Ptr.ofBytes (List.replicate 200 7)) []
        (entry_1114.mk (ascii "a.bin") 0 8 0) []).2 =
      ensure_folder_events working_env [] (ascii "out/" ++ ascii "a.bin") ++
        [Event.lzhuf_decompress ((Ptr.add (Ptr.ofBytes (List.replicate 200 7)) 8).read 0)] :=
  ⟨(legacy_payload_1114 working_env (ascii "out/") (Ptr.ofBytes (List.replicate 200 7)) []
      (entry_1114.mk (ascii "a.bin") 1 8 100) []).2.1,
    (legacy_payload_1114 working_env (ascii "out/") (Ptr.ofBytes (List.replicate 200 7)) []
      (entry_1114.mk (ascii "a.bin") 1 8 100) []).2.2.2.1 (by decide),
    (legacy_payload_1114 working_env (ascii "out/") (Ptr.ofBytes (List.replicate 200 7)) []
      (entry_1114.mk (ascii "a.bin") 0 8 0) []).2.2.2.2.2 rfl rfl⟩

/-! ## Decoding hand-built tables -/

theorem split_nul_append (name t : List Byte) (h : (0 : Byte) ∉ name) :
    split_nul (name ++ ([0] ++ t)) = some (name, t) := by
  induction name with
  | nil => simp [split_nul]
  | cons b bs ih =>
    have hb : b ≠ 0 := fun hb => h (by rw [hb]; exact List.mem_cons_self _ _)
    have ih1 := ih (fun hm => h (List.mem_cons_of_mem _ hm))
    rw [List.cons_append, split_nul, if_neg hb, ih1]

theorem r_sz_append (pos : Nat) (name t : List Byte) (h : (0 : Byte) ∉ name) :
    xr_reader.r_sz ⟨pos, name ++ ([0] ++ t)⟩ = .ok (name, ⟨pos + name.length + 1, t⟩) := by
  unfold xr_reader.r_sz
  dsimp only
  rw [split_nul_append name t h]

theorem read_1114_record_bytes (e : entry_1114) (he : fits_1114 e) (pos : Nat) (t : List Byte) :
    read_1114 ⟨pos, record_bytes_1114 e ++ t⟩ = .ok (e, ⟨pos + (e.temp.length + 13), t⟩) := by
  obtain ⟨h0, h1, h2, h3⟩ := he
  have k1 : e.uncompressed < 4294967296 := by omega
  have k2 : e.offset < 4294967296 := by omega
  have k3 : e.size < 4294967296 := by omega
  unfold read_1114 record_bytes_1114
  simp only [List.append_assoc]
  rw [r_sz_append _ _ _ h0, except_bind_ok]
  dsimp only
  rw [r_u32_u32_bytes _ _ _ k1, except_bind_ok]
  dsimp only
  rw [r_u32_u32_bytes _ _ _ k2, except_bind_ok]
  dsimp only
  rw [r_u32_u32_bytes _ _ _ k3, except_bind_ok]
  dsimp only
  have e1 : pos + e.temp.length + 1 + 4 + 4 + 4 = pos + (e.temp.length + 13) := by omega
  rw [e1]
  rfl

theorem read_2215_record_bytes (e : entry_2215) (he : fits_2215 e) (pos : Nat) (t : List Byte) :
    read_2215 ⟨pos, record_bytes_2215 e ++ t⟩ =
      .ok (decoded_2215 e, ⟨pos + (e.path.length + 13), t⟩) := by
  obtain ⟨h0, h1, h2, h3⟩ := he
  have k1 : e.offset < 4294967296 := by omega
  have k2 : e.size_real < 4294967296 := by omega
  have k3 : e.size_compressed < 4294967296 := by omega
  unfold read_2215 record_bytes_2215
  simp only [List.append_assoc]
  rw [r_sz_append _ _ _ h0, except_bind_ok]
  dsimp only
  rw [r_u32_u32_bytes _ _ _ k1, except_bind_ok]
  dsimp only
  rw [r_u32_u32_bytes _ _ _ k2, except_bind_ok]
  dsimp only
  rw [r_u32_u32_bytes _ _ _ k3, except_bind_ok]
  dsimp only
  have e1 : pos + e.path.length + 1 + 4 + 4 + 4 = pos + (e.path.length + 13) := by omega
  rw [e1]
  rfl

theorem read_2945_record_bytes (e : db_file) (he : fits_2945 e) (pos : Nat) (t : List Byte) :
    read_2945 ⟨pos, record_bytes_2945 e ++ t⟩ =
      .ok (decoded_2945 e, ⟨pos + (e.path.length + 17), t⟩) := by
  obtain ⟨h0, h1, h2, h3, h4⟩ := he
  have k1 : e.crc < 4294967296 := by omega
  have k2 : e.offset < 4294967296 := by omega
  have k3 : e.size_real < 4294967296 := by omega
  have k4 : e.size_compressed < 4294967296 := by omega
  unfold read_2945 record_bytes_2945
  simp only [List.append_assoc]
  rw [r_sz_append _ _ _ h0, except_bind_ok]
  dsimp only
  rw [r_u32_u32_bytes _ _ _ k1, except_bind_ok]
  dsimp only
  rw [r_u32_u32_bytes _ _ _ k2, except_bind_ok]
  dsimp only
  rw [r_u32_u32_bytes _ _ _ k3, except_bind_ok]
  dsimp only
  rw [r_u32_u32_bytes _ _ _ k4, except_bind_ok]
  dsimp only
  have e1 : pos + e.path.length + 1 + 4 + 4 + 4 + 4 = pos + (e.path.length + 17) := by omega
  rw [e1]
  rfl

theorem read_2947_record_bytes_pfx (pfx : Str) (f : db_file) (hf : fits_fields_2947 f)
    (pos : Nat) (t : List Byte) :
    read_2947 pfx ⟨pos, record_bytes f ++ t⟩ =
      .ok (decoded_2947 pfx f, ⟨pos + (f.path.length + 18), t⟩) := by
  obtain ⟨hl, h1, h2, h3, h4⟩ := hf
  have e16 : (f.path.length + 16) % 2 ^ 16 = f.path.length + 16 := Nat.mod_eq_of_lt (by omega)
  have k1 : f.size_real < 4294967296 := by omega
  have k2 : f.size_compressed < 4294967296 := by omega
  have k3 : f.crc < 4294967296 := by omega
  have k4 : f.offset < 4294967296 := by omega
  have m1 : f.size_real % 2 ^ 32 = f.size_real := Nat.mod_eq_of_lt h1
  have m2 : f.size_compressed % 2 ^ 32 = f.size_compressed := Nat.mod_eq_of_lt h2
  have m4 : f.offset % 2 ^ 32 = f.offset := Nat.mod_eq_of_lt h4
  unfold read_2947 record_bytes
  rw [e16, m1, m2, m4]
  simp only [List.append_assoc]
  rw [r_u16_u16_bytes _ _ _ (by omega), except_bind_ok]
  dsimp only
  rw [name_size_of_add _ hl, r_u32_u32_bytes _ _ _ k1, except_bind_ok]
  dsimp only
  rw [r_u32_u32_bytes _ _ _ k2, except_bind_ok]
  dsimp only
  rw [r_u32_u32_bytes _ _ _ k3, except_bind_ok]
  dsimp only
  rw [skip_append, except_bind_ok]
  dsimp only
  rw [r_u32_u32_bytes _ _ _ k4, except_bind_ok]
  dsimp only
  have e : pos + 2 + 4 + 4 + 4 + f.path.length + 4 = pos + (f.path.length + 18) := by omega
  rw [e]
  rfl

theorem record_bytes_1114_length (e : entry_1114) :
    (record_bytes_1114 e).length = e.temp.length + 13 := by
  simp [record_bytes_1114, u32_bytes]

theorem record_bytes_2215_length (e : entry_2215) :
    (record_bytes_2215 e).length = e.path.length + 13 := by
  simp [record_bytes_2215, u32_bytes]

theorem record_bytes_2945_length (e : db_file) :
    (record_bytes_2945 e).length = e.path.length + 17 := by
  simp [record_bytes_2945, u32_bytes]

theorem extract_1114_loop_eof (env : Env) (pfx mask : Str) (data : Ptr) (fuel pos : Nat)
    (path : Str) (hist : List Event) :
    extract_1114_loop env pfx mask data fuel path ⟨pos, []⟩ hist = ([], [], .ok ⟨pos, []⟩) := by
  unfold extract_1114_loop
  rfl

theorem extract_2215_loop_eof (env : Env) (pfx mask : Str) (data : Ptr) (fuel pos : Nat)
    (hist : List Event) :
    extract_2215_loop env pfx mask data fuel ⟨pos, []⟩ hist = ([], [], .ok ⟨pos, []⟩) := by
  unfold extract_2215_loop
  rfl

theorem extract_2945_loop_eof (env : Env) (pfx mask : Str) (data : Ptr) (fuel pos : Nat)
    (hist : List Event) :
    extract_2945_loop env pfx mask data fuel ⟨pos, []⟩ hist = ([], [], .ok ⟨pos, []⟩) := by
  unfold extract_2945_loop
  rfl

theorem extract_1114_loop_step (env : Env) (pfx mask : Str) (data : Ptr) (fuel : Nat)
    (path : Str) (s s1 : xr_reader) (e : entry_1114) (hist : List Event) (hs : s.eof = false)
    (hr : read_1114 s = .ok (e, s1)) :
    extract_1114_loop env pfx mask data (fuel + 1) path s hist =
      (e :: (extract_1114_loop env pfx mask data fuel
          (step_1114 env pfx mask data path e hist).1 s1
          (hist ++ (step_1114 env pfx mask data path e hist).2)).1,
        (step_1114 env pfx mask data path e hist).2 ++
          (extract_1114_loop env pfx mask data fuel
            (step_1114 env pfx mask data path e hist).1 s1
            (hist ++ (step_1114 env pfx mask data path e hist).2)).2.1,
        (extract_1114_loop env pfx mask data fuel
          (step_1114 env pfx mask data path e hist).1 s1
          (hist ++ (step_1114 env pfx mask data path e hist).2)).2.2) := by
  rw [extract_1114_loop, hs, hr]
  rfl

theorem extract_1114_loop_records (env : Env) (pfx mask : Str) (data : Ptr)
    (es : List entry_1114) (hes : ∀ e ∈ es, fits_1114 e) :
    ∀ (fuel pos : Nat) (path : Str) (hist : List Event), es.length ≤ fuel →
      (extract_1114_loop env pfx mask data fuel path
        ⟨pos, (es.map record_bytes_1114).flatten⟩ hist).1 = es ∧
      (extract_1114_loop env pfx mask data fuel path
        ⟨pos, (es.map record_bytes_1114).flatten⟩ hist).2.2 =
        .ok ⟨pos + (es.map record_bytes_1114).flatten.length, []⟩ := by
  induction es with
  | nil =>
    intro fuel pos path hist _
    rw [List.map_nil, List.flatten_nil, extract_1114_loop_eof]
    exact ⟨rfl, rfl⟩
  | cons f fs ih =>
    intro fuel pos path hist hfuel
    obtain ⟨n, rfl⟩ : ∃ n, fuel = n + 1 := ⟨fuel - 1, by simp at hfuel; omega⟩
    have hf := hes f (List.mem_cons_self _ _)
    obtain ⟨h1, h2⟩ := ih (fun g hg => hes g (List.mem_cons_of_mem _ hg)) n
      (pos + (f.temp.length + 13)) (step_1114 env pfx mask data path f hist).1
      (hist ++ (step_1114 env pfx mask data path f hist).2) (by simp at hfuel; omega)
    have hne : xr_reader.eof
        ⟨pos, record_bytes_1114 f ++ (fs.map record_bytes_1114).flatten⟩ = false := by
      simp [xr_reader.eof, record_bytes_1114, u32_bytes]
    rw [List.map_cons, List.flatten_cons,
      extract_1114_loop_step env pfx mask data n path _ _ f hist hne
        (read_1114_record_bytes f hf pos _)]
    refine ⟨by rw [h1], ?_⟩
    rw [h2, List.length_append, record_bytes_1114_length, Nat.add_assoc]

theorem extract_2215_loop_records (env : Env) (pfx mask : Str) (data : Ptr)
    (es : List entry_2215) (hes : ∀ e ∈ es, fits_2215 e) :
    ∀ (fuel pos : Nat) (hist : List Event), es.length ≤ fuel →
      (extract_2215_loop env pfx mask data fuel
        ⟨pos, (es.map record_bytes_2215).flatten⟩ hist).1 = es.map decoded_2215 ∧
      (extract_2215_loop env pfx mask data fuel
        ⟨pos, (es.map record_bytes_2215).flatten⟩ hist).2.2 =
        .ok ⟨pos + (es.map record_bytes_2215).flatten.length, []⟩ := by
  induction es with
  | nil =>
    intro fuel pos hist _
    rw [List.map_nil, List.flatten_nil, extract_2215_loop_eof]
    exact ⟨rfl, rfl⟩
  | cons f fs ih =>
    intro fuel pos hist hfuel
    obtain ⟨n, rfl⟩ : ∃ n, fuel = n + 1 := ⟨fuel - 1, by simp at hfuel; omega⟩
    have hf := hes f (List.mem_cons_self _ _)
    obtain ⟨h1, h2⟩ := ih (fun g hg => hes g (List.mem_cons_of_mem _ hg)) n
      (pos + (f.path.length + 13)) (hist ++ step_2215 env pfx mask data (decoded_2215 f) hist)
      (by simp at hfuel; omega)
    have hne : xr_reader.eof
        ⟨pos, record_bytes_2215 f ++ (fs.map record_bytes_2215).flatten⟩ = false := by
      simp [xr_reader.eof, record_bytes_2215, u32_bytes]
    rw [List.map_cons, List.flatten_cons,
      extract_2215_loop_step env pfx mask data n _ _ (decoded_2215 f) hist hne
        (read_2215_record_bytes f hf pos _)]
    refine ⟨by rw [h1, List.map_cons], ?_⟩
    rw [h2, List.length_append, record_bytes_2215_length, Nat.add_assoc]

theorem extract_2945_loop_records (env : Env) (pfx mask : Str) (data : Ptr)
    (es : List db_file) (hes : ∀ e ∈ es, fits_2945 e) :
    ∀ (fuel pos : Nat) (hist : List Event), es.length ≤ fuel →
      (extract_2945_loop env pfx mask data fuel
        ⟨pos, (es.map record_bytes_2945).flatten⟩ hist).1 = es.map decoded_2945 ∧
      (extract_2945_loop env pfx mask data fuel
        ⟨pos, (es.map record_bytes_2945).flatten⟩ hist).2.2 =
        .ok ⟨pos + (es.map record_bytes_2945).flatten.length, []⟩ := by
  induction es with
  | nil =>
    intro fuel pos hist _
    rw [List.map_nil, List.flatten_nil, extract_2945_loop_eof]
    exact ⟨rfl, rfl⟩
  | cons f fs ih =>
    intro fuel pos hist hfuel
    obtain ⟨n, rfl⟩ : ∃ n, fuel = n + 1 := ⟨fuel - 1, by simp at hfuel; omega⟩
    have hf := hes f (List.mem_cons_self _ _)
    obtain ⟨h1, h2⟩ := ih (fun g hg => hes g (List.mem_cons_of_mem _ hg)) n
      (pos + (f.path.length + 17)) (hist ++ step_2945 env pfx mask data (decoded_2945 f) hist)
      (by simp at hfuel; omega)
    have hne : xr_reader.eof
        ⟨pos, record_bytes_2945 f ++ (fs.map record_bytes_2945).flatten⟩ = false := by
      simp [xr_reader.eof, record_bytes_2945, u32_bytes]
    rw [List.map_cons, List.flatten_cons,
      extract_2945_loop_step env pfx mask data n _ _ (decoded_2945 f) hist hne
        (read_2945_record_bytes f hf pos _)]
    refine ⟨by rw [h1, List.map_cons], ?_⟩
    rw [h2, List.length_append, record_bytes_2945_length, Nat.add_assoc]

theorem extract_2947_loop_records_pfx (env : Env) (pfx mask : Str) (data : Ptr)
    (es : List db_file) (hes : ∀ f ∈ es, fits_fields_2947 f) :
    ∀ (fuel pos : Nat) (hist : List Event), es.length ≤ fuel →
      (extract_2947_loop env pfx mask data fuel
        ⟨pos, (es.map record_bytes).flatten⟩ hist).1 = es.map (decoded_2947 pfx) ∧
      (extract_2947_loop env pfx mask data fuel
        ⟨pos, (es.map record_bytes).flatten⟩ hist).2.2 =
        .ok ⟨pos + (es.map record_bytes).flatten.length, []⟩ := by
  induction es with
  | nil =>
    intro fuel pos hist _
    rw [List.map_nil, List.flatten_nil, extract_2947_loop_eof]
    exact ⟨rfl, rfl⟩
  | cons f fs ih =>
    intro fuel pos hist hfuel
    obtain ⟨n, rfl⟩ : ∃ n, fuel = n + 1 := ⟨fuel - 1, by simp at hfuel; omega⟩
    have hf := hes f (List.mem_cons_self _ _)
    obtain ⟨h1, h2⟩ := ih (fun g hg => hes g (List.mem_cons_of_mem _ hg)) n
      (pos + (f.path.length + 18)) (hist ++ step_2947 env mask data (decoded_2947 pfx f) hist)
      (by simp at hfuel; omega)
    have hne : xr_reader.eof ⟨pos, record_bytes f ++ (fs.map record_bytes).flatten⟩ = false := by
      simp [xr_reader.eof, record_bytes, u16_bytes]
    rw [List.map_cons, List.flatten_cons,
      extract_2947_loop_step env pfx mask data n _ _ (decoded_2947 pfx f) hist hne
        (read_2947_record_bytes_pfx pfx f hf pos _)]
    refine ⟨by rw [h1, List.map_cons], ?_⟩
    rw [h2, List.length_append, record_bytes_length, Nat.add_assoc]

theorem length_le_flatten_of_pos {α : Type} (f : α → List Byte) (hf : ∀ a, 0 < (f a).length)
    (es : List α) : es.length ≤ (es.map f).flatten.length := by
  induction es with
  | nil => simp
  | cons a t ih =>
    have := hf a
    simp only [List.map_cons, List.flatten_cons, List.length_cons, List.length_append]
    omega

/-- C16. Decoding a header chunk that is the concatenation of N records built
according to a layout gives exactly the N entries that were encoded, in order,
and ends without fault with the cursor at the end of the chunk, for each of
the layouts 1114, 2215, 2945 and 2947, every output prefix and every mask.
Every number is the one stored; the name is the one stored in 1114, and in
2215, 2945 and 2947 the loop holds it with `std::replace` applied (and, in
2947, after the output prefix), which leaves a name without a backslash as
stored. The records are those whose numbers fit their fields and, for the
NUL-terminated layouts, whose names contain no NUL. -/
theorem tables_decode (env : Env) (pfx mask : Str) (data : Ptr) (hist : List Event) :
    (∀ es : List entry_1114, (∀ e ∈ es, fits_1114 e) →
      (extract_1114 env pfx mask (xr_reader.ofBytes (es.map record_bytes_1114).flatten)
        data hist).1 = es ∧
      (extract_1114 env pfx mask (xr_reader.ofBytes (es.map record_bytes_1114).flatten)
        data hist).2.2 = .ok ⟨(es.map record_bytes_1114).flatten.length, []⟩) ∧
    (∀ es : List entry_2215, (∀ e ∈ es, fits_2215 e) →
      (extract_2215 env pfx mask (xr_reader.ofBytes (es.map record_bytes_2215).flatten)
        data hist).1 = es.map decoded_2215 ∧
      (extract_2215 env pfx mask (xr_reader.ofBytes (es.map record_bytes_2215).flatten)
        data hist).2.2 = .ok ⟨(es.map record_bytes_2215).flatten.length, []⟩) ∧
    (∀ es : List db_file, (∀ e ∈ es, fits_2945 e) →
      (extract_2945 env pfx mask (xr_reader.ofBytes (es.map record_bytes_2945).flatten)
        data hist).1 = es.map decoded_2945 ∧
      (extract_2945 env pfx mask (xr_reader.ofBytes (es.map record_bytes_2945).flatten)
        data hist).2.2 = .ok ⟨(es.map record_bytes_2945).flatten.length, []⟩) ∧
    (∀ es : List db_file, (∀ e ∈ es, fits_fields_2947 e) →
      (extract_2947 env pfx mask (xr_reader.ofBytes (es.map record_bytes).flatten)
        data hist).1 = es.map (decoded_2947 pfx) ∧
      (extract_2947 env pfx mask (xr_reader.ofBytes (es.map record_bytes).flatten)
        data hist).2.2 = .ok ⟨(es.map record_bytes).flatten.length, []⟩) ∧
    (∀ e : entry_2215, BACKSLASH ∉ e.path → decoded_2215 e = e) ∧
    (∀ e : db_file, BACKSLASH ∉ e.path → decoded_2945 e = e ∧ decoded_2947 [] e = e) := by
  refine ⟨?_, ?_, ?_, ?_, ?_, ?_⟩
  · intro es hes
    have h := extract_1114_loop_records env pfx mask data es hes
      (es.map record_bytes_1114).flatten.length 0 [] hist
      (length_le_flatten_of_pos record_bytes_1114
        (fun a => by rw [record_bytes_1114_length]; omega) es)
    rw [Nat.zero_add] at h
    exact h
  · intro es hes
    have h := extract_2215_loop_records env pfx mask data es hes
      (es.map record_bytes_2215).flatten.length 0 hist
      (length_le_flatten_of_pos record_bytes_2215
        (fun a => by rw [record_bytes_2215_length]; omega) es)
    rw [Nat.zero_add] at h
    exact h
  · intro es hes
    have h := extract_2945_loop_records env pfx mask data es hes
      (es.map record_bytes_2945).flatten.length 0 hist
      (length_le_flatten_of_pos record_bytes_2945
        (fun a => by rw [record_bytes_2945_length]; omega) es)
    rw [Nat.zero_add] at h
    exact h
  · intro es hes
    have h := extract_2947_loop_records_pfx env pfx mask data es hes
      (es.map record_bytes).flatten.length 0 hist
      (length_le_flatten_of_pos record_bytes
        (fun a => by rw [record_bytes_length]; omega) es)
    rw [Nat.zero_add] at h
    exact h
  · intro e he
    unfold decoded_2215
    rw [std_replace_of_not_mem _ _ _ he]
  · intro e he
    unfold decoded_2945 decoded_2947
    rw [std_replace_of_not_mem _ _ _ he]
    exact ⟨rfl, rfl⟩

/-- Witness of C16: the sample tables of two records satisfy the hypotheses of
the four layouts. -/
theorem tables_decode_witness :
    ((extract_1114 failing_env (ascii "out/") (ascii "x")
        (xr_reader.ofBytes (sample_table_1114.map record_bytes_1114).flatten)
        (Ptr.ofBytes []) []).1 = sample_table_1114 ∧
      (extract_1114 failing_env (ascii "out/") (ascii "x")
        (xr_reader.ofBytes (sample_table_1114.map record_bytes_1114).flatten)
        (Ptr.ofBytes []) []).2.2 =
        .ok ⟨(sample_table_1114.map record_bytes_1114).flatten.length, []⟩) ∧
    ((extract_2215 failing_env (ascii "out/") (ascii "x")
        (xr_reader.ofBytes (sample_table_2215.map record_bytes_2215).flatten)
        (Ptr.ofBytes []) []).1 = sample_table_2215.map decoded_2215 ∧
      (extract_2215 failing_env (ascii "out/") (ascii "x")
        (xr_reader.ofBytes (sample_table_2215.map record_bytes_2215).flatten)
        (Ptr.ofBytes []) []).2.2 =
        .ok ⟨(sample_table_2215.map record_bytes_2215).flatten.length, []⟩) ∧
    ((extract_2945 failing_env (ascii "out/") (ascii "x")
        (xr_reader.ofBytes (sample_table_2945.map record_bytes_2945).flatten)
        (Ptr.ofBytes []) []).1 = sample_table_2945.map decoded_2945 ∧
      (extract_2945 failing_env (ascii "out/") (ascii "x")
        (xr_reader.ofBytes (sample_table_2945.map record_bytes_2945).flatten)
        (Ptr.ofBytes []) []).2.2 =
        .ok ⟨(sample_table_2945.map record_bytes_2945).flatten.length, []⟩) ∧
    ((extract_2947 failing_env (ascii "out/") (ascii "x")
        (xr_reader.ofBytes (sample_table_2945.map record_bytes).flatten)
        (Ptr.ofBytes []) []).1 = sample_table_2945.map (decoded_2947 (ascii "out/")) ∧
      (extract_2947 failing_env (ascii "out/") (ascii "x")
        (xr_reader.ofBytes (sample_table_2945.map record_bytes).flatten)
        (Ptr.ofBytes []) []).2.2 =
        .ok ⟨(sample_table_2945.map record_bytes).flatten.length, []⟩) ∧
    decoded_2215 (entry_2215.mk (ascii "dir") 0 0 0) = entry_2215.mk (ascii "dir") 0 0 0 ∧
    (decoded_2945 (db_file.mk (ascii "dir") 0 0 0 0) = db_file.mk (ascii "dir") 0 0 0 0 ∧
      decoded_2947 [] (db_file.mk (ascii "dir") 0 0 0 0) = db_file.mk (ascii "dir") 0 0 0 0) :=
  ⟨(tables_decode failing_env (ascii "out/") (ascii "x") (Ptr.ofBytes []) []).1
      sample_table_1114 (by unfold fits_1114; decide),
    (tables_decode failing_env (ascii "out/") (ascii "x") (Ptr.ofBytes []) []).2.1
      sample_table_2215 (by unfold fits_2215; decide),
    (tables_decode failing_env (ascii "out/") (ascii "x") (Ptr.ofBytes []) []).2.2.1
      sample_table_2945 (by unfold fits_2945; decide),
    (tables_decode failing_env (ascii "out/") (ascii "x") (Ptr.ofBytes []) []).2.2.2.1
      sample_table_2945 (by unfold fits_fields_2947; decide),
    (tables_decode failing_env (ascii "out/") (ascii "x") (Ptr.ofBytes []) []).2.2.2.2.1
      (entry_2215.mk (ascii "dir") 0 0 0) (by decide),
    (tables_decode failing_env (ascii "out/") (ascii "x") (Ptr.ofBytes []) []).2.2.2.2.2
      (db_file.mk (ascii "dir") 0 0 0 0) (by decide)⟩

/-! ## The cipher of the header chunk -/

/-- C18, the code at failing inputs. With no descriptor open at first: when
`::open` returns the descriptor 3 and `fstat` fails, the constructor logs the
error and is left through `throw;` with the descriptor 3 still open, and the
same happens when `mmap` fails on the file of 100 bytes; on every operating
system, a construction that fails after `::open` returned a descriptor leaves
that descriptor open; whereas after a construction that succeeds the
destructor closes it. -/
theorem failed_construction_leaks_descriptor :
    xr_mmap_reader_posix.constructor stat_failing_os (ascii "gamedata.db0") ⟨[], []⟩ =
      (none, ⟨[3], [posix_error.stat_failed]⟩) ∧
    xr_mmap_reader_posix.constructor mmap_failing_os (ascii "gamedata.db0") ⟨[], []⟩ =
      (none, ⟨[3], [posix_error.mmap_failed]⟩) ∧
    (∀ (os : posix_os) (path : Str) (st : posix_state) (fd : Nat),
      os.open_file path = some fd →
      (xr_mmap_reader_posix.constructor os path st).1 = none →
      fd ∈ (xr_mmap_reader_posix.constructor os path st).2.open_fds) ∧
    (xr_mmap_reader_posix.constructor working_os (ascii "gamedata.db0") ⟨[], []⟩).1 =
      some ⟨some 65536, 3, 100, 4096⟩ ∧
    xr_mmap_reader_posix.destructor working_os ⟨some 65536, 3, 100, 4096⟩
        (xr_mmap_reader_posix.constructor working_os (ascii "gamedata.db0")
          ⟨[], []⟩).2 = ⟨[], []⟩ := by
  refine ⟨by decide, by decide, ?_, by decide, by decide⟩
  intro os path st fd ho _
  unfold xr_mmap_reader_posix.constructor
  rw [ho]
  dsimp only
  cases os.fstat fd with
  | none => exact List.mem_cons_self _ _
  | some file_size =>
    dsimp only
    split <;> split <;> exact List.mem_cons_self _ _

/-! ## The name length of a 2947 record -/

theorem r_u16_inv (s s1 : xr_reader) (len : Nat) (h : s.r_u16 = .ok (len, s1)) :
    len < 65536 ∧ s1 = ⟨s.pos + 2, s.rest.drop 2⟩ ∧ 2 ≤ s.rest.length := by
  unfold xr_reader.r_u16 at h
  split at h
  · rename_i b0 b1 t hrest
    have hh := Prod.mk.inj (Except.ok.inj h)
    rw [hrest]
    refine ⟨?_, ?_, ?_⟩
    · have h0 := b0.isLt
      have h1 := b1.isLt
      omega
    · rw [← hh.2]
      rfl
    · simp
  · exact Except.noConfusion h

theorem r_u32_ok (s : xr_reader) (h : 4 ≤ s.rest.length) :
    ∃ v, s.r_u32 = .ok (v, ⟨s.pos + 4, s.rest.drop 4⟩) := by
  obtain ⟨pos, rest⟩ := s
  match rest, h with
  | b0 :: b1 :: b2 :: b3 :: t, _ => exact ⟨_, rfl⟩

theorem skip_ok (s : xr_reader) (n : Nat) (h : n ≤ s.rest.length) :
    s.skip n = .ok (s.rest.take n, ⟨s.pos + n, s.rest.drop n⟩) := by
  unfold xr_reader.skip
  rw [if_pos h]

theorem name_size_of_ge (len : Nat) (h1 : 16 ≤ len) (h2 : len < 65536) :
    name_size_of len = len - 16 := by
  unfold name_size_of
  omega

theorem name_size_of_lt (len : Nat) (h : len < 16) :
    name_size_of len = 18446744073709551600 + len := by
  unfold name_size_of
  omega

theorem r_u32_cases (s : xr_reader) :
    (4 ≤ s.rest.length ∧ ∃ v, s.r_u32 = .ok (v, ⟨s.pos + 4, s.rest.drop 4⟩)) ∨
    (s.rest.length < 4 ∧ s.r_u32 = .error .out_of_bounds) := by
  by_cases h : 4 ≤ s.rest.length
  · exact Or.inl ⟨h, r_u32_ok s h⟩
  · refine Or.inr ⟨by omega, ?_⟩
    obtain ⟨pos, rest⟩ := s
    match rest, h with
    | [], _ => rfl
    | [_], _ => rfl
    | [_, _], _ => rfl
    | [_, _, _], _ => rfl
    | _ :: _ :: _ :: _ :: _, h => exact absurd (by simp) h

theorem read_2947_cases (pfx : Str) (s s1 : xr_reader) (len : Nat)
    (h : s.r_u16 = .ok (len, s1)) :
    (name_size_of len + 16 ≤ s1.rest.length ∧
      ∃ e, read_2947 pfx s = .ok (e, ⟨s.pos + (name_size_of len + 18),
        s.rest.drop (name_size_of len + 18)⟩)) ∨
    (s1.rest.length < name_size_of len + 16 ∧ read_2947 pfx s = .error .out_of_bounds) := by
  obtain ⟨_, hs1, _⟩ := r_u16_inv s s1 len h
  unfold read_2947
  rw [h, except_bind_ok]
  dsimp only
  generalize name_size_of len = n
  rcases r_u32_cases s1 with ⟨l1, v1, e1⟩ | ⟨l1, e1⟩
  · rw [e1, except_bind_ok]
    dsimp only
    rcases r_u32_cases ⟨s1.pos + 4, s1.rest.drop 4⟩ with ⟨l2, v2, e2⟩ | ⟨l2, e2⟩
    · rw [e2, except_bind_ok]
      dsimp only
      rcases r_u32_cases ⟨s1.pos + 4 + 4, (s1.rest.drop 4).drop 4⟩ with ⟨l3, v3, e3⟩ | ⟨l3, e3⟩
      · rw [e3, except_bind_ok]
        dsimp only
        by_cases l4 : n ≤ (((s1.rest.drop 4).drop 4).drop 4).length
        · rw [skip_ok _ n l4, except_bind_ok]
          dsimp only
          rcases r_u32_cases ⟨s1.pos + 4 + 4 + 4 + n, (((s1.rest.drop 4).drop 4).drop 4).drop n⟩
            with ⟨l5, v5, e5⟩ | ⟨l5, e5⟩
          · rw [e5, except_bind_ok]
            dsimp only
            left
            simp only [List.length_drop] at l1 l2 l3 l4 l5
            refine ⟨by omega, _, congrArg Except.ok (congrArg (Prod.mk _) ?_)⟩
            rw [hs1]
            simp only [List.drop_drop]
            have p1 : s.pos + 2 + 4 + 4 + 4 + n + 4 = s.pos + (n + 18) := by omega
            have p2 : 2 + 4 + 4 + 4 + n + 4 = n + 18 := by omega
            rw [p1, p2]
          · rw [e5, except_bind_error]
            right
            simp only [List.length_drop] at l1 l2 l3 l4 l5
            exact ⟨by omega, rfl⟩
        · right
          unfold xr_reader.skip
          rw [if_neg l4, except_bind_error]
          simp only [List.length_drop] at l1 l2 l3 l4
          exact ⟨by omega, rfl⟩
      · rw [e3, except_bind_error]
        right
        simp only [List.length_drop] at l1 l2 l3
        exact ⟨by omega, rfl⟩
    · rw [e2, except_bind_error]
      right
      simp only [List.length_drop] at l1 l2
      exact ⟨by omega, rfl⟩
  · rw [e1, except_bind_error]
    right
    exact ⟨by omega, rfl⟩

/-- C19 as stated fails: a header chunk of eighteen zero bytes stores the
length field 0, for which the computed name length is 2^64 - 16, and the read
of the name leaves the chunk. -/
theorem short_length_field_overruns :
    (xr_reader.ofBytes (List.replicate 18 0)).r_u16 = .ok (0, ⟨2, List.replicate 16 0⟩) ∧
    name_size_of 0 = 18446744073709551600 ∧
    ¬ name_size_of 0 ≤ 65519 ∧
    read_2947 [] (xr_reader.ofBytes (List.replicate 18 0)) = .error .out_of_bounds ∧
    (extract_2947 failing_env [] [] (xr_reader.ofBytes (List.replicate 18 0))
      (Ptr.ofBytes []) []).2.2 = .error .out_of_bounds := by
  refine ⟨rfl, by decide, by decide, rfl, rfl⟩

/-- C19, amended. For every header byte sequence at the cursor of
`extract_2947` whose next record stores a length field of at least 16: the
name length computed is the stored length minus 16, a value between 0 and
65519; when the chunk holds the record whole (the `len` bytes that follow the
length field), the reads of the record, the name bytes and the trailing offset
among them, stay inside the chunk and leave the cursor right after the record;
and when the chunk is shorter, a read leaves the chunk. -/
theorem name_size_of_stored_length (pfx : Str) (s s1 : xr_reader) (len : Nat)
    (h : s.r_u16 = .ok (len, s1)) (hlen : 16 ≤ len) :
    name_size_of len = len - 16 ∧ name_size_of len ≤ 65519 ∧
    (len ≤ s1.rest.length →
      len + 2 ≤ s.rest.length ∧
      ∃ e, read_2947 pfx s = .ok (e, ⟨s.pos + (len + 2), s.rest.drop (len + 2)⟩)) ∧
    (s1.rest.length < len → read_2947 pfx s = .error .out_of_bounds) := by
  obtain ⟨hlt, hs1, h2⟩ := r_u16_inv s s1 len h
  have hn := name_size_of_ge len hlen hlt
  have hl1 : s1.rest.length = s.rest.length - 2 := by rw [hs1]; simp
  refine ⟨hn, by omega, ?_, ?_⟩
  · intro hle
    rcases read_2947_cases pfx s s1 len h with ⟨_, e, he⟩ | ⟨hc, _⟩
    · have e1 : name_size_of len + 18 = len + 2 := by omega
      rw [e1] at he
      exact ⟨by omega, e, he⟩
    · omega
  · intro hle
    rcases read_2947_cases pfx s s1 len h with ⟨hc, _⟩ | ⟨_, he⟩
    · omega
    · exact he

/-- Witness of C19 (amended): the record of a file named "a.txt". -/
theorem name_size_of_stored_length_witness :
    name_size_of 21 = 21 - 16 ∧ name_size_of 21 ≤ 65519 ∧
    (21 ≤ (xr_reader.mk 2 (List.drop 2 (record_bytes (db_file.mk (ascii "a.txt") 7 8 1 1)))).rest.length →
      21 + 2 ≤ (xr_reader.ofBytes (record_bytes (db_file.mk (ascii "a.txt") 7 8 1 1))).rest.length ∧
      ∃ e, read_2947 (ascii "out/")
          (xr_reader.ofBytes (record_bytes (db_file.mk (ascii "a.txt") 7 8 1 1))) =
        .ok (e, ⟨(xr_reader.ofBytes (record_bytes (db_file.mk (ascii "a.txt") 7 8 1 1))).pos +
            (21 + 2),
          (xr_reader.ofBytes (record_bytes (db_file.mk (ascii "a.txt") 7 8 1 1))).rest.drop
            (21 + 2)⟩)) ∧
    ((xr_reader.mk 2 (List.drop 2 (record_bytes (db_file.mk (ascii "a.txt") 7 8 1 1)))).rest.length
        < 21 →
      read_2947 (ascii "out/")
          (xr_reader.ofBytes (record_bytes (db_file.mk (ascii "a.txt") 7 8 1 1))) =
        .error .out_of_bounds) :=
  name_size_of_stored_length (ascii "out/")
    (xr_reader.ofBytes (record_bytes (db_file.mk (ascii "a.txt") 7 8 1 1)))
    (xr_reader.mk 2 (List.drop 2 (record_bytes (db_file.mk (ascii "a.txt") 7 8 1 1)))) 21
    rfl (by decide)

/-! ## The paths of packed files -/

end DbConverter
